import Mathlib

/-!
Detailed placement legalizer (OpenDP): an embedding of `Place.cpp` and `Opendp.cpp`.

The placer state `Opendp` is passed explicitly.  Cells live in the vector `cells_`
and are referred to by their index (the C++ code uses `Cell*`); a pixel stores the
index of its occupant.  Coordinates are C++ `int`s, modelled by `Int`: signed
overflow is undefined behaviour in C++, so every statement below is about runs
whose arithmetic stays in range.

Functions of `Opendp.cpp` that Place.cpp calls with one more argument (a row
height, a site width or a padded flag) appear twice: under their own name as
written in `Opendp.cpp`, and under a second name with the argument passed in.
Functions that are not in the sources at hand (`paintPixel`, `erasePixel`,
`gridPixel`, `getRowHeight`, `getSiteWidth`, `getRowInfo`, `map_coordinates`) are
modelled from the specification and say so in their comment.

A fatal message of the logger (`error`, `critical`) does not return to the caller:
a function that can raise one returns an `Outcome`, the value or the id of the
message, with the state at that moment.  `std::sort` is an insertion sort that
keeps the input order of equivalent elements (C++ leaves it unspecified), a
`std::set<Cell*>` is iterated in the order of the cell indices, and the values of
`rand()` are a parameter of `anneal`.

The last part embeds `frTerm::addPin` and `frTerm::getBBox` of `frTerm.h` (the
router database); the methods `dx`, `dy` and `merge` of `odb::Rect` it calls are
not in the sources at hand and are modelled by their meaning.
-/

namespace Dpl

/-! ## Integer helpers -/

/-- C++ `int / int`: the quotient truncated toward zero. -/
def cdiv (a b : Int) : Int := Int.tdiv a b

/-- C++ `int % int`: the remainder of the truncated division. -/
def cmod (a b : Int) : Int := Int.tmod a b

/-- C++ `std::abs` on `int`. -/
def iabs (a : Int) : Int := if a < 0 then -a else a

/-- The loop range `for (int v = lo; v < hi; v++)`. -/
def intRange (lo hi : Int) : List Int :=
  (List.range (hi - lo).toNat).map (fun (k : Nat) => lo + (k : Int))

/-- `divRound` (Opendp.cpp): `round(static_cast<double>(dividend) / divisor)`, the
nearest integer with halves rounded away from zero.  For 32-bit operands the
double quotient never crosses a half-integer, so the result is the rounding of
the exact quotient, computed here in integers. -/
def divRound (dividend divisor : Int) : Int :=
  let q : Int := ((2 * dividend.natAbs + divisor.natAbs) / (2 * divisor.natAbs) : Nat)
  if (decide (dividend < 0)) != (decide (divisor < 0)) then -q else q

/-- `divCeil` (Opendp.cpp): `ceil(static_cast<double>(dividend) / divisor)`, the
ceiling of the exact quotient. -/
def divCeil (dividend divisor : Int) : Int := -(Int.fdiv (-dividend) divisor)

/-- `divFloor` (Opendp.cpp): `dividend / divisor` on C++ ints. -/
def divFloor (dividend divisor : Int) : Int := cdiv dividend divisor

/-! ## Data model -/

/-- The LEF master classes (`odb::dbMasterType`) named in `isPaddedType` and `isStdCell`. -/
inductive dbMasterType where
  | CORE | CORE_ANTENNACELL | CORE_FEEDTHRU | CORE_TIEHIGH | CORE_TIELOW
  | CORE_SPACER | CORE_WELLTAP
  | BLOCK | BLOCK_BLACKBOX | BLOCK_SOFT
  | ENDCAP | ENDCAP_PRE | ENDCAP_POST
  | ENDCAP_TOPLEFT | ENDCAP_TOPRIGHT | ENDCAP_BOTTOMLEFT | ENDCAP_BOTTOMRIGHT
  | COVER | COVER_BUMP | RING
  | PAD | PAD_AREAIO | PAD_INPUT | PAD_OUTPUT | PAD_INOUT | PAD_POWER | PAD_SPACER
  | NONE
  deriving DecidableEq, Repr

/-- The class `odb::Point`. -/
structure Point where
  x : Int
  y : Int
  deriving DecidableEq, Repr

/-- The class `odb::Rect`. -/
structure Rect where
  xMin : Int
  yMin : Int
  xMax : Int
  yMax : Int
  deriving DecidableEq, Repr

/-- The struct `Cell`, with the attributes of its `db_inst_` that the placer reads
inlined: the instance location, its fixed flag and the type of its master. -/
structure Cell where
  /-- The x given by `db_inst_->getLocation`. -/
  inst_x : Int := 0
  /-- The y given by `db_inst_->getLocation`. -/
  inst_y : Int := 0
  /-- The flag `db_inst_->isFixed()`. -/
  inst_fixed : Bool := false
  /-- The type `db_inst_->getMaster()->getType()`. -/
  master_type : dbMasterType := dbMasterType.CORE
  /-- True for `dummy_cell_` only (`cell == &dummy_cell_`). -/
  is_dummy : Bool := false
  x_ : Int := 0
  y_ : Int := 0
  width_ : Int := 0
  height_ : Int := 0
  is_placed_ : Bool := false
  hold_ : Bool := false
  /-- The pointer `group_`, as an index into `groups_`. -/
  group_ : Option Nat := none
  /-- Modelled from the spec: the value of `getRowHeight(cell)`, which is not in
  src; the spec calls it the cell's row-height, the row height of the grid layer
  the cell is painted on. -/
  row_height : Int := 0
  /-- The pointer `region_`, as the rectangle it points to (null: none). -/
  region_ : Option Rect := none
  /-- The bytes of the name `db_inst_->getConstName()`. -/
  inst_name : List Nat := []
  /-- The width `db_inst_->getMaster()->getWidth()`. -/
  master_width : Int := 0
  /-- The height `db_inst_->getMaster()->getHeight()`. -/
  master_height : Int := 0
  /-- The flag `is_multi_row_` of the entry of the master in `db_master_map_`. -/
  is_multi_row : Bool := false
  deriving DecidableEq, Repr

instance : Inhabited Cell := ⟨{}⟩

/-- The struct `Pixel`. -/
structure Pixel where
  /-- The occupant, as an index into `cells_`. -/
  cell : Option Nat := none
  group_ : Option Nat := none
  is_valid : Bool := false
  is_hopeless : Bool := false
  deriving DecidableEq, Repr

/-- The struct `GridInfo`, the metadata of one grid layer. -/
structure GridInfo where
  row_count : Int
  site_count : Int
  grid_index : Nat
  deriving DecidableEq, Repr

/-- The struct `Group`. -/
structure Group where
  boundary : Rect := ⟨0, 0, 0, 0⟩
  regions : List Rect := []
  cells_ : List Nat := []
  /-- The utilization `util`, a double in C++, as a rational number. -/
  util : Rat := 0
  deriving DecidableEq, Repr

instance : Inhabited Group := ⟨{}⟩

/-- The result of a search: `PixelPt` holds a pixel pointer (null when nothing was
found) and a grid point. -/
structure PixelPt where
  pixel : Option Pixel := none
  pt : Point := ⟨0, 0⟩
  deriving DecidableEq, Repr

/-- The members of the class `Opendp` that placement reads and writes.  The grid
`grid_[layer][y][x]` is a function of the three indices; the bounds of a layer
are its `row_count` and `site_count`. -/
structure Opendp where
  cells_ : List Cell := []
  groups_ : List Group := []
  core_ : Rect := ⟨0, 0, 0, 0⟩
  site_width_ : Int := 1
  row_height_ : Int := 1
  row_count_ : Int := 0
  row_site_count_ : Int := 0
  pad_left_ : Int := 0
  pad_right_ : Int := 0
  max_displacement_x_ : Int := 0
  max_displacement_y_ : Int := 0
  bin_search_width_ : Int := 1
  disallow_one_site_gaps_ : Bool := false
  /-- The keys of `grid_info_map_`: the grid index of the layer of a row height. -/
  layer_index_ : Int → Nat := fun _ => 0
  /-- The `row_count` of the layer with the given index. -/
  layer_row_count_ : Nat → Int := fun _ => 0
  /-- The `site_count` of the layer with the given index. -/
  layer_site_count_ : Nat → Int := fun _ => 0
  /-- The pixel array `grid_[layer][y][x]`. -/
  grid_ : Nat → Int → Int → Pixel := fun _ _ _ => {}
  /-- The instances that could not be placed, as indices of their cells. -/
  placement_failures_ : List Nat := []
  have_multi_row_cells_ : Bool := false
  row0_orient_is_r0_ : Bool := true
  row0_top_power_is_vdd_ : Bool := true
  /-- The fraction `group_refine_percent_`, a double in C++, as a rational number. -/
  group_refine_percent_ : Rat := 0

/-- The cell behind a `Cell*`, given as an index into `cells_`. -/
def Opendp.cell (dp : Opendp) (c : Nat) : Cell := dp.cells_.getD c default

/-- The lookup `grid_info_map_.at(row_height)`; every row height in use has an entry. -/
def grid_info_map_ (dp : Opendp) (row_height : Int) : GridInfo :=
  { row_count := dp.layer_row_count_ (dp.layer_index_ row_height)
    site_count := dp.layer_site_count_ (dp.layer_index_ row_height)
    grid_index := dp.layer_index_ row_height }

/-- Modelled from the spec: `getRowHeight(cell)` is not in src; it is the cell's
row-height, which selects the cell's grid layer. -/
def getRowHeight (_dp : Opendp) (cell : Cell) : Int := cell.row_height

/-- Modelled from the spec: `getSiteWidth(cell)` is not in src; the spec has one
site width for the core (G5: x is a multiple of site_width). -/
def getSiteWidth (dp : Opendp) (_cell : Cell) : Int := dp.site_width_

/-- Modelled from the spec: `getRowInfo(cell)` is not in src; it pairs the cell's
row height with the metadata of the layer of that row height. -/
def getRowInfo (dp : Opendp) (cell : Cell) : Int × GridInfo :=
  (getRowHeight dp cell, grid_info_map_ dp (getRowHeight dp cell))

/-- Modelled from the spec: `map_coordinates` is not in src; the spec scales
`max_displacement_y` by the ratio of the base row-height to the cell's
row-height, floored. -/
def map_coordinates (original_coordinate original_step target_step : Int) : Int :=
  cdiv (original_coordinate * original_step) target_step

/-- Modelled from the spec: `gridPixel(layer, x, y)` is not in src; it returns the
pixel, or null when (x, y) is out of the bounds of the layer. -/
def gridPixel (dp : Opendp) (layer : Nat) (x y : Int) : Option Pixel :=
  if 0 ≤ x ∧ x < dp.layer_site_count_ layer ∧ 0 ≤ y ∧ y < dp.layer_row_count_ layer then
    some (dp.grid_ layer y x)
  else none

/-- The method `Cell::inGroup`: `group_ != nullptr`. -/
def Cell.inGroup (cell : Cell) : Bool := cell.group_.isSome

/-! ## `Opendp.cpp` -/

/-- `Opendp::isFixed`. -/
def isFixed (cell : Cell) : Bool := cell.is_dummy || cell.inst_fixed

/-- `Opendp::isPaddedType`. -/
def isPaddedType (cell : Cell) : Bool :=
  match cell.master_type with
  | .CORE | .CORE_ANTENNACELL | .CORE_FEEDTHRU | .CORE_TIEHIGH | .CORE_TIELOW
  | .CORE_WELLTAP | .ENDCAP | .ENDCAP_PRE | .ENDCAP_POST => true
  | .CORE_SPACER | .BLOCK | .BLOCK_BLACKBOX | .BLOCK_SOFT
  | .ENDCAP_TOPLEFT | .ENDCAP_TOPRIGHT | .ENDCAP_BOTTOMLEFT | .ENDCAP_BOTTOMRIGHT
  | .COVER | .COVER_BUMP | .RING
  | .PAD | dbMasterType.PAD_AREAIO | .PAD_INPUT | .PAD_OUTPUT | .PAD_INOUT | .PAD_POWER
  | .PAD_SPACER | .NONE => false

/-- `Opendp::isStdCell`. -/
def isStdCell (cell : Cell) : Bool :=
  match cell.master_type with
  | .CORE | .CORE_ANTENNACELL | .CORE_FEEDTHRU | .CORE_TIEHIGH | .CORE_TIELOW
  | .CORE_SPACER | .CORE_WELLTAP => true
  | .BLOCK | .BLOCK_BLACKBOX | .BLOCK_SOFT
  | .ENDCAP | .ENDCAP_PRE | .ENDCAP_POST
  | .ENDCAP_TOPLEFT | .ENDCAP_TOPRIGHT | .ENDCAP_BOTTOMLEFT | .ENDCAP_BOTTOMRIGHT
  | .COVER | .COVER_BUMP | .RING
  | .PAD | dbMasterType.PAD_AREAIO | .PAD_INPUT | .PAD_OUTPUT | .PAD_INOUT | .PAD_POWER
  | .PAD_SPACER | .NONE => false

/-- `Opendp::isPadded`. -/
def isPadded (dp : Opendp) (cell : Cell) : Bool :=
  isPaddedType cell && (decide (dp.pad_left_ > 0) || decide (dp.pad_right_ > 0))

/-- `Opendp::initialLocation(const Cell*, int*, int*)`: the instance location
relative to the core origin. -/
def initialLocation (dp : Opendp) (cell : Cell) : Point :=
  ⟨cell.inst_x - dp.core_.xMin, cell.inst_y - dp.core_.yMin⟩

/-- `Opendp::initialPaddedLocation`. -/
def initialPaddedLocation (dp : Opendp) (cell : Cell) : Point :=
  let p := initialLocation dp cell
  if isPadded dp cell then ⟨p.x - dp.pad_left_ * dp.site_width_, p.y⟩ else p

/-- The call `initialLocation(cell, padded)` of Place.cpp: the padded or the plain
initial location of Opendp.cpp, as the flag says. -/
def initialLocationP (dp : Opendp) (cell : Cell) (padded : Bool) : Point :=
  if padded then initialPaddedLocation dp cell else initialLocation dp cell

/-- `Opendp::disp`: the L1 distance from the initial to the current location. -/
def disp (dp : Opendp) (cell : Cell) : Int :=
  let init := initialLocation dp cell
  iabs (init.x - cell.x_) + iabs (init.y - cell.y_)

/-- `Opendp::paddedWidth`. -/
def paddedWidth (dp : Opendp) (cell : Cell) : Int :=
  if isPadded dp cell then cell.width_ + (dp.pad_left_ + dp.pad_right_) * dp.site_width_
  else cell.width_

/-- `Opendp::gridPaddedWidth`. -/
def gridPaddedWidth (dp : Opendp) (cell : Cell) : Int :=
  divCeil (paddedWidth dp cell) dp.site_width_

/-- `Opendp::gridHeight(const Cell*)`. -/
def gridHeight (dp : Opendp) (cell : Cell) : Int := divCeil cell.height_ dp.row_height_

/-- The call `gridHeight(cell, row_height)` of Place.cpp: `gridHeight` of Opendp.cpp
with the row height passed in. -/
def gridHeightRow (cell : Cell) (row_height : Int) : Int := divCeil cell.height_ row_height

/-- `Opendp::gridX(int)`. -/
def gridX (dp : Opendp) (x : Int) : Int := cdiv x dp.site_width_

/-- `Opendp::gridY(int)`. -/
def gridY (dp : Opendp) (y : Int) : Int := cdiv y dp.row_height_

/-- `Opendp::gridPaddedX(const Cell*)`. -/
def gridPaddedX (dp : Opendp) (cell : Cell) : Int :=
  if isPadded dp cell then gridX dp (cell.x_ - dp.pad_left_ * dp.site_width_)
  else gridX dp cell.x_

/-- `Opendp::gridY(const Cell*)`. -/
def gridYCell (dp : Opendp) (cell : Cell) : Int := gridY dp cell.y_

/-- `Opendp::setGridPaddedLoc`: the new value of the cell. -/
def setGridPaddedLoc (dp : Opendp) (cell : Cell) (x y : Int) : Cell :=
  { cell with
    x_ := (x + (if isPadded dp cell then dp.pad_left_ else 0)) * dp.site_width_
    y_ := y * dp.row_height_ }

/-! ## Grid painting -/

/-- Modelled from the spec: `paintPixel` is not in src.  `paint(cell, grid_x, grid_y)`
sets occupant = cell for all pixels in the cell's footprint on its layer and
updates cell.x, cell.y (through `setGridPaddedLoc`) and cell.placed = true.  The
footprint is the one `binSearch` checks: `gridPaddedWidth` sites by
`gridHeight(cell, row_height)` rows.  The spec's precondition (the footprint is
empty) is an assertion and not part of the state change. -/
def paintPixel (dp : Opendp) (c : Nat) (grid_x grid_y : Int) : Opendp :=
  let cell := dp.cell c
  let x_end := grid_x + gridPaddedWidth dp cell
  let y_end := grid_y + gridHeightRow cell (getRowHeight dp cell)
  let layer := (getRowInfo dp cell).2.grid_index
  { dp with
    cells_ := dp.cells_.set c { setGridPaddedLoc dp cell grid_x grid_y with is_placed_ := true }
    grid_ := fun l y x =>
      if l = layer ∧ grid_x ≤ x ∧ x < x_end ∧ grid_y ≤ y ∧ y < y_end then
        { dp.grid_ l y x with cell := some c }
      else dp.grid_ l y x }

/-- Modelled from the spec: `erasePixel` is not in src.  `erase(cell)` is the inverse
of paint: it clears the occupant of all pixels in the footprint of the cell at
its current location and sets cell.placed = false.  The pixels of a fixed cell
are never erased (G2), and a cell that is not placed has nothing painted (the
spec has an assertion for it; `placeGroups2` calls erase for every cell of a
group, placed or not): for these the call changes nothing.  An erased cell is
no longer pinned: `hold` is cleared with `placed`, so that the brick packing,
which erases every cell of the group and skips the pinned ones, places each
erased cell again, as the spec has it. -/
def erasePixel (dp : Opendp) (c : Nat) : Opendp :=
  let cell := dp.cell c
  if isFixed cell || !cell.is_placed_ then dp
  else
    let grid_x := gridPaddedX dp cell
    let grid_y := gridYCell dp cell
    let x_end := grid_x + gridPaddedWidth dp cell
    let y_end := grid_y + gridHeightRow cell (getRowHeight dp cell)
    let layer := (getRowInfo dp cell).2.grid_index
    { dp with
      cells_ := dp.cells_.set c { cell with is_placed_ := false, hold_ := false }
      grid_ := fun l y x =>
        if l = layer ∧ grid_x ≤ x ∧ x < x_end ∧ grid_y ≤ y ∧ y < y_end then
          { dp.grid_ l y x with cell := none }
        else dp.grid_ l y x }

/-! ## `Place.cpp`: swap -/

/-- `Opendp::distChange`. -/
def distChange (dp : Opendp) (cell : Cell) (x y : Int) : Int :=
  let init := initialLocationP dp cell false
  let init_x := init.x
  let init_y := init.y
  let cell_dist := iabs (cell.x_ - init_x) + iabs (cell.y_ - init_y)
  let pt_dist := iabs (init_x - x) + iabs (init_y - y)
  pt_dist - cell_dist

/-- The guard of `Opendp::swapCells`: the two pointers differ, neither cell is held,
the widths and the heights agree, and neither cell is fixed. -/
def swapGuard (dp : Opendp) (c1 c2 : Nat) : Bool :=
  let cell1 := dp.cell c1
  let cell2 := dp.cell c2
  decide (c1 ≠ c2) && !cell1.hold_ && !cell2.hold_
    && decide (cell1.width_ = cell2.width_) && decide (cell1.height_ = cell2.height_)
    && !isFixed cell1 && !isFixed cell2

/-- `Opendp::swapCells`: the returned flag and the state after the call. -/
def swapCells (dp : Opendp) (c1 c2 : Nat) : Bool × Opendp :=
  let cell1 := dp.cell c1
  let cell2 := dp.cell c2
  if swapGuard dp c1 c2 then
    let dist_change := distChange dp cell1 cell2.x_ cell2.y_
                        + distChange dp cell2 cell1.x_ cell1.y_
    if dist_change < 0 then
      let grid_x1 := gridPaddedX dp cell2
      let grid_y1 := gridYCell dp cell2
      let grid_x2 := gridPaddedX dp cell1
      let grid_y2 := gridYCell dp cell1
      let dp1 := erasePixel dp c1
      let dp2 := erasePixel dp1 c2
      let dp3 := paintPixel dp2 c1 grid_x1 grid_y1
      let dp4 := paintPixel dp3 c2 grid_x2 grid_y2
      (true, dp4)
    else (false, dp)
  else (false, dp)

/-! ## `Place.cpp`: pixel checks -/

/-- The test of the inner loop of `Opendp::checkPixels`: true when the pixel at
(x1, y1) makes `checkPixels` return false. -/
def pixelBlocked (dp : Opendp) (cell : Cell) (layer : Nat) (x1 y1 : Int) : Bool :=
  match gridPixel dp layer x1 y1 with
  | none => true
  | some pixel =>
    pixel.cell.isSome || !pixel.is_valid
      || (cell.inGroup && pixel.group_ != cell.group_)
      || (!cell.inGroup && pixel.group_.isSome)

/-- The lambda `isAbutted` of `Opendp::checkPixels`. -/
def isAbutted (dp : Opendp) (layer : Nat) (x y : Int) : Bool :=
  match gridPixel dp layer x y with
  | none => true
  | some pixel => pixel.cell.isSome

/-- The lambda `cellAtSite` of `Opendp::checkPixels`. -/
def cellAtSite (dp : Opendp) (layer : Nat) (x y : Int) : Bool :=
  match gridPixel dp layer x y with
  | none => false
  | some pixel => pixel.cell.isSome

/-- The four corner tests of `Opendp::checkPixels` under `disallow_one_site_gaps_`:
true when one of them returns false from `checkPixels`. -/
def oneSiteGap (dp : Opendp) (layer : Nat) (x y x_end y_end : Int) : Bool :=
  let x_begin := max 0 (x - 1)
  let y_begin := max 0 (y - 1)
  let x_finish := min x_end (dp.row_site_count_ - 1)
  let y_finish := min y_end (dp.row_count_ - 1)
  (!isAbutted dp layer x_begin y_begin && cellAtSite dp layer (x_begin - 1) y_begin)
    || (!isAbutted dp layer x_begin y_finish && cellAtSite dp layer (x_begin - 1) y_finish)
    || (!isAbutted dp layer x_finish y_begin && cellAtSite dp layer (x_finish + 1) y_begin)
    || (!isAbutted dp layer x_finish y_finish && cellAtSite dp layer (x_finish + 1) y_finish)

/-- `Opendp::checkPixels`: every loop iteration that returns false makes the
conjunction false. -/
def checkPixels (dp : Opendp) (cell : Cell) (x y x_end y_end : Int) : Bool :=
  let row_info := getRowInfo dp cell
  if x_end > row_info.2.site_count then false
  else
    let layer := row_info.2.grid_index
    (intRange y y_end).all fun y1 =>
      (intRange x x_end).all (fun x1 => !pixelBlocked dp cell layer x1 y1)
        && !(dp.disallow_one_site_gaps_ && oneSiteGap dp layer x y x_end y_end)

/-! ## `Place.cpp`: diamond search -/

/-- The result `PixelPt()`: no pixel. -/
def PixelPt.none : PixelPt := {}

/-- The method `odb::Rect::closestPtInside`: the point clamped into the rectangle
(the spec: the window is clipped to the boundary, closest point inside). -/
def Rect.closestPtInside (r : Rect) (p : Point) : Point :=
  ⟨min (max p.x r.xMin) r.xMax, min (max p.y r.yMin) r.yMax⟩

/-- The scan order of `Opendp::binSearch`: right to left when the target x lies
right of the start of the bin, left to right otherwise. -/
def binScan (dp : Opendp) (x bin_x : Int) : List Int :=
  if x > bin_x then (intRange 0 dp.bin_search_width_).reverse
  else intRange 0 dp.bin_search_width_

/-- `Opendp::binSearch`. -/
def binSearch (dp : Opendp) (x : Int) (cell : Cell) (bin_x bin_y : Int) : PixelPt :=
  let x_end := bin_x + gridPaddedWidth dp cell
  let row_height := getRowHeight dp cell
  let height := gridHeightRow cell row_height
  let y_end := bin_y + height
  let grid_info := grid_info_map_ dp row_height
  if y_end > grid_info.row_count then PixelPt.none
  else
    match (binScan dp x bin_x).find?
        (fun i => checkPixels dp cell (bin_x + i) bin_y (x_end + i) y_end) with
    | some i => ⟨gridPixel dp grid_info.grid_index (bin_x + i) bin_y, ⟨bin_x + i, bin_y⟩⟩
    | none => PixelPt.none

/-- The limits `x_min`, `y_min`, `x_max`, `y_max` of a diamond search. -/
structure SearchLimits where
  x_min : Int
  y_min : Int
  x_max : Int
  y_max : Int
  deriving DecidableEq, Repr

/-- `Opendp::diamondSearchSide`; the pair is (`best_pt`, `best_dist`). -/
def diamondSearchSide (dp : Opendp) (cell : Cell) (x y : Int) (lim : SearchLimits)
    (x_offset y_offset : Int) (best : PixelPt × Int) : PixelPt × Int :=
  let bin_x := min lim.x_max (max lim.x_min (x + x_offset * dp.bin_search_width_))
  let bin_y := min lim.y_max (max lim.y_min (y + y_offset))
  let avail_pt := binSearch dp x cell bin_x bin_y
  if avail_pt.pixel.isSome then
    let avail_dist := iabs (x - avail_pt.pt.x) * getSiteWidth dp cell
                       + iabs (y - avail_pt.pt.y) * getRowHeight dp cell
    if best.1.pixel.isNone || decide (avail_dist < best.2) then (avail_pt, avail_dist)
    else best
  else best

/-- The value `scaled_max_displacement_y_` of `Opendp::diamondSearch`. -/
def scaledMaxDisplacementY (dp : Opendp) (cell : Cell) : Int :=
  map_coordinates dp.max_displacement_y_ dp.row_height_ (getRowHeight dp cell)

/-- The body of the loop `left side` of `Opendp::diamondSearch` at radius i and
index j. -/
def diamondLeftStep (dp : Opendp) (cell : Cell) (x y : Int) (lim : SearchLimits) (i : Int)
    (best : PixelPt × Int) (j : Int) : PixelPt × Int :=
  let x_offset := -(cdiv (j + 1) 2)
  let y_offset := cdiv (i * 2 - j) 2
  if iabs x_offset < dp.max_displacement_x_ ∧ iabs y_offset < scaledMaxDisplacementY dp cell then
    let y_offset := if cmod j 2 = 1 then -y_offset else y_offset
    diamondSearchSide dp cell x y lim x_offset y_offset best
  else best

/-- The body of the loop `right side` of `Opendp::diamondSearch` at radius i and
index j. -/
def diamondRightStep (dp : Opendp) (cell : Cell) (x y : Int) (lim : SearchLimits) (i : Int)
    (best : PixelPt × Int) (j : Int) : PixelPt × Int :=
  let x_offset := cdiv (j - 1) 2
  let y_offset := cdiv ((i + 1) * 2 - j) 2
  if iabs x_offset < dp.max_displacement_x_ ∧ iabs y_offset < scaledMaxDisplacementY dp cell then
    let y_offset := if cmod j 2 = 1 then -y_offset else y_offset
    diamondSearchSide dp cell x y lim x_offset y_offset best
  else best

/-- One iteration of the radius loop of `Opendp::diamondSearch`: the left side,
then the right side, from an empty `best_pt` and `best_dist = 0`. -/
def diamondRadius (dp : Opendp) (cell : Cell) (x y : Int) (lim : SearchLimits) (i : Int) :
    PixelPt × Int :=
  let left := (intRange 1 (i * 2)).foldl (diamondLeftStep dp cell x y lim i) (PixelPt.none, 0)
  (intRange 1 ((i + 1) * 2)).foldl (diamondRightStep dp cell x y lim i) left

/-- The radius loop of `Opendp::diamondSearch`: the first radius with a best point
returns it. -/
def diamondLoop (dp : Opendp) (cell : Cell) (x y : Int) (lim : SearchLimits) :
    List Int → PixelPt
  | [] => PixelPt.none
  | i :: rest =>
    let best_pt := (diamondRadius dp cell x y lim i).1
    if best_pt.pixel.isSome then best_pt else diamondLoop dp cell x y lim rest

/-- The constructor `odb::Rect(x1, y1, x2, y2)` of the geometry library: it stores
each pair of bounds in ascending order. -/
def Rect.init (x1 y1 x2 y2 : Int) : Rect :=
  ⟨min x1 x2, min y1 y2, max x1 x2, max y1 y2⟩

/-- The rectangle `grid_boundary` of `Opendp::diamondSearch`: the boundary of the
group g mapped to the grid, staying inside. -/
def groupGridBoundary (dp : Opendp) (g : Nat) (site_width row_height : Int) : Rect :=
  let boundary := (dp.groups_.getD g default).boundary
  Rect.init (divCeil boundary.xMin site_width) (divCeil boundary.yMin row_height)
    (cdiv boundary.xMax site_width) (cdiv boundary.yMax row_height)

/-- The distance `diamondSearchSide` measures from the start (x, y) to a grid point:
`abs(x - pt.x) * site_width + abs(y - pt.y) * row_height`. -/
def searchDist (dp : Opendp) (cell : Cell) (x y : Int) (pt : Point) : Int :=
  iabs (x - pt.x) * getSiteWidth dp cell + iabs (y - pt.y) * getRowHeight dp cell

/-- The search limits of `Opendp::diamondSearch`: the displacement window, restricted
to the group boundary and clipped to the grid bounds. -/
def diamondLimits (dp : Opendp) (cell : Cell) (x y : Int) : SearchLimits :=
  let x_min := x - dp.max_displacement_x_
  let x_max := x + dp.max_displacement_x_
  let scaled_max_displacement_y_ := scaledMaxDisplacementY dp cell
  let y_min := y - scaled_max_displacement_y_
  let y_max := y + scaled_max_displacement_y_
  let row_info := getRowInfo dp cell
  let row_height := row_info.1
  let grid_info := row_info.2
  let site_width := getSiteWidth dp cell
  let lim : SearchLimits :=
    match cell.group_ with
    | some g =>
      let grid_boundary := groupGridBoundary dp g site_width row_height
      let pmin := grid_boundary.closestPtInside ⟨x_min, y_min⟩
      let pmax := grid_boundary.closestPtInside ⟨x_max, y_max⟩
      ⟨pmin.x, pmin.y, pmax.x, pmax.y⟩
    | none => ⟨x_min, y_min, x_max, y_max⟩
  ⟨max 0 lim.x_min, max 0 lim.y_min,
   min grid_info.site_count lim.x_max, min grid_info.row_count lim.y_max⟩

/-- `Opendp::diamondSearch`. -/
def diamondSearch (dp : Opendp) (cell : Cell) (x y : Int) : PixelPt :=
  let lim := diamondLimits dp cell x y
  let avail_pt := binSearch dp x cell x y
  if avail_pt.pixel.isSome then avail_pt
  else
    diamondLoop dp cell x y lim
      (intRange 1 (max (scaledMaxDisplacementY dp cell) dp.max_displacement_x_))

/-- `Opendp::mapMove(Cell*, const Point&)`: the returned flag and the state after
the call. -/
def mapMove (dp : Opendp) (c : Nat) (grid_pt : Point) : Bool × Opendp :=
  let grid_x := grid_pt.x
  let grid_y := grid_pt.y
  let pixel_pt := diamondSearch dp (dp.cell c) grid_x grid_y
  if pixel_pt.pixel.isSome then
    (true, paintPixel dp c pixel_pt.pt.x pixel_pt.pt.y)
  else (false, dp)

/-! ## `Place.cpp`: legal points -/

/-- The row height `Opendp::legalPt` works with: the argument, or the row height of
the cell when the argument is the default -1. -/
def legalRowHeight (dp : Opendp) (cell : Cell) (row_height : Int) : Int :=
  if row_height = -1 then getRowHeight dp cell else row_height

/-- The site width `Opendp::legalPt` works with: the argument, or the site width of
the cell when the argument is the default -1. -/
def legalSiteWidth (dp : Opendp) (cell : Cell) (site_width : Int) : Int :=
  if site_width = -1 then getSiteWidth dp cell else site_width

/-- `Opendp::legalPt(const Cell*, const Point&, int row_height, int site_width)`. -/
def legalPt (dp : Opendp) (cell : Cell) (pt : Point) (row_height site_width : Int) : Point :=
  let row_height := legalRowHeight dp cell row_height
  let grid_info := grid_info_map_ dp row_height
  let site_width := legalSiteWidth dp cell site_width
  let core_x := min (max 0 pt.x) (grid_info.site_count * site_width - cell.width_)
  let core_y := min (max 0 pt.y) (grid_info.row_count * row_height - cell.height_)
  let grid_x := divRound core_x site_width
  let grid_y := divRound core_y row_height
  let legal_x := grid_x * site_width
  let legal_y := grid_y * row_height
  ⟨legal_x, legal_y⟩

/-- `Opendp::legalGridPt(const Cell*, const Point&, int row_height, int site_width)`;
`gridX(x, site_width)` and `gridY(y, row_height)` are `gridX` and `gridY` of
Opendp.cpp with the divisor passed in. -/
def legalGridPt (dp : Opendp) (cell : Cell) (pt : Point) (row_height site_width : Int) : Point :=
  let site_width := legalSiteWidth dp cell site_width
  let row_height := legalRowHeight dp cell row_height
  let legal := legalPt dp cell pt row_height site_width
  ⟨cdiv legal.x site_width, cdiv legal.y row_height⟩

/-! ## Predicates on states and searches -/

/-- The test `binSearch` applies to the offset i of a bin. -/
def binTest (dp : Opendp) (cell : Cell) (bin_x bin_y : Int) (i : Int) : Bool :=
  checkPixels dp cell (bin_x + i) bin_y (bin_x + gridPaddedWidth dp cell + i)
    (bin_y + gridHeightRow cell (getRowHeight dp cell))

/-- The bin `diamondSearchSide` searches for the offsets (x_offset, y_offset). -/
def sideBin (dp : Opendp) (x y : Int) (lim : SearchLimits) (x_offset y_offset : Int) : Point :=
  ⟨min lim.x_max (max lim.x_min (x + x_offset * dp.bin_search_width_)),
   min lim.y_max (max lim.y_min (y + y_offset))⟩

/-- The cell c is placed and its footprint at its current location, on its layer,
contains the pixel (x, y). -/
def covers (dp : Opendp) (c : Nat) (layer : Nat) (x y : Int) : Prop :=
  (dp.cell c).is_placed_ = true
  ∧ layer = (getRowInfo dp (dp.cell c)).2.grid_index
  ∧ gridPaddedX dp (dp.cell c) ≤ x
  ∧ x < gridPaddedX dp (dp.cell c) + gridPaddedWidth dp (dp.cell c)
  ∧ gridYCell dp (dp.cell c) ≤ y
  ∧ y < gridYCell dp (dp.cell c) + gridHeightRow (dp.cell c) (getRowHeight dp (dp.cell c))

/-- The pixel invariant of the spec: every pixel a placed cell covers exists and
references the cell as its occupant. -/
def PixelsOwned (dp : Opendp) : Prop :=
  ∀ c layer x y, covers dp c layer x y →
    ∃ pixel, gridPixel dp layer x y = some pixel ∧ pixel.cell = some c

/-- (G1) No two placed cells cover the same pixel of a layer. -/
def NoOverlap (dp : Opendp) : Prop :=
  ∀ c1 c2 layer x y, covers dp c1 layer x y → covers dp c2 layer x y → c1 = c2

/-- (G3) Every pixel a placed cell covers has the group of the cell (no group when
the cell has none). -/
def GroupHonored (dp : Opendp) : Prop :=
  ∀ c layer x y, covers dp c layer x y →
    ∃ pixel, gridPixel dp layer x y = some pixel ∧ pixel.group_ = (dp.cell c).group_

/-- The pixel at (x, y) lies in the footprint painted for the cell c at (gx, gy). -/
def inPaint (dp : Opendp) (c : Nat) (gx gy : Int) (layer : Nat) (x y : Int) : Prop :=
  layer = (getRowInfo dp (dp.cell c)).2.grid_index
  ∧ gx ≤ x ∧ x < gx + gridPaddedWidth dp (dp.cell c)
  ∧ gy ≤ y ∧ y < gy + gridHeightRow (dp.cell c) (getRowHeight dp (dp.cell c))

/-- The location of the cell is one `setGridPaddedLoc` writes: x is a site (plus the
left padding of a padded cell) and y is a row. -/
def OnGrid (dp : Opendp) (cell : Cell) : Prop :=
  ∃ gx gy, cell.x_ = (setGridPaddedLoc dp cell gx gy).x_
    ∧ cell.y_ = (setGridPaddedLoc dp cell gx gy).y_

/-! ## Concrete states -/

/-- A core of 8 sites by 2 rows (site width 200, row height 1000, one site of left
padding) with two unplaced one-site cells of equal width and height: cell 0 is a
CORE cell (padded) with initial location (0, 1000), cell 1 is a CORE_SPACER cell
(never padded) with initial location (1100, 0). -/
def mixedPadBase : Opendp :=
  { cells_ := [ { inst_x := 0, inst_y := 1000, master_type := dbMasterType.CORE,
                  width_ := 200, height_ := 1000, row_height := 1000 },
                { inst_x := 1100, inst_y := 0, master_type := dbMasterType.CORE_SPACER,
                  width_ := 200, height_ := 1000, row_height := 1000 } ]
    core_ := ⟨0, 0, 1600, 2000⟩
    site_width_ := 200
    row_height_ := 1000
    row_count_ := 2
    row_site_count_ := 8
    pad_left_ := 1
    max_displacement_x_ := 8
    max_displacement_y_ := 2
    bin_search_width_ := 5
    layer_row_count_ := fun _ => 2
    layer_site_count_ := fun _ => 8
    grid_ := fun _ _ _ => { is_valid := true } }

/-- The state reached from `mixedPadBase` by painting cell 0 at grid (0, 0) and
cell 1 at grid (6, 1): cell 0 lies at (200, 0) and cell 1 at (1200, 1000). -/
def mixedPadPlaced : Opendp := paintPixel (paintPixel mixedPadBase 0 0 0) 1 6 1

/-- A core of 6 sites by 1 row (site width 200, row height 1000, bin width 5) with a
movable one-site cell 0 and a fixed cell 1 that covers the sites `lo .. hi - 1`;
`dx` and `dy` are the displacement limits. -/
def rowWithBlock (lo hi dx dy : Int) : Opendp :=
  { cells_ := [ { width_ := 200, height_ := 1000, row_height := 1000 },
                { inst_x := lo * 200, inst_fixed := true, x_ := lo * 200,
                  width_ := (hi - lo) * 200, height_ := 1000, row_height := 1000,
                  is_placed_ := true } ]
    core_ := ⟨0, 0, 1200, 1000⟩
    site_width_ := 200
    row_height_ := 1000
    row_count_ := 1
    row_site_count_ := 6
    max_displacement_x_ := dx
    max_displacement_y_ := dy
    bin_search_width_ := 5
    layer_row_count_ := fun _ => 1
    layer_site_count_ := fun _ => 6
    grid_ := fun _ _ x =>
      { is_valid := true, cell := if lo ≤ x ∧ x < hi then some 1 else none } }

/-- A core of 10 sites by 1 row (site width 200, row height 1000) with one movable
macro, 300 wide and 1000 high: its width is not a multiple of the site width. -/
def wideCellCore : Opendp :=
  { cells_ := [ { master_type := dbMasterType.BLOCK, width_ := 300, height_ := 1000,
                  row_height := 1000 } ]
    core_ := ⟨0, 0, 2000, 1000⟩
    site_width_ := 200
    row_height_ := 1000
    row_count_ := 1
    row_site_count_ := 10
    layer_row_count_ := fun _ => 1
    layer_site_count_ := fun _ => 10
    grid_ := fun _ _ _ => { is_valid := true } }

/-- The state `mixedPadPlaced` with cell 1 of type CORE as well, so that both cells
are padded, and with the initial locations (1400, 1000) and (200, 0): cell 0 is
painted at grid (0, 0) and lies at (200, 0), cell 1 is painted at grid (6, 1)
and lies at (1400, 1000). -/
def equalPadPlaced : Opendp :=
  paintPixel (paintPixel
    { mixedPadBase with
      cells_ := [ { inst_x := 1400, inst_y := 1000, master_type := dbMasterType.CORE,
                    width_ := 200, height_ := 1000, row_height := 1000 },
                  { inst_x := 200, inst_y := 0, master_type := dbMasterType.CORE,
                    width_ := 200, height_ := 1000, row_height := 1000 } ] } 0 0 0) 1 6 1

/-! ## `Place.cpp`: fatal messages -/

/-- The outcome of a call that may raise a fatal message of the logger (`error` and
`critical` do not return to the caller): the value returned, or the id of the
message raised, and in both cases the placer state at that moment. -/
inductive Outcome (α : Type) where
  | ok (value : α) (dp : Opendp)
  | fatal (id : Nat) (dp : Opendp)

/-- The state at the end of the call: at the return or at the fatal message. -/
def Outcome.state {α : Type} : Outcome α → Opendp
  | .ok _ dp => dp
  | .fatal _ dp => dp

/-- The id of the fatal message the call raised, if it raised one. -/
def Outcome.fatalId {α : Type} : Outcome α → Option Nat
  | .ok _ _ => none
  | .fatal id _ => some id

/-- The value the call returned, if it returned. -/
def Outcome.value? {α : Type} : Outcome α → Option α
  | .ok v _ => some v
  | .fatal _ _ => none

/-! ## `Place.cpp`: legal point of a cell -/

/-- `Opendp::isBlock` (Opendp.cpp). -/
def isBlock (cell : Cell) : Bool := decide (cell.master_type = dbMasterType.BLOCK)

/-- The constant `std::numeric_limits<int>::max()`. -/
def intMax : Int := 2147483647

/-- The values `best_x`, `best_y`, `best_dist` of `Opendp::moveHopeless`. -/
structure HopelessBest where
  best_x : Int
  best_y : Int
  best_dist : Int
  deriving DecidableEq, Repr

/-- `Opendp::moveHopeless`: the new (grid_x, grid_y) when the call returns true,
nothing when it returns false and leaves them as they are.  Each loop stops at
the first valid pixel it meets. -/
def moveHopeless (dp : Opendp) (cell : Cell) (grid_x grid_y : Int) : Option Point :=
  let site_width := getSiteWidth dp cell
  let row_info := getRowInfo dp cell
  let row_height := row_info.1
  let grid_index := row_info.2.grid_index
  let layer_site_count := divFloor (dp.core_.xMax - dp.core_.xMin) site_width
  let layer_row_count := divFloor (dp.core_.yMax - dp.core_.yMin) row_height
  let b0 : HopelessBest := ⟨grid_x, grid_y, intMax⟩
  -- left
  let b1 : HopelessBest :=
    match (intRange 0 grid_x).reverse.find? (fun x => (dp.grid_ grid_index grid_y x).is_valid) with
    | some x => ⟨x, grid_y, (grid_x - x - 1) * site_width⟩
    | none => b0
  -- right
  let b2 : HopelessBest :=
    match (intRange (grid_x + 1) layer_site_count).find?
        (fun x => (dp.grid_ grid_index grid_y x).is_valid) with
    | some x =>
      let dist := (x - grid_x) * site_width - cell.width_
      if dist < b1.best_dist then ⟨x, grid_y, dist⟩ else b1
    | none => b1
  -- below
  let b3 : HopelessBest :=
    match (intRange 0 grid_y).reverse.find? (fun y => (dp.grid_ grid_index y grid_x).is_valid) with
    | some y =>
      let dist := (grid_y - y - 1) * row_height
      if dist < b2.best_dist then ⟨grid_x, y, dist⟩ else b2
    | none => b2
  -- above
  let b4 : HopelessBest :=
    match (intRange (grid_y + 1) layer_row_count).find?
        (fun y => (dp.grid_ grid_index y grid_x).is_valid) with
    | some y =>
      let dist := (y - grid_y) * row_height - cell.height_
      if dist < b3.best_dist then ⟨grid_x, y, dist⟩ else b3
    | none => b3
  if b4.best_dist ≠ intMax then some ⟨b4.best_x, b4.best_y⟩ else none

/-- `Opendp::nearestBlockEdge`. -/
def nearestBlockEdge (dp : Opendp) (cell : Cell) (legal_pt : Point) (block_bbox : Rect) : Point :=
  let legal_x := legal_pt.x
  let legal_y := legal_pt.y
  let row_height := getRowHeight dp cell
  let site_width := getSiteWidth dp cell
  let x_min_dist := iabs (legal_x - block_bbox.xMin)
  let x_max_dist := iabs (block_bbox.xMax - (legal_x + cell.width_))
  let y_min_dist := iabs (legal_y - block_bbox.yMin)
  let y_max_dist := iabs (block_bbox.yMax - (legal_y + cell.height_))
  if x_min_dist < x_max_dist ∧ x_min_dist < y_min_dist ∧ x_min_dist < y_max_dist then
    -- left of block
    legalPt dp cell ⟨block_bbox.xMin - cell.width_, legal_pt.y⟩ row_height site_width
  else if x_max_dist ≤ x_min_dist ∧ x_max_dist ≤ y_min_dist ∧ x_max_dist ≤ y_max_dist then
    -- right of block
    legalPt dp cell ⟨block_bbox.xMax, legal_pt.y⟩ row_height site_width
  else if y_min_dist ≤ x_min_dist ∧ y_min_dist ≤ x_max_dist ∧ y_min_dist ≤ y_max_dist then
    -- below block
    legalPt dp cell
      ⟨legal_pt.x, divFloor block_bbox.yMin row_height * row_height - cell.height_⟩
      row_height site_width
  else
    -- above block
    legalPt dp cell ⟨legal_pt.x, divCeil block_bbox.yMax row_height * row_height⟩
      row_height site_width

/-- `Opendp::legalPt(const Cell*, bool padded, int row_height, int site_width)`: the
critical message 26 for a fixed cell, else the legal point.  `getGridInfo(cell)`
is the layer metadata of `getRowInfo(cell)`. -/
def legalPtInit (dp : Opendp) (cell : Cell) (padded : Bool) (row_height site_width : Int) :
    Except Nat Point :=
  if isFixed cell then .error 26
  else
    let row_height := legalRowHeight dp cell row_height
    let site_width := legalSiteWidth dp cell site_width
    let init := initialLocationP dp cell padded
    let legal_pt := legalPt dp cell init row_height site_width
    let grid_info := (getRowInfo dp cell).2
    let grid_x := cdiv legal_pt.x site_width
    let grid_y := cdiv legal_pt.y row_height
    match gridPixel dp grid_info.grid_index grid_x grid_y with
    | none => .ok legal_pt
    | some pixel =>
      -- Move std cells off of macros.  First try the is_hopeless strategy
      let moved : Option Point :=
        if pixel.is_hopeless then moveHopeless dp cell grid_x grid_y else none
      let legal_pt : Point :=
        match moved with
        | some g => ⟨g.x * site_width, g.y * row_height⟩
        | none => legal_pt
      let pixel : Option Pixel :=
        match moved with
        | some g => gridPixel dp grid_info.grid_index g.x g.y
        | none => some pixel
      let block : Option Nat := pixel.bind (fun p => p.cell)
      match block with
      | none => .ok legal_pt
      | some b =>
        if isBlock (dp.cell b) then
          let blk := dp.cell b
          let block_bbox := Rect.init blk.x_ blk.y_ (blk.x_ + blk.width_) (blk.y_ + blk.height_)
          let legal_x := legal_pt.x
          let legal_y := legal_pt.y
          if legal_x + cell.width_ ≥ block_bbox.xMin ∧ legal_x ≤ block_bbox.xMax
              ∧ legal_y + cell.height_ ≥ block_bbox.yMin ∧ legal_y ≤ block_bbox.yMax then
            .ok (nearestBlockEdge dp cell legal_pt block_bbox)
          else .ok legal_pt
        else .ok legal_pt

/-- `Opendp::legalGridPt(const Cell*, bool padded, int row_height, int site_width)`. -/
def legalGridPtInit (dp : Opendp) (cell : Cell) (padded : Bool) (row_height site_width : Int) :
    Except Nat Point :=
  let site_width := legalSiteWidth dp cell site_width
  let row_height := legalRowHeight dp cell row_height
  match legalPtInit dp cell padded row_height site_width with
  | .error id => .error id
  | .ok pt => .ok ⟨cdiv pt.x site_width, cdiv pt.y row_height⟩

/-- `Opendp::mapMove(Cell*)`. -/
def mapMoveInit (dp : Opendp) (c : Nat) : Outcome Bool :=
  match legalGridPtInit dp (dp.cell c) true (-1) (-1) with
  | .error id => .fatal id dp
  | .ok init => .ok (mapMove dp c init).1 (mapMove dp c init).2

/-! ## `Place.cpp`: shift move -/

/-- The call `gridPaddedWidth(cell, site_width)` of Place.cpp: `gridPaddedWidth` of
Opendp.cpp with the site width passed in. -/
def gridPaddedWidthSite (dp : Opendp) (cell : Cell) (site_width : Int) : Int :=
  divCeil (paddedWidth dp cell) site_width

/-- The set `region_cells` of `Opendp::shiftMove`: the cells that are not fixed and
occupy a pixel of the region around `grid_pt`.  A `std::set<Cell*>` is iterated
in the order of the addresses, which is the order of the indices in `cells_`. -/
def shiftRegionCells (dp : Opendp) (c : Nat) (grid_pt : Point) : List Nat :=
  let cell := dp.cell c
  let grid_x := grid_pt.x
  let grid_y := grid_pt.y
  let row_height := getRowHeight dp cell
  let site_width := getSiteWidth dp cell
  let grid_index := (grid_info_map_ dp row_height).grid_index
  -- magic number alert
  let boundary_margin : Int := 3
  let margin_width := gridPaddedWidthSite dp cell site_width * boundary_margin
  (List.range dp.cells_.length).filter fun k =>
    !isFixed (dp.cell k)
      && (intRange (grid_x - margin_width) (grid_x + margin_width)).any fun x =>
          (intRange (grid_y - boundary_margin) (grid_y + boundary_margin)).any fun y =>
            match gridPixel dp grid_index x y with
            | some pixel => pixel.cell == some k
            | none => false

/-- The loop `erase region cells` of `Opendp::shiftMove`. -/
def shiftErase (c : Nat) : List Nat → Opendp → Opendp
  | [], dp => dp
  | around_cell :: rest, dp =>
    if (dp.cell c).inGroup == (dp.cell around_cell).inGroup then
      shiftErase c rest (erasePixel dp around_cell)
    else shiftErase c rest dp

/-- The state after a `mapMove` that `shiftMove` made for the target c: a failure
appends the instance of c to `placement_failures_`. -/
def shiftRecord (c : Nat) (flag : Bool) (dp : Opendp) : Opendp :=
  if flag then dp
  else { dp with placement_failures_ := dp.placement_failures_ ++ [c] }

/-- The loop `re-place erased cells` of `Opendp::shiftMove`; `calls` collects the
cell and the returned flag of every `mapMove` call. -/
def shiftReplace (c : Nat) : List Nat → Opendp → List (Nat × Bool) → Outcome (List (Nat × Bool))
  | [], dp, calls => .ok calls dp
  | around_cell :: rest, dp, calls =>
    if (dp.cell c).inGroup == (dp.cell around_cell).inGroup then
      match mapMoveInit dp around_cell with
      | .fatal id dp1 => .fatal id dp1
      | .ok flag dp1 =>
        shiftReplace c rest (shiftRecord c flag dp1) (calls ++ [(around_cell, flag)])
    else shiftReplace c rest dp calls

/-- `Opendp::shiftMove`.  The C++ function returns nothing; the value here is the
list of its `mapMove` calls, each with the cell and the flag it returned. -/
def shiftMove (dp : Opendp) (c : Nat) : Outcome (List (Nat × Bool)) :=
  match legalGridPtInit dp (dp.cell c) true (-1) (-1) with
  | .error id => .fatal id dp
  | .ok grid_pt =>
    let region_cells := shiftRegionCells dp c grid_pt
    -- erase region cells
    let dp1 := shiftErase c region_cells dp
    -- place target cell
    match mapMoveInit dp1 c with
    | .fatal id dp2 => .fatal id dp2
    | .ok flag dp2 =>
      -- re-place erased cells
      shiftReplace c region_cells (shiftRecord c flag dp2) [(c, flag)]

/-! ## `Place.cpp`: placement order -/

/-- The sort `std::sort(first, last, less)`, as an insertion sort: an element goes
before the first element that is not less than it.  The C++ sort leaves the
order of equivalent elements unspecified; this one keeps their input order. -/
def insertBy {α : Type} (less : α → α → Bool) (a : α) : List α → List α
  | [] => [a]
  | b :: rest => if less b a then b :: insertBy less a rest else a :: b :: rest

/-- The sorted list: see `insertBy`. -/
def sortBy {α : Type} (less : α → α → Bool) (l : List α) : List α :=
  l.foldr (insertBy less) []

/-- The test `strcmp(s1, s2) < 0` on the bytes of two names. -/
def strcmpLt : List Nat → List Nat → Bool
  | [], [] => false
  | [], _ :: _ => true
  | _ :: _, [] => false
  | a :: s1, b :: s2 => decide (a < b) || (decide (a = b) && strcmpLt s1 s2)

/-- `Cell::area` (Opendp.cpp). -/
def Cell.area (cell : Cell) : Int := cell.master_width * cell.master_height

/-- `Opendp::isMultiRow` (Opendp.cpp). -/
def isMultiRow (cell : Cell) : Bool := cell.is_multi_row

/-- `CellPlaceOrderLess::centerDist`, with the center the constructor computes from
the core. -/
def centerDist (dp : Opendp) (cell : Cell) : Int :=
  let center_x_ := cdiv (dp.core_.xMin + dp.core_.xMax) 2
  let center_y_ := cdiv (dp.core_.yMin + dp.core_.yMax) 2
  iabs (cell.x_ - center_x_) + iabs (cell.y_ - center_y_)

/-- `CellPlaceOrderLess::operator()`. -/
def cellPlaceOrderLess (dp : Opendp) (cell1 cell2 : Cell) : Bool :=
  let area1 := cell1.area
  let area2 := cell2.area
  let dist1 := centerDist dp cell1
  let dist2 := centerDist dp cell2
  decide (area1 > area2)
    || (decide (area1 = area2)
        && (decide (dist1 < dist2)
            || (decide (dist1 = dist2) && strcmpLt cell1.inst_name cell2.inst_name)))

/-! ## `Place.cpp`: global placement pass -/

/-- `Opendp::cellFitsInCore`. -/
def cellFitsInCore (dp : Opendp) (cell : Cell) : Bool :=
  decide (gridPaddedWidth dp cell ≤ dp.row_site_count_)
    && decide (gridHeight dp cell ≤ dp.row_count_)

/-- The first loop of `Opendp::place` over the cells with the given indices: the
vector `sorted_cells` it collects, or the id of the error it raises. -/
def placeCollect (dp : Opendp) : List Nat → Except Nat (List Nat)
  | [] => .ok []
  | c :: rest =>
    if !(isFixed (dp.cell c) || (dp.cell c).inGroup || (dp.cell c).is_placed_) then
      if !cellFitsInCore dp (dp.cell c) then .error 15
      else
        match placeCollect dp rest with
        | .error id => .error id
        | .ok cells => .ok (c :: cells)
    else placeCollect dp rest

/-- A placement loop of `Opendp::place` over `sorted_cells`: the loop of the
multi-row cells (`multi` true) or the one of the single-row cells. -/
def placePass (multi : Bool) : List Nat → Opendp → Outcome Unit
  | [], dp => .ok () dp
  | c :: rest, dp =>
    if (isMultiRow (dp.cell c) == multi) && cellFitsInCore dp (dp.cell c) then
      match mapMoveInit dp c with
      | .fatal id dp1 => .fatal id dp1
      | .ok true dp1 => placePass multi rest dp1
      | .ok false dp1 =>
        match shiftMove dp1 c with
        | .fatal id dp2 => .fatal id dp2
        | .ok _ dp2 => placePass multi rest dp2
    else placePass multi rest dp

/-- `Opendp::place`. -/
def place (dp : Opendp) : Outcome Unit :=
  match placeCollect dp (List.range dp.cells_.length) with
  | .error id => .fatal id dp
  | .ok cells =>
    let sorted_cells := sortBy (fun c1 c2 => cellPlaceOrderLess dp (dp.cell c1) (dp.cell c2)) cells
    -- Place multi-row instances first.
    let first : Outcome Unit :=
      if dp.have_multi_row_cells_ then placePass true sorted_cells dp else .ok () dp
    match first with
    | .fatal id dp1 => .fatal id dp1
    | .ok _ dp1 => placePass false sorted_cells dp1

/-! ## `Place.cpp`: group placement -/

/-- `Opendp::rectDist(cell, rect, &x, &y)`: the corner of the rectangle it returns. -/
def rectDistPt (dp : Opendp) (cell : Cell) (rect : Rect) : Point :=
  let init := initialLocationP dp cell false
  let init_x := init.x
  let init_y := init.y
  ⟨if init_x > cdiv (rect.xMin + rect.xMax) 2 then rect.xMax else rect.xMin,
   if init_y > cdiv (rect.yMin + rect.yMax) 2 then rect.yMax else rect.yMin⟩

/-- `Opendp::rectDist(cell, rect)`. -/
def rectDist (dp : Opendp) (cell : Cell) (rect : Rect) : Int :=
  let p := rectDistPt dp cell rect
  let init := initialLocationP dp cell false
  iabs (init.x - p.x) + iabs (init.y - p.y)

/-- The rectangle behind the pointer `cell->region_`. -/
def Cell.region (cell : Cell) : Rect := cell.region_.getD ⟨0, 0, 0, 0⟩

/-- The placement loop of `Opendp::brickPlace1`. -/
def brickLoop1 (boundary : Rect) : List Nat → Opendp → Outcome Unit
  | [], dp => .ok () dp
  | c :: rest, dp =>
    let p := rectDistPt dp (dp.cell c) boundary
    let legal := legalGridPt dp (dp.cell c) p (-1) (-1)
    if (mapMove dp c legal).1 then brickLoop1 boundary rest (mapMove dp c legal).2
    else .fatal 16 (mapMove dp c legal).2

/-- `Opendp::brickPlace1`, for the group with index g. -/
def brickPlace1 (dp : Opendp) (g : Nat) : Outcome Unit :=
  let group := dp.groups_.getD g default
  let boundary := group.boundary
  let sorted_cells :=
    sortBy (fun c1 c2 =>
      decide (rectDist dp (dp.cell c1) boundary < rectDist dp (dp.cell c2) boundary)) group.cells_
  brickLoop1 boundary sorted_cells dp

/-- The placement loop of `Opendp::brickPlace2`. -/
def brickLoop2 : List Nat → Opendp → Outcome Unit
  | [], dp => .ok () dp
  | c :: rest, dp =>
    if !(dp.cell c).hold_ then
      let p := rectDistPt dp (dp.cell c) (dp.cell c).region
      let legal := legalGridPt dp (dp.cell c) p (-1) (-1)
      if (mapMove dp c legal).1 then brickLoop2 rest (mapMove dp c legal).2
      else .fatal 17 (mapMove dp c legal).2
    else brickLoop2 rest dp

/-- `Opendp::brickPlace2`, for the group with index g. -/
def brickPlace2 (dp : Opendp) (g : Nat) : Outcome Unit :=
  let group := dp.groups_.getD g default
  let sorted_cells :=
    sortBy (fun c1 c2 =>
      decide (rectDist dp (dp.cell c1) (dp.cell c1).region
                < rectDist dp (dp.cell c2) (dp.cell c2).region)) group.cells_
  brickLoop2 sorted_cells dp

/-- A placement loop of `Opendp::placeGroups2` over `group_cells`, for the multi-row
cells (`multi` true) or the single-row cells: the value is `multi_pass`
(`single_pass`), false as soon as a `mapMove` fails. -/
def groupPass (multi : Bool) : List Nat → Opendp → Outcome Bool
  | [], dp => .ok true dp
  | c :: rest, dp =>
    if !isFixed (dp.cell c) && !(dp.cell c).is_placed_ then
      if isMultiRow (dp.cell c) == multi then
        match mapMoveInit dp c with
        | .fatal id dp1 => .fatal id dp1
        | .ok true dp1 => groupPass multi rest dp1
        | .ok false dp1 => .ok false dp1
      else groupPass multi rest dp
    else groupPass multi rest dp

/-- The loop `Erase group cells` of `Opendp::placeGroups2`. -/
def eraseCells : List Nat → Opendp → Opendp
  | [], dp => dp
  | c :: rest, dp => eraseCells rest (erasePixel dp c)

/-- The body of the loop of `Opendp::placeGroups2` for the group with index g. -/
def placeGroup2 (dp : Opendp) (g : Nat) : Outcome Unit :=
  let group := dp.groups_.getD g default
  let group_cells :=
    sortBy (fun c1 c2 => cellPlaceOrderLess dp (dp.cell c1) (dp.cell c2))
      (group.cells_.filter fun c => !isFixed (dp.cell c) && !(dp.cell c).is_placed_)
  -- Place multi-row cells in each group region.
  match groupPass true group_cells dp with
  | .fatal id dp1 => .fatal id dp1
  | .ok multi_pass dp1 =>
    -- Place single-row cells in each group region.
    let single : Outcome Bool :=
      if multi_pass then groupPass false group_cells dp1 else .ok true dp1
    match single with
    | .fatal id dp2 => .fatal id dp2
    | .ok single_pass dp2 =>
      if !single_pass || !multi_pass then
        -- Erase group cells
        let dp3 := eraseCells group.cells_ dp2
        -- Determine brick placement by utilization: `group.util > 0.95`, on the
        -- numerator and the (positive) denominator of the utilization.
        if 95 * (group.util.den : Int) < 100 * group.util.num then brickPlace1 dp3 g
        else brickPlace2 dp3 g
      else .ok () dp2

/-- The loop of `Opendp::placeGroups2` over the groups with the given indices. -/
def placeGroupsLoop : List Nat → Opendp → Outcome Unit
  | [], dp => .ok () dp
  | g :: rest, dp =>
    match placeGroup2 dp g with
    | .fatal id dp1 => .fatal id dp1
    | .ok _ dp1 => placeGroupsLoop rest dp1

/-- `Opendp::placeGroups2`. -/
def placeGroups2 (dp : Opendp) : Outcome Unit :=
  placeGroupsLoop (List.range dp.groups_.length) dp

/-! ## `Place.cpp`: refinement -/

/-- `Opendp::refineMove`. -/
def refineMove (dp : Opendp) (c : Nat) : Outcome Bool :=
  let cell := dp.cell c
  let row_height := getRowHeight dp cell
  let site_width := getSiteWidth dp cell
  match legalGridPtInit dp cell true row_height site_width with
  | .error id => .fatal id dp
  | .ok grid_pt =>
    let grid_x := grid_pt.x
    let grid_y := grid_pt.y
    let pixel_pt := diamondSearch dp cell grid_x grid_y
    if pixel_pt.pixel.isSome then
      let scaled_max_displacement_y_ :=
        map_coordinates dp.max_displacement_y_ dp.row_height_ (getRowHeight dp cell)
      if iabs (grid_x - pixel_pt.pt.x) > dp.max_displacement_x_
          ∨ iabs (grid_y - pixel_pt.pt.y) > scaled_max_displacement_y_ then
        .ok false dp
      else
        let dist_change :=
          distChange dp cell (pixel_pt.pt.x * site_width) (pixel_pt.pt.y * row_height)
        if dist_change < 0 then
          .ok true (paintPixel (erasePixel dp c) c pixel_pt.pt.x pixel_pt.pt.y)
        else .ok false dp
    else .ok false dp

/-- One iteration of the loop of `Opendp::anneal(Group*)`: the pair is (`count`, state);
`rand k` is the value of the k-th call of `rand()` after `srand(rand_seed_)`. -/
def annealStep (cells : List Nat) (rand : Nat → Nat) (acc : Nat × Opendp) (i : Nat) :
    Nat × Opendp :=
  let cell1 := cells.getD (rand (2 * i) % cells.length) 0
  let cell2 := cells.getD (rand (2 * i + 1) % cells.length) 0
  let r := swapCells acc.2 cell1 cell2
  (if r.1 then acc.1 + 1 else acc.1, r.2)

/-- `Opendp::anneal(Group*)`, for the group with index g: the returned count and the
state after the call. -/
def anneal (dp : Opendp) (g : Nat) (rand : Nat → Nat) : Nat × Opendp :=
  let cells := (dp.groups_.getD g default).cells_
  -- magic number alert
  (List.range (100 * cells.length)).foldl (annealStep cells rand) (0, dp)

/-! ## `Place.cpp`: pre-placement geometry -/

/-- `Opendp::checkOverlap`. -/
def checkOverlap (dp : Opendp) (cell : Cell) (rect : Rect) : Bool :=
  let init := initialLocationP dp cell false
  let x := init.x
  let y := init.y
  decide (x + cell.width_ > rect.xMin) && decide (x < rect.xMax)
    && decide (y + cell.height_ > rect.yMin) && decide (y < rect.yMax)

/-- `Opendp::nearestPt`. -/
def nearestPt (dp : Opendp) (cell : Cell) (rect : Rect) : Point :=
  let init := initialLocationP dp cell false
  let x := init.x
  let y := init.y
  let cell_width := cell.width_
  if checkOverlap dp cell rect then
    let px : Int × Int :=
      if iabs (x + cell_width - rect.xMin) > iabs (rect.xMax - x) then
        (iabs (rect.xMax - x), rect.xMax)
      else (iabs (x - rect.xMin), rect.xMin - cell_width)
    let py : Int × Int :=
      if iabs (y + cell.height_ - rect.yMin) > iabs (rect.yMax - y) then
        (iabs (rect.yMax - y), rect.yMax)
      else (iabs (y - rect.yMin), rect.yMin - cell.height_)
    let dist_x := px.1
    let temp_x := px.2
    let dist_y := py.1
    let temp_y := py.2
    if dist_x < dist_y then ⟨temp_x, y⟩ else ⟨x, temp_y⟩
  else
    let temp_x :=
      if x < rect.xMin then rect.xMin
      else if x + cell_width > rect.xMax then rect.xMax - cell_width
      else x
    let temp_y :=
      if y < rect.yMin then rect.yMin
      else if y + cell.height_ > rect.yMax then rect.yMax - cell.height_
      else y
    ⟨temp_x, temp_y⟩

/-- The sum of the L1 displacements `disp` of the cells with the given indices. -/
def sumDisp (dp : Opendp) (cells : List Nat) : Int :=
  (cells.map fun c => disp dp (dp.cell c)).sum

/-- A cell 500 wide and 10 high with initial location (0, 10), for the rectangle
[0, 1000] x [0, 1000]. -/
def flatCell : Cell := { inst_x := 0, inst_y := 10, width_ := 500, height_ := 10 }

/-- A core of 8 sites by 1 row (site width 200, row height 1000, one site of left
padding, bin width 1) with one padded CORE cell, one site wide, with initial
location (350, 0), not yet placed. -/
def refinePadBase : Opendp :=
  { cells_ := [ { inst_x := 350, inst_y := 0, master_type := dbMasterType.CORE,
                  width_ := 200, height_ := 1000, row_height := 1000 } ]
    core_ := ⟨0, 0, 1600, 1000⟩
    site_width_ := 200
    row_height_ := 1000
    row_count_ := 1
    row_site_count_ := 8
    pad_left_ := 1
    max_displacement_x_ := 8
    max_displacement_y_ := 2
    bin_search_width_ := 1
    layer_row_count_ := fun _ => 1
    layer_site_count_ := fun _ => 8
    grid_ := fun _ _ _ => { is_valid := true } }

/-- The state reached from `refinePadBase` by painting the cell at grid (0, 0): the
cell lies at (200, 0), at distance 150 from its initial location, and occupies
the sites 0 and 1. -/
def refinePadPlaced : Opendp := paintPixel refinePadBase 0 0 0

/-- A core of 8 sites by 1 row (site width 200, row height 1000), all of it the
region of group 0, whose utilization is 1; the sites 2, 3 and 4 are not valid
and the displacement limits are 2 sites and 1 row.  Cell 0 is fixed, one site
wide, painted at its initial location (1200, 0) on site 6; cell 1 is movable,
one site wide, with initial location (600, 0), not yet placed. -/
def fixedInGroup : Opendp :=
  { cells_ := [ { inst_x := 1200, inst_fixed := true, x_ := 1200, width_ := 200, height_ := 1000,
                  row_height := 1000, is_placed_ := true, group_ := some 0,
                  region_ := some ⟨0, 0, 1600, 1000⟩ },
                { inst_x := 600, x_ := 600, width_ := 200, height_ := 1000,
                  row_height := 1000, group_ := some 0, region_ := some ⟨0, 0, 1600, 1000⟩ } ]
    groups_ := [ { boundary := ⟨0, 0, 1600, 1000⟩, regions := [⟨0, 0, 1600, 1000⟩],
                   cells_ := [0, 1], util := 1 } ]
    core_ := ⟨0, 0, 1600, 1000⟩
    site_width_ := 200
    row_height_ := 1000
    row_count_ := 1
    row_site_count_ := 8
    max_displacement_x_ := 2
    max_displacement_y_ := 1
    bin_search_width_ := 1
    layer_row_count_ := fun _ => 1
    layer_site_count_ := fun _ => 8
    grid_ := fun _ _ x =>
      { is_valid := decide (x < 2 ∨ 4 < x), group_ := some 0,
        cell := if x = 6 then some 0 else none } }

/-- A core of 8 sites by 1 row (site width 200, row height 1000): the sites 0 to 2
are the region of group 0, the sites 3 to 7 the region of group 1.  Cell 0, of
group 0, has initial location (400, 0) and is not placed; cell 1, of group 1,
has initial location (600, 0) and is painted at (800, 0) on site 4. -/
def twoGroupsRow : Opendp :=
  { cells_ := [ { inst_x := 400, x_ := 400, width_ := 200, height_ := 1000,
                  row_height := 1000, group_ := some 0 },
                { inst_x := 600, x_ := 800, width_ := 200, height_ := 1000,
                  row_height := 1000, is_placed_ := true, group_ := some 1 } ]
    groups_ := [ { boundary := ⟨0, 0, 600, 1000⟩, regions := [⟨0, 0, 600, 1000⟩], cells_ := [0] },
                 { boundary := ⟨600, 0, 1600, 1000⟩, regions := [⟨600, 0, 1600, 1000⟩],
                   cells_ := [1] } ]
    core_ := ⟨0, 0, 1600, 1000⟩
    site_width_ := 200
    row_height_ := 1000
    row_count_ := 1
    row_site_count_ := 8
    max_displacement_x_ := 4
    max_displacement_y_ := 1
    bin_search_width_ := 1
    layer_row_count_ := fun _ => 1
    layer_site_count_ := fun _ => 8
    grid_ := fun _ _ x =>
      { is_valid := true, group_ := if x < 3 then some 0 else some 1,
        cell := if x = 4 then some 1 else none } }

/-- The state `mixedPadPlaced` with its two cells as the members of group 0. -/
def annealMixed : Opendp := { mixedPadPlaced with groups_ := [ { cells_ := [0, 1] } ] }

/-! ## Measures used in the statements -/

/-- The L1 distance of two points. -/
def l1Dist (p q : Point) : Int := iabs (p.x - q.x) + iabs (p.y - q.y)

/-- The four axis-aligned push-outs of a cell with initial location `init` out of a
rectangle: left to x = xMin - width, right to x = xMax, down to
y = yMin - height, up to y = yMax. -/
def pushOuts (cell : Cell) (init : Point) (rect : Rect) : List Point :=
  [⟨rect.xMin - cell.width_, init.y⟩, ⟨rect.xMax, init.y⟩,
   ⟨init.x, rect.yMin - cell.height_⟩, ⟨init.x, rect.yMax⟩]

/-- The members of the state that `swapCells` reads, apart from the grid: the cells,
the core, the site width, the row height and the padding. -/
def Opendp.frame (dp : Opendp) : List Cell × Rect × Int × Int × Int × Int :=
  (dp.cells_, dp.core_, dp.site_width_, dp.row_height_, dp.pad_left_, dp.pad_right_)

/-- The number of `mapMove` calls in the list that returned false. -/
def failedCalls (calls : List (Nat × Bool)) : Nat := (calls.filter fun k => !k.2).length

/-- The cell c is one `place` collects (not fixed, not in a group, not yet placed)
and it does not fit in the core. -/
def Unfit (dp : Opendp) (c : Nat) : Prop :=
  isFixed (dp.cell c) = false ∧ (dp.cell c).inGroup = false ∧ (dp.cell c).is_placed_ = false
    ∧ (gridPaddedWidth dp (dp.cell c) > dp.row_site_count_
        ∨ gridHeight dp (dp.cell c) > dp.row_count_)

/-- The state s2 has the cells of s1 up to their locations and placed flags: as many
cells, each with the group and the fixed status it has in s1. -/
def SameCells (s1 s2 : Opendp) : Prop :=
  s2.cells_.length = s1.cells_.length
    ∧ ∀ k, (s2.cell k).inGroup = (s1.cell k).inGroup ∧ isFixed (s2.cell k) = isFixed (s1.cell k)

/-- The cells `shiftMove` erases for the target c: the collected cells that pass its
test `cell->inGroup() == around_cell->inGroup()`. -/
def shiftErased (dp : Opendp) (c : Nat) (grid_pt : Point) : List Nat :=
  (shiftRegionCells dp c grid_pt).filter fun a => (dp.cell c).inGroup == (dp.cell a).inGroup

/-! ## `Place.cpp`: regions of groups -/

/-- `Opendp::isInside`. -/
def isInside (dp : Opendp) (cell : Cell) (rect : Rect) : Bool :=
  let init := initialLocationP dp cell false
  let x := init.x
  let y := init.y
  decide (x ≥ rect.xMin) && decide (x + cell.width_ ≤ rect.xMax)
    && decide (y ≥ rect.yMin) && decide (y + cell.height_ ≤ rect.yMax)

/-- `Opendp::distToRect`. -/
def distToRect (dp : Opendp) (cell : Cell) (rect : Rect) : Int :=
  let init := initialLocationP dp cell true
  let x := init.x
  let y := init.y
  let dist_x :=
    if x < rect.xMin then rect.xMin - x
    else if x + cell.width_ > rect.xMax then x + cell.width_ - rect.xMax
    else 0
  let dist_y :=
    if y < rect.yMin then rect.yMin - y
    else if y + cell.height_ > rect.yMax then y + cell.height_ - rect.yMax
    else 0
  dist_y + dist_x

/-! ## `Opendp.cpp`: rows -/

/-- The enum `odb::dbOrientType`. -/
inductive dbOrientType where
  | R0 | R90 | R180 | R270 | MY | MYR90 | MX | MXR90
  deriving DecidableEq, Repr

/-- The values of the enum `Power` that `rowTopPower` returns. -/
inductive Power where
  | VDD | VSS
  deriving DecidableEq, Repr

/-- `Opendp::rowTopPower`. -/
def rowTopPower (dp : Opendp) (row : Int) : Power :=
  if cmod (if dp.row0_top_power_is_vdd_ then row else row + 1) 2 = 0 then Power.VDD
  else Power.VSS

/-- `Opendp::rowOrient`.  Row orient flips R0 -> MX -> R0 -> MX ... -/
def rowOrient (dp : Opendp) (row : Int) : dbOrientType :=
  if cmod (if dp.row0_orient_is_r0_ then row else row + 1) 2 = 0 then dbOrientType.R0
  else dbOrientType.MX

/-! ## `Place.cpp`: refinement of a group -/

/-- The loop of `Opendp::groupRefine` from index i on, over the rest of
`sort_by_disp`: the returned count.  The test `i < size * group_refine_percent_`
of the loop is made on the numerator and the (positive) denominator of the
fraction.  A fraction above 1 makes the C++ loop read past the end of the
vector; the loop here ends with the vector. -/
def refineLoop (dp0 : Opendp) (size : Nat) : Nat → List Nat → Nat → Opendp → Outcome Nat
  | _, [], count, dp => .ok count dp
  | i, c :: rest, count, dp =>
    if (i : Int) * (dp0.group_refine_percent_.den : Int)
        < (size : Int) * dp0.group_refine_percent_.num then
      if !(dp.cell c).hold_ then
        match refineMove dp c with
        | .fatal id dp1 => .fatal id dp1
        | .ok flag dp1 => refineLoop dp0 size (i + 1) rest (if flag then count + 1 else count) dp1
      else refineLoop dp0 size (i + 1) rest count dp
    else .ok count dp

/-- `Opendp::groupRefine`, for the group with index g. -/
def groupRefine (dp : Opendp) (g : Nat) : Outcome Nat :=
  let group := dp.groups_.getD g default
  let sort_by_disp :=
    sortBy (fun c1 c2 => decide (disp dp (dp.cell c1) > disp dp (dp.cell c2))) group.cells_
  refineLoop dp sort_by_disp.length 0 sort_by_disp 0 dp

/-- The loop `for (int pass = 0; pass < 3; pass++)` of `Opendp::placeGroups` for the
group with index g, with `left` passes left to run: the value is the list of the
pairs (`refine_count`, `anneal_count`) of the passes that ran. -/
def groupPasses (g : Nat) (rand : Nat → Nat) : Nat → Opendp → Outcome (List (Nat × Nat))
  | 0, dp => .ok [] dp
  | left + 1, dp =>
    match groupRefine dp g with
    | .fatal id dp1 => .fatal id dp1
    | .ok refine_count dp1 =>
      let anneal_count := (anneal dp1 g rand).1
      let dp2 := (anneal dp1 g rand).2
      -- magic number alert
      if refine_count < 10 ∨ anneal_count < 100 then .ok [(refine_count, anneal_count)] dp2
      else
        match groupPasses g rand left dp2 with
        | .fatal id dp3 => .fatal id dp3
        | .ok passes dp3 => .ok ((refine_count, anneal_count) :: passes) dp3

/-- The refinement loop of `Opendp::placeGroups` for the group with index g: at most
three passes. -/
def placeGroupPasses (dp : Opendp) (g : Nat) (rand : Nat → Nat) : Outcome (List (Nat × Nat)) :=
  -- magic number alert
  groupPasses g rand 3 dp

/-! ## `Place.cpp`: the offsets of a radius of the diamond search -/

/-- The offsets (x_offset, y_offset) with which the loop `left side` of
`Opendp::diamondSearch` calls `diamondSearchSide` at radius i, in order. -/
def leftOffsets (dp : Opendp) (cell : Cell) (i : Int) : List (Int × Int) :=
  (intRange 1 (i * 2)).filterMap fun j =>
    let x_offset := -(cdiv (j + 1) 2)
    let y_offset := cdiv (i * 2 - j) 2
    if iabs x_offset < dp.max_displacement_x_ ∧ iabs y_offset < scaledMaxDisplacementY dp cell then
      some (x_offset, if cmod j 2 = 1 then -y_offset else y_offset)
    else none

/-- The offsets (x_offset, y_offset) with which the loop `right side` of
`Opendp::diamondSearch` calls `diamondSearchSide` at radius i, in order. -/
def rightOffsets (dp : Opendp) (cell : Cell) (i : Int) : List (Int × Int) :=
  (intRange 1 ((i + 1) * 2)).filterMap fun j =>
    let x_offset := cdiv (j - 1) 2
    let y_offset := cdiv ((i + 1) * 2 - j) 2
    if iabs x_offset < dp.max_displacement_x_ ∧ iabs y_offset < scaledMaxDisplacementY dp cell then
      some (x_offset, if cmod j 2 = 1 then -y_offset else y_offset)
    else none

/-! ## The words of the claims -/

/-- The footprint of the cell with its origin at p overlaps the interior of the
rectangle. -/
def overlapsAt (cell : Cell) (p : Point) (rect : Rect) : Prop :=
  p.x + cell.width_ > rect.xMin ∧ p.x < rect.xMax
    ∧ p.y + cell.height_ > rect.yMin ∧ p.y < rect.yMax

/-- The footprint of the cell with its origin at p lies inside the rectangle. -/
def insideAt (cell : Cell) (p : Point) (rect : Rect) : Prop :=
  rect.xMin ≤ p.x ∧ p.x + cell.width_ ≤ rect.xMax
    ∧ rect.yMin ≤ p.y ∧ p.y + cell.height_ ≤ rect.yMax

instance (cell : Cell) (p : Point) (rect : Rect) : Decidable (overlapsAt cell p rect) :=
  inferInstanceAs (Decidable (_ ∧ _ ∧ _ ∧ _))

instance (cell : Cell) (p : Point) (rect : Rect) : Decidable (insideAt cell p rect) :=
  inferInstanceAs (Decidable (_ ∧ _ ∧ _ ∧ _))

/-- The lexicographic order of two names, byte by byte (a proper prefix is
smaller). -/
def nameLt (n1 n2 : List Nat) : Prop := List.Lex (fun a b : Nat => a < b) n1 n2

/-- The order of the spec: the key (area, -center_distance, name) of the cell a is
greater than that of the cell b in the lexicographic order of tuples. -/
def orderKeyGreater (dp : Opendp) (a b : Cell) : Prop :=
  a.area > b.area
    ∨ (a.area = b.area
        ∧ (-(centerDist dp a) > -(centerDist dp b)
            ∨ (-(centerDist dp a) = -(centerDist dp b) ∧ nameLt b.inst_name a.inst_name)))

/-- The floor of the quotient j / 2. -/
def floorHalf (j : Int) : Int := Int.fdiv j 2

/-- The ceiling of the quotient j / 2. -/
def ceilHalf (j : Int) : Int := -(Int.fdiv (-j) 2)

/-- The sign a row offset gets at index j in the code: minus for odd j. -/
def wingSign (j : Int) : Int := if j % 2 = 1 then -1 else 1

/-- The candidate offsets of radius i in the words of the spec, signs left out:
the column offsets -ceil(j/2) and the lengths floor((2i - j)/2) of the row
offsets for j = 1 .. 2i - 1, then the column offsets floor(j/2) and the lengths
floor((2(i + 1) - j)/2) for j = 1 .. 2(i + 1) - 1. -/
def specOffsets (i : Int) : List (Int × Int) :=
  (intRange 1 (2 * i)).map (fun j => (-(ceilHalf j), floorHalf (2 * i - j)))
    ++ (intRange 1 (2 * (i + 1))).map (fun j => (floorHalf j, floorHalf (2 * (i + 1) - j)))

/-- The candidate offsets of radius i as the code examines them: the left wing with
column offset -ceil(j/2), the right wing with column offset floor((j - 1)/2),
the row offsets negated for odd j, and of these the offsets whose column offset
is below dx and whose row offset is below dy in absolute value. -/
def wingOffsets (dx dy : Int) (i : Int) : List (Int × Int) :=
  ((intRange 1 (2 * i)).map
      (fun j => (-(ceilHalf j), wingSign j * floorHalf (2 * i - j)))
    ++ (intRange 1 (2 * (i + 1))).map
      (fun j => (floorHalf (j - 1), wingSign j * floorHalf (2 * (i + 1) - j)))).filter
    fun o => decide (|o.1| < dx) && decide (|o.2| < dy)

/-- A cell 200 wide and 100 high with initial location (-100, 500): its footprint
lies across the left edge of the rectangle [0, 1000] x [0, 1000]. -/
def edgeCell : Cell := { inst_x := -100, inst_y := 500, width_ := 200, height_ := 100 }

/-- A cell with name `a`, of area 200000, at the core origin. -/
def cellNamedA : Cell :=
  { inst_name := [97], master_width := 200, master_height := 1000, width_ := 200,
    height_ := 1000 }

/-- A cell with name `b`, equal to `cellNamedA` in all but the name. -/
def cellNamedB : Cell := { cellNamedA with inst_name := [98] }

/-- A core of 8 sites by 3 rows (site width 200, row height 1000) with the
one-site-gap rule on; cell 1 occupies site 1 of row 1, every other pixel is
empty and valid; cell 0 is one site wide and one row high, not placed. -/
def gapRowGrid : Opendp :=
  { cells_ := [ { width_ := 200, height_ := 1000, row_height := 1000 },
                { inst_x := 200, inst_y := 1000, x_ := 200, y_ := 1000, width_ := 200,
                  height_ := 1000, row_height := 1000, is_placed_ := true } ]
    core_ := ⟨0, 0, 1600, 3000⟩
    site_width_ := 200
    row_height_ := 1000
    row_count_ := 3
    row_site_count_ := 8
    max_displacement_x_ := 8
    max_displacement_y_ := 3
    bin_search_width_ := 1
    disallow_one_site_gaps_ := true
    layer_row_count_ := fun _ => 3
    layer_site_count_ := fun _ => 8
    grid_ := fun _ y x =>
      { is_valid := true, cell := if x = 1 ∧ y = 1 then some 1 else none } }

/-- An ENDCAP cell, in a placer with one site of left padding. -/
def endcapCell : Cell := { master_type := dbMasterType.ENDCAP, width_ := 200, height_ := 1000 }

/-- The mathematical floor of the quotient x / d (rounding toward minus infinity). -/
def mathFloor (x d : Int) : Int := ⌊(x : ℚ) / (d : ℚ)⌋

/-- The state `annealMixed` with `group_refine_percent_` 1: every cell of a group is
refined. -/
def annealRefine : Opendp := { annealMixed with group_refine_percent_ := 1 }

/-! ## `Place.cpp`: the side of a block and the hit of a bin -/

/-- The four branches of `Opendp::nearestBlockEdge`. -/
inductive BlockSide where
  | left | right | below | above
  deriving DecidableEq, Repr

/-- The branch `Opendp::nearestBlockEdge` takes: the tests of its `if` statements,
in order. -/
def nearestBlockEdgeSide (cell : Cell) (legal_pt : Point) (block_bbox : Rect) : BlockSide :=
  let legal_x := legal_pt.x
  let legal_y := legal_pt.y
  let x_min_dist := iabs (legal_x - block_bbox.xMin)
  let x_max_dist := iabs (block_bbox.xMax - (legal_x + cell.width_))
  let y_min_dist := iabs (legal_y - block_bbox.yMin)
  let y_max_dist := iabs (block_bbox.yMax - (legal_y + cell.height_))
  if x_min_dist < x_max_dist ∧ x_min_dist < y_min_dist ∧ x_min_dist < y_max_dist then
    BlockSide.left
  else if x_max_dist ≤ x_min_dist ∧ x_max_dist ≤ y_min_dist ∧ x_max_dist ≤ y_max_dist then
    BlockSide.right
  else if y_min_dist ≤ x_min_dist ∧ y_min_dist ≤ x_max_dist ∧ y_min_dist ≤ y_max_dist then
    BlockSide.below
  else BlockSide.above

/-- The distance `nearestBlockEdge` computes for a side: `x_min_dist`, `x_max_dist`,
`y_min_dist` or `y_max_dist`. -/
def blockSideDist (cell : Cell) (legal_pt : Point) (block_bbox : Rect) : BlockSide → Int
  | .left => iabs (legal_pt.x - block_bbox.xMin)
  | .right => iabs (block_bbox.xMax - (legal_pt.x + cell.width_))
  | .below => iabs (legal_pt.y - block_bbox.yMin)
  | .above => iabs (block_bbox.yMax - (legal_pt.y + cell.height_))

/-- The point `nearestBlockEdge` passes to `legalPt` in the branch of a side. -/
def blockSidePoint (dp : Opendp) (cell : Cell) (legal_pt : Point) (block_bbox : Rect) :
    BlockSide → Point
  | .left => ⟨block_bbox.xMin - cell.width_, legal_pt.y⟩
  | .right => ⟨block_bbox.xMax, legal_pt.y⟩
  | .below =>
    ⟨legal_pt.x,
     divFloor block_bbox.yMin (getRowHeight dp cell) * getRowHeight dp cell - cell.height_⟩
  | .above => ⟨legal_pt.x, divCeil block_bbox.yMax (getRowHeight dp cell) * getRowHeight dp cell⟩

/-- What a call of `diamondSearchSide` with the offsets o finds: the point `avail_pt`
of the bin search and its distance `avail_dist`, when the bin has a hit. -/
def sideHit (dp : Opendp) (cell : Cell) (x y : Int) (lim : SearchLimits) (o : Int × Int) :
    Option (PixelPt × Int) :=
  let bin_x := min lim.x_max (max lim.x_min (x + o.1 * dp.bin_search_width_))
  let bin_y := min lim.y_max (max lim.y_min (y + o.2))
  let avail_pt := binSearch dp x cell bin_x bin_y
  if avail_pt.pixel.isSome then
    some (avail_pt, iabs (x - avail_pt.pt.x) * getSiteWidth dp cell
                      + iabs (y - avail_pt.pt.y) * getRowHeight dp cell)
  else none

/-- The radii `Opendp::diamondSearch` loops over: `for (int i = 1; i < max; i++)`. -/
def diamondRadii (dp : Opendp) (cell : Cell) : List Int :=
  intRange 1 (max (scaledMaxDisplacementY dp cell) dp.max_displacement_x_)

/-! ## `frTerm.h` -/

/-- Modelled from the spec: the method `odb::Rect::dx` is not in src; it is the
extent xMax - xMin of the rectangle. -/
def Rect.dx (r : Rect) : Int := r.xMax - r.xMin

/-- Modelled from the spec: the method `odb::Rect::dy` is not in src; it is the
extent yMax - yMin of the rectangle. -/
def Rect.dy (r : Rect) : Int := r.yMax - r.yMin

/-- Modelled from the spec: the method `odb::Rect::merge` is not in src; it grows the
rectangle to contain the other one. -/
def Rect.merge (r s : Rect) : Rect :=
  ⟨min r.xMin s.xMin, min r.yMin s.yMin, max r.xMax s.xMax, max r.yMax s.yMax⟩

/-- A figure of a pin (`frPinFig`): a `frRect` with its box (`typeId() == frcRect`),
or a figure of another type. -/
inductive frPinFig where
  | rect (box : Rect)
  | other
  deriving DecidableEq, Repr

/-- The class `frPin`, as the list of its figures (`getFigs`). -/
structure frPin where
  figs : List frPinFig := []
  deriving DecidableEq, Repr

/-- The members `pins_` and `bbox_` of the class `frTerm`; the constructor starts
with no pin and the rectangle `Rect()`, which is (0, 0, 0, 0). -/
structure frTerm where
  pins_ : List frPin := []
  bbox_ : Rect := ⟨0, 0, 0, 0⟩
  deriving DecidableEq, Repr

/-- The body of the loop of `frTerm::addPin` for one figure: the new `bbox_`. -/
def frTerm.addFig (bbox_ : Rect) : frPinFig → Rect
  | .rect box => if bbox_.dx = 0 ∧ bbox_.dy = 0 then box else bbox_.merge box
  | .other => bbox_

/-- `frTerm::addPin`. -/
def frTerm.addPin (t : frTerm) (pin : frPin) : frTerm :=
  { pins_ := t.pins_ ++ [pin]
    bbox_ := pin.figs.foldl frTerm.addFig t.bbox_ }

/-- `frTerm::getBBox`. -/
def frTerm.getBBox (t : frTerm) : Rect := t.bbox_

/-- The term after a sequence of `addPin` calls on a new term. -/
def frTerm.addPins (pins : List frPin) : frTerm := pins.foldl frTerm.addPin {}

/-! ## The words of the claims, continued -/

/-- The boxes of the rectangle figures of a list of pins, in order. -/
def rectBoxes (pins : List frPin) : List Rect :=
  pins.flatMap fun pin => pin.figs.filterMap fun fig =>
    match fig with
    | .rect box => some box
    | .other => none

/-- The rectangle r contains the rectangle s. -/
def Rect.containsRect (r s : Rect) : Prop :=
  r.xMin ≤ s.xMin ∧ r.yMin ≤ s.yMin ∧ s.xMax ≤ r.xMax ∧ s.yMax ≤ r.yMax

instance (r s : Rect) : Decidable (r.containsRect s) :=
  inferInstanceAs (Decidable (_ ∧ _ ∧ _ ∧ _))

/-- The pixel (x, y) of the layer is valid: `grid_[layer][y][x].is_valid`. -/
def validAt (dp : Opendp) (layer : Nat) (x y : Int) : Prop := (dp.grid_ layer y x).is_valid = true

/-- The four corners of a rectangle. -/
def Rect.corners (r : Rect) : List Point :=
  [⟨r.xMin, r.yMin⟩, ⟨r.xMin, r.yMax⟩, ⟨r.xMax, r.yMin⟩, ⟨r.xMax, r.yMax⟩]

/-! ## Concrete states, continued -/

/-- A core of 3 sites by 3 rows (site width 200, row height 1000, bin width 1) with
the displacement limits 2 sites and 2 rows: the fixed cell 1 occupies every
pixel but the one at site 0 of row 0; cell 0 is one site wide and one row high,
not placed. -/
def holeGrid : Opendp :=
  { cells_ := [ { width_ := 200, height_ := 1000, row_height := 1000 },
                { inst_fixed := true, width_ := 600, height_ := 3000, row_height := 1000,
                  is_placed_ := true } ]
    core_ := ⟨0, 0, 600, 3000⟩
    site_width_ := 200
    row_height_ := 1000
    row_count_ := 3
    row_site_count_ := 3
    max_displacement_x_ := 2
    max_displacement_y_ := 2
    bin_search_width_ := 1
    layer_row_count_ := fun _ => 3
    layer_site_count_ := fun _ => 3
    grid_ := fun _ y x =>
      { is_valid := true, cell := if x = 0 ∧ y = 0 then none else some 1 } }

/-- A core of 4 sites by 3 rows (site width 200, row height 1000) in which the only
valid pixels are the one at site 0 of row 1 and the one at site 2 of row 0. -/
def hopelessGrid : Opendp :=
  { cells_ := [ { width_ := 200, height_ := 1000, row_height := 1000 } ]
    core_ := ⟨0, 0, 800, 3000⟩
    site_width_ := 200
    row_height_ := 1000
    row_count_ := 3
    row_site_count_ := 4
    layer_row_count_ := fun _ => 3
    layer_site_count_ := fun _ => 4
    grid_ := fun _ y x =>
      { is_valid := decide ((x = 0 ∧ y = 1) ∨ (x = 2 ∧ y = 0)), is_hopeless := true } }

/-- A core of 10 sites by 4 rows (site width 200, row height 1000) with one cell,
one site wide and one row high. -/
def blockCore : Opendp :=
  { cells_ := [ { width_ := 200, height_ := 1000, row_height := 1000 } ]
    core_ := ⟨0, 0, 2000, 4000⟩
    site_width_ := 200
    row_height_ := 1000
    row_count_ := 4
    row_site_count_ := 10
    layer_row_count_ := fun _ => 4
    layer_site_count_ := fun _ => 10
    grid_ := fun _ _ _ => { is_valid := true } }


/-- The state `holeGrid` with the displacement limits 3 sites and 3 rows. -/
def holeGridWide : Opendp :=
  { holeGrid with max_displacement_x_ := 3, max_displacement_y_ := 3 }

/-- In the words of the claim: (x, gy) is the nearest valid pixel to the left of
(gx, gy). -/
def NearestLeft (dp : Opendp) (layer : Nat) (gx gy x : Int) : Prop :=
  0 ≤ x ∧ x < gx ∧ validAt dp layer x gy ∧ ∀ x1, x < x1 → x1 < gx → ¬ validAt dp layer x1 gy

/-- In the words of the claim: (x, gy) is the nearest valid pixel to the right of
(gx, gy), of the sites below count. -/
def NearestRight (dp : Opendp) (layer : Nat) (count gx gy x : Int) : Prop :=
  gx < x ∧ x < count ∧ validAt dp layer x gy ∧ ∀ x1, gx < x1 → x1 < x → ¬ validAt dp layer x1 gy

/-- In the words of the claim: (gx, y) is the nearest valid pixel below (gx, gy). -/
def NearestBelow (dp : Opendp) (layer : Nat) (gx gy y : Int) : Prop :=
  0 ≤ y ∧ y < gy ∧ validAt dp layer gx y ∧ ∀ y1, y < y1 → y1 < gy → ¬ validAt dp layer gx y1

/-- In the words of the claim: (gx, y) is the nearest valid pixel above (gx, gy), of
the rows below count. -/
def NearestAbove (dp : Opendp) (layer : Nat) (count gx gy y : Int) : Prop :=
  gy < y ∧ y < count ∧ validAt dp layer gx y ∧ ∀ y1, gy < y1 → y1 < y → ¬ validAt dp layer gx y1

/-- The candidates of `moveHopeless` in the order left, right, below, above: for the
pixel found in a direction, the point it stands for and the distance the code
computes for it. -/
def hopelessCandidates (dp : Opendp) (cell : Cell) (gx gy : Int) (l r b a : Option Int) :
    List (Point × Int) :=
  [l.map (fun x => ((⟨x, gy⟩ : Point), (gx - x - 1) * getSiteWidth dp cell)),
   r.map (fun x => ((⟨x, gy⟩ : Point), (x - gx) * getSiteWidth dp cell - cell.width_)),
   b.map (fun y => ((⟨gx, y⟩ : Point), (gy - y - 1) * (getRowInfo dp cell).1)),
   a.map (fun y => ((⟨gx, y⟩ : Point), (y - gy) * (getRowInfo dp cell).1 - cell.height_))
  ].filterMap id

/-- The first of the candidates with the smallest distance. -/
def nearestCandidate : List (Point × Int) → Option (Point × Int)
  | [] => none
  | c :: cs =>
    match nearestCandidate cs with
    | some d => if d.2 < c.2 then some d else some c
    | none => some c

/-- In the words of the claim: the two cells are in the same group or are both
groupless. -/
def sameGroupOrGroupless (a b : Cell) : Prop :=
  (∃ g, a.group_ = some g ∧ b.group_ = some g) ∨ (a.group_ = none ∧ b.group_ = none)

/-- A core of 8 sites by 1 row (site width 200, row height 1000) whose sites 4 to 7
are the region of group 0.  Cell 0, the target, has no group, initial location
(400, 0) and is not placed; cell 1, of group 0, is painted at (800, 0) on site
4; cell 2 has no group and is painted at its initial location (600, 0) on
site 3. -/
def grouplessTargetRow : Opendp :=
  { cells_ := [ { inst_x := 400, x_ := 400, width_ := 200, height_ := 1000,
                  row_height := 1000 },
                { inst_x := 800, x_ := 800, width_ := 200, height_ := 1000,
                  row_height := 1000, is_placed_ := true, group_ := some 0 },
                { inst_x := 600, x_ := 600, width_ := 200, height_ := 1000,
                  row_height := 1000, is_placed_ := true } ]
    groups_ := [ { boundary := ⟨800, 0, 1600, 1000⟩, regions := [⟨800, 0, 1600, 1000⟩],
                   cells_ := [1] } ]
    core_ := ⟨0, 0, 1600, 1000⟩
    site_width_ := 200
    row_height_ := 1000
    row_count_ := 1
    row_site_count_ := 8
    max_displacement_x_ := 4
    max_displacement_y_ := 1
    bin_search_width_ := 1
    layer_row_count_ := fun _ => 1
    layer_site_count_ := fun _ => 8
    grid_ := fun _ _ x =>
      { is_valid := true, group_ := if x < 4 then none else some 0,
        cell := if x = 4 then some 1 else if x = 3 then some 2 else none } }

/-- What `swapCells` returns: true exactly under the guard with a negative
`dist_change`. -/
theorem swapCells_guard_and_sign (dp : Opendp) (c1 c2 : Nat) :
    (swapCells dp c1 c2).1 = true ↔
      (c1 ≠ c2 ∧ (dp.cell c1).hold_ = false ∧ (dp.cell c2).hold_ = false
        ∧ isFixed (dp.cell c1) = false ∧ isFixed (dp.cell c2) = false
        ∧ (dp.cell c1).width_ = (dp.cell c2).width_
        ∧ (dp.cell c1).height_ = (dp.cell c2).height_
        ∧ distChange dp (dp.cell c1) (dp.cell c2).x_ (dp.cell c2).y_
            + distChange dp (dp.cell c2) (dp.cell c1).x_ (dp.cell c1).y_ < 0) := by
  unfold swapCells
  by_cases hg : swapGuard dp c1 c2 = true
  · rw [if_pos hg]
    by_cases hd : distChange dp (dp.cell c1) (dp.cell c2).x_ (dp.cell c2).y_
            + distChange dp (dp.cell c2) (dp.cell c1).x_ (dp.cell c1).y_ < 0
    · rw [if_pos hd]
      unfold swapGuard at hg
      simp at hg
      refine ⟨fun _ => ?_, fun _ => rfl⟩
      tauto
    · rw [if_neg hd]
      exact ⟨fun h => by simp at h, fun h => absurd h.2.2.2.2.2.2.2 hd⟩
  · rw [if_neg hg]
    refine ⟨fun h => by simp at h, fun h => ?_⟩
    exfalso
    apply hg
    unfold swapGuard
    simp [h.1, h.2.1, h.2.2.1, h.2.2.2.1, h.2.2.2.2.1, h.2.2.2.2.2.1, h.2.2.2.2.2.2.1]

/-- A rejected swap returns the state it was given. -/
theorem swapCells_rejected_unchanged (dp : Opendp) (c1 c2 : Nat)
    (h : (swapCells dp c1 c2).1 = false) : (swapCells dp c1 c2).2 = dp := by
  unfold swapCells at h ⊢
  by_cases hg : swapGuard dp c1 c2 = true
  · rw [if_pos hg] at h ⊢
    by_cases hd : distChange dp (dp.cell c1) (dp.cell c2).x_ (dp.cell c2).y_
            + distChange dp (dp.cell c2) (dp.cell c1).x_ (dp.cell c1).y_ < 0
    · rw [if_pos hd] at h
      exact absurd h (by simp)
    · rw [if_neg hd]
  · rw [if_neg hg]

/-- The state after an accepted swap: both cells erased, then each painted at the
padded grid position of the other. -/
theorem swapCells_accepted_state (dp : Opendp) (c1 c2 : Nat)
    (hacc : (swapCells dp c1 c2).1 = true) :
    (swapCells dp c1 c2).2
      = paintPixel (paintPixel (erasePixel (erasePixel dp c1) c2) c1
          (gridPaddedX dp (dp.cell c2)) (gridYCell dp (dp.cell c2))) c2
          (gridPaddedX dp (dp.cell c1)) (gridYCell dp (dp.cell c1)) := by
  unfold swapCells at hacc ⊢
  by_cases hg : swapGuard dp c1 c2 = true
  · rw [if_pos hg] at hacc ⊢
    by_cases hd : distChange dp (dp.cell c1) (dp.cell c2).x_ (dp.cell c2).y_
            + distChange dp (dp.cell c2) (dp.cell c1).x_ (dp.cell c1).y_ < 0
    · rw [if_pos hd]
    · rw [if_neg hd] at hacc
      exact absurd hacc (by simp)
  · rw [if_neg hg] at hacc
    exact absurd hacc (by simp)

/-- C1: `swapCells(c1, c2)` returns true if and only if c1 and c2 are different
cells, neither has hold set, neither is fixed, their widths are equal, their
heights are equal, and the sum of the two `distChange` values is negative;
whenever it returns false the state (cell locations and grid pixels) is
unchanged. -/
theorem swapCells_true_iff (dp : Opendp) (c1 c2 : Nat) :
    ((swapCells dp c1 c2).1 = true ↔
      (c1 ≠ c2 ∧ (dp.cell c1).hold_ = false ∧ (dp.cell c2).hold_ = false
        ∧ isFixed (dp.cell c1) = false ∧ isFixed (dp.cell c2) = false
        ∧ (dp.cell c1).width_ = (dp.cell c2).width_
        ∧ (dp.cell c1).height_ = (dp.cell c2).height_
        ∧ distChange dp (dp.cell c1) (dp.cell c2).x_ (dp.cell c2).y_
            + distChange dp (dp.cell c2) (dp.cell c1).x_ (dp.cell c1).y_ < 0))
    ∧ ((swapCells dp c1 c2).1 = false → (swapCells dp c1 c2).2 = dp) :=
  ⟨swapCells_guard_and_sign dp c1 c2, swapCells_rejected_unchanged dp c1 c2⟩

/-- C2: on `mixedPadPlaced` (a padded CORE cell and an unpadded CORE_SPACER cell of
equal width and height, both placed on the grid) `swapCells` accepts the swap of
cells 0 and 1, and the sum of their displacements rises from 2300 to 2500. -/
theorem swapCells_mixed_padding_raises_disp :
    (swapCells mixedPadPlaced 0 1).1 = true
    ∧ disp mixedPadPlaced (mixedPadPlaced.cell 0)
        + disp mixedPadPlaced (mixedPadPlaced.cell 1) = 2300
    ∧ disp (swapCells mixedPadPlaced 0 1).2 ((swapCells mixedPadPlaced 0 1).2.cell 0)
        + disp (swapCells mixedPadPlaced 0 1).2 ((swapCells mixedPadPlaced 0 1).2.cell 1)
        = 2500 := by
  decide

/-- C3: on `mixedPadPlaced` the swap of cells 0 and 1 is accepted, and the swap
that follows at once is accepted again and moves cell 0 from x = 1400 back to
x = 200. -/
theorem swapCells_mixed_padding_accepts_twice :
    (swapCells mixedPadPlaced 0 1).1 = true
    ∧ (swapCells (swapCells mixedPadPlaced 0 1).2 0 1).1 = true
    ∧ ((swapCells mixedPadPlaced 0 1).2.cell 0).x_ = 1400
    ∧ ((swapCells (swapCells mixedPadPlaced 0 1).2 0 1).2.cell 0).x_ = 200 := by
  decide

/-! ## Pixel checks -/

theorem mem_intRange (lo hi v : Int) : v ∈ intRange lo hi ↔ lo ≤ v ∧ v < hi := by
  unfold intRange
  rw [List.mem_map]
  constructor
  · rintro ⟨k, hk, rfl⟩
    rw [List.mem_range] at hk
    omega
  · rintro ⟨h1, h2⟩
    exact ⟨(v - lo).toNat, List.mem_range.mpr (by omega), by omega⟩

theorem pixelBlocked_eq_false_iff (dp : Opendp) (cell : Cell) (layer : Nat) (x1 y1 : Int) :
    pixelBlocked dp cell layer x1 y1 = false ↔
      ∃ pixel, gridPixel dp layer x1 y1 = some pixel ∧ pixel.cell = none
        ∧ pixel.is_valid = true ∧ pixel.group_ = cell.group_ := by
  unfold pixelBlocked
  cases h : gridPixel dp layer x1 y1 with
  | none => simp
  | some p =>
    cases hg : cell.group_ <;> cases hp : p.group_ <;> cases hc : p.cell <;>
      cases hv : p.is_valid <;> simp [Cell.inGroup, hg, hp, hc, hv]

/-- What `checkPixels` returns, as a statement about the footprint: the limit on
x_end, every pixel free, valid and of the group of the cell, and, when the
footprint has a row and the one-site-gap rule is on, no corner gap. -/
theorem checkPixels_eq_true_iff (dp : Opendp) (cell : Cell) (x y x_end y_end : Int) :
    checkPixels dp cell x y x_end y_end = true ↔
      x_end ≤ (getRowInfo dp cell).2.site_count
      ∧ (∀ x1 y1, x ≤ x1 → x1 < x_end → y ≤ y1 → y1 < y_end →
          ∃ pixel, gridPixel dp (getRowInfo dp cell).2.grid_index x1 y1 = some pixel
            ∧ pixel.cell = none ∧ pixel.is_valid = true ∧ pixel.group_ = cell.group_)
      ∧ (y < y_end → dp.disallow_one_site_gaps_ = true →
          oneSiteGap dp (getRowInfo dp cell).2.grid_index x y x_end y_end = false) := by
  unfold checkPixels
  by_cases hx : x_end > (getRowInfo dp cell).2.site_count
  · simp only [hx, if_true]
    constructor
    · intro h; simp at h
    · intro h; omega
  · simp only [hx, if_false, List.all_eq_true, Bool.and_eq_true, mem_intRange,
      Bool.not_eq_true', pixelBlocked_eq_false_iff, Bool.and_eq_false_imp]
    constructor
    · intro h
      refine ⟨by omega, fun x1 y1 h1 h2 h3 h4 => (h y1 ⟨h3, h4⟩).1 x1 ⟨h1, h2⟩, fun hy hd => ?_⟩
      exact (h y ⟨le_refl _, hy⟩).2 hd
    · rintro ⟨_, h2, h3⟩ y1 hy1
      exact ⟨fun x1 hx1 => h2 x1 y1 hx1.1 hx1.2 hy1.1 hy1.2, fun hd => h3 (by omega) hd⟩

/-- C8: with the one-site-gap rule disabled, `checkPixels(cell, x, y, x_end, y_end)`
is true if and only if x_end is at most the site_count of the layer and every
(x1, y1) with x <= x1 < x_end and y <= y1 < y_end is an in-bounds pixel that has
no occupant, has is_valid set, and whose group equals the group of the cell
(null when the cell has no group). -/
theorem checkPixels_iff_no_gap_rule (dp : Opendp) (cell : Cell) (x y x_end y_end : Int)
    (hrule : dp.disallow_one_site_gaps_ = false) :
    checkPixels dp cell x y x_end y_end = true ↔
      x_end ≤ (getRowInfo dp cell).2.site_count
      ∧ ∀ x1 y1, x ≤ x1 → x1 < x_end → y ≤ y1 → y1 < y_end →
          ∃ pixel, gridPixel dp (getRowInfo dp cell).2.grid_index x1 y1 = some pixel
            ∧ pixel.cell = none ∧ pixel.is_valid = true ∧ pixel.group_ = cell.group_ := by
  rw [checkPixels_eq_true_iff]
  constructor
  · rintro ⟨h1, h2, _⟩
    exact ⟨h1, h2⟩
  · rintro ⟨h1, h2⟩
    exact ⟨h1, h2, fun _ hd => by rw [hrule] at hd; exact absurd hd (by decide)⟩

/-- A run of C8: in `rowWithBlock 2 4 8 8` the rule is off and the footprint of
cell 0 at (0, 0) passes `checkPixels`, so its pixel is free, valid and without
group. -/
theorem checkPixels_iff_no_gap_rule_witness :
    (rowWithBlock 2 4 8 8).disallow_one_site_gaps_ = false
    ∧ (1 : Int) ≤ (getRowInfo (rowWithBlock 2 4 8 8) ((rowWithBlock 2 4 8 8).cell 0)).2.site_count :=
  ⟨by decide,
   ((checkPixels_iff_no_gap_rule (rowWithBlock 2 4 8 8) ((rowWithBlock 2 4 8 8).cell 0)
      0 0 1 1 (by decide)).mp (by decide)).1⟩

/-! ## Legal points -/

theorem divRound_of_nonneg (a b : Int) (ha : 0 ≤ a) (hb : 0 < b) :
    divRound a b = (2 * a + b) / (2 * b) := by
  unfold divRound
  have h1 : decide (a < 0) = false := by simp; omega
  have h2 : decide (b < 0) = false := by simp; omega
  simp only [h1, h2, bne_self_eq_false, Bool.false_eq_true, if_false]
  push_cast
  rw [abs_of_nonneg ha, abs_of_nonneg (le_of_lt hb)]

theorem ediv_eq_of_bounds (n d q : Int) (hd : 0 < d) (h1 : q * d ≤ n) (h2 : n < (q + 1) * d) :
    n / d = q := by
  apply le_antisymm
  · have : n / d < q + 1 := Int.ediv_lt_of_lt_mul hd h2
    omega
  · exact Int.le_ediv_of_mul_le hd h1

/-- Rounding a clamped coordinate to the site grid, clamping the result again and
rounding once more gives the same site. -/
theorem divRound_clamp_fixed (sw W c : Int) (hsw : 0 < sw) (hc0 : 0 ≤ c) (hcW : c ≤ W) :
    divRound (min (max 0 (divRound c sw * sw)) W) sw = divRound c sw := by
  rw [divRound_of_nonneg c sw hc0 hsw]
  set g := (2 * c + sw) / (2 * sw) with hg
  have h2sw : 0 < 2 * sw := by omega
  have hlo : g * (2 * sw) ≤ 2 * c + sw := Int.ediv_mul_le _ (by omega)
  have hhi : 2 * c + sw < (g + 1) * (2 * sw) := by
    have := Int.lt_ediv_add_one_mul_self (2 * c + sw) h2sw
    simpa [hg] using this
  have hg0 : 0 ≤ g := Int.ediv_nonneg (by omega) (by omega)
  have hr0 : 0 ≤ g * sw := mul_nonneg hg0 (le_of_lt hsw)
  have hm0 : 0 ≤ min (max 0 (g * sw)) W := by
    simp only [le_min_iff, le_max_iff]
    exact ⟨Or.inl (le_refl _), by omega⟩
  rw [divRound_of_nonneg _ sw hm0 hsw]
  apply ediv_eq_of_bounds _ _ _ h2sw
  · rcases le_total (max 0 (g * sw)) W with h | h
    · rw [min_eq_left h, max_eq_right hr0]
      nlinarith
    · rw [min_eq_right h]
      nlinarith
  · have : min (max 0 (g * sw)) W ≤ g * sw := by
      rw [max_eq_right hr0]
      exact min_le_left _ _
    nlinarith

/-- C9: `legalPt(cell, pt)` is idempotent: for every cell that fits the core
(width <= site_count * site_width, height <= row_count * row_height), every
point pt and positive site_width and row_height,
legalPt(cell, legalPt(cell, pt)) = legalPt(cell, pt). -/
theorem legalPt_idempotent (dp : Opendp) (cell : Cell) (pt : Point)
    (row_height site_width : Int)
    (hsw : 0 < legalSiteWidth dp cell site_width)
    (hrh : 0 < legalRowHeight dp cell row_height)
    (hw : cell.width_ ≤ (grid_info_map_ dp (legalRowHeight dp cell row_height)).site_count
            * legalSiteWidth dp cell site_width)
    (hh : cell.height_ ≤ (grid_info_map_ dp (legalRowHeight dp cell row_height)).row_count
            * legalRowHeight dp cell row_height) :
    legalPt dp cell (legalPt dp cell pt row_height site_width) row_height site_width
      = legalPt dp cell pt row_height site_width := by
  unfold legalPt
  simp only []
  set sw := legalSiteWidth dp cell site_width
  set rh := legalRowHeight dp cell row_height
  set W := (grid_info_map_ dp rh).site_count * sw - cell.width_
  set H := (grid_info_map_ dp rh).row_count * rh - cell.height_
  have hW : 0 ≤ W := by omega
  have hH : 0 ≤ H := by omega
  have hx := divRound_clamp_fixed sw W (min (max 0 pt.x) W) hsw
    (le_min (le_max_left _ _) hW) (min_le_right _ _)
  have hy := divRound_clamp_fixed rh H (min (max 0 pt.y) H) hrh
    (le_min (le_max_left _ _) hH) (min_le_right _ _)
  rw [hx, hy]

/-- A run of C9: for cell 0 of `mixedPadBase` and the point (500, 300), with the
default row height and site width. -/
theorem legalPt_idempotent_witness :
    (0 < legalSiteWidth mixedPadBase (mixedPadBase.cell 0) (-1)
      ∧ 0 < legalRowHeight mixedPadBase (mixedPadBase.cell 0) (-1)
      ∧ (mixedPadBase.cell 0).width_
          ≤ (grid_info_map_ mixedPadBase
              (legalRowHeight mixedPadBase (mixedPadBase.cell 0) (-1))).site_count
            * legalSiteWidth mixedPadBase (mixedPadBase.cell 0) (-1)
      ∧ (mixedPadBase.cell 0).height_
          ≤ (grid_info_map_ mixedPadBase
              (legalRowHeight mixedPadBase (mixedPadBase.cell 0) (-1))).row_count
            * legalRowHeight mixedPadBase (mixedPadBase.cell 0) (-1))
    ∧ legalPt mixedPadBase (mixedPadBase.cell 0)
        (legalPt mixedPadBase (mixedPadBase.cell 0) ⟨500, 300⟩ (-1) (-1)) (-1) (-1)
      = legalPt mixedPadBase (mixedPadBase.cell 0) ⟨500, 300⟩ (-1) (-1) :=
  ⟨⟨by decide, by decide, by decide, by decide⟩,
   legalPt_idempotent mixedPadBase (mixedPadBase.cell 0) ⟨500, 300⟩ (-1) (-1)
     (by decide) (by decide) (by decide) (by decide)⟩

/-- C10: the macro of `wideCellCore` fits the core (300 <= 10 * 200 and
1000 <= 1 * 1000), yet `legalPt` maps the point (1700, 0) to (1800, 0), where
the cell ends at x = 2100, beyond the core width 2000. -/
theorem legalPt_leaves_core :
    (wideCellCore.cell 0).width_
        ≤ (grid_info_map_ wideCellCore
            (legalRowHeight wideCellCore (wideCellCore.cell 0) (-1))).site_count
          * legalSiteWidth wideCellCore (wideCellCore.cell 0) (-1)
    ∧ (wideCellCore.cell 0).height_
        ≤ (grid_info_map_ wideCellCore
            (legalRowHeight wideCellCore (wideCellCore.cell 0) (-1))).row_count
          * legalRowHeight wideCellCore (wideCellCore.cell 0) (-1)
    ∧ legalPt wideCellCore (wideCellCore.cell 0) ⟨1700, 0⟩ (-1) (-1) = ⟨1800, 0⟩
    ∧ ¬ ((legalPt wideCellCore (wideCellCore.cell 0) ⟨1700, 0⟩ (-1) (-1)).x
          + (wideCellCore.cell 0).width_
        ≤ (grid_info_map_ wideCellCore
            (legalRowHeight wideCellCore (wideCellCore.cell 0) (-1))).site_count
          * legalSiteWidth wideCellCore (wideCellCore.cell 0) (-1)) := by
  decide

/-! ## Diamond search -/

theorem mem_binScan (dp : Opendp) (x bin_x i : Int) :
    i ∈ binScan dp x bin_x ↔ 0 ≤ i ∧ i < dp.bin_search_width_ := by
  unfold binScan
  split <;> simp [mem_intRange]

theorem binSearch_eq (dp : Opendp) (x : Int) (cell : Cell) (bin_x bin_y : Int) :
    binSearch dp x cell bin_x bin_y =
      if bin_y + gridHeightRow cell (getRowHeight dp cell)
          > (grid_info_map_ dp (getRowHeight dp cell)).row_count then PixelPt.none
      else
        match (binScan dp x bin_x).find? (binTest dp cell bin_x bin_y) with
        | some i => ⟨gridPixel dp (grid_info_map_ dp (getRowHeight dp cell)).grid_index
            (bin_x + i) bin_y, ⟨bin_x + i, bin_y⟩⟩
        | none => PixelPt.none := rfl

/-- A hit of `binSearch`: the row fits the layer, the returned point is the first
offset of the scan that passes `checkPixels`, and its pixel exists. -/
theorem binSearch_hit (dp : Opendp) (x : Int) (cell : Cell) (bin_x bin_y : Int)
    (h : (binSearch dp x cell bin_x bin_y).pixel.isSome) :
    bin_y + gridHeightRow cell (getRowHeight dp cell)
        ≤ (grid_info_map_ dp (getRowHeight dp cell)).row_count
    ∧ ∃ i, (binScan dp x bin_x).find? (binTest dp cell bin_x bin_y) = some i
      ∧ (binSearch dp x cell bin_x bin_y).pt = ⟨bin_x + i, bin_y⟩
      ∧ (binSearch dp x cell bin_x bin_y).pixel
          = gridPixel dp (grid_info_map_ dp (getRowHeight dp cell)).grid_index (bin_x + i) bin_y := by
  rw [binSearch_eq] at h ⊢
  by_cases hy : bin_y + gridHeightRow cell (getRowHeight dp cell)
      > (grid_info_map_ dp (getRowHeight dp cell)).row_count
  · rw [if_pos hy] at h
    simp [PixelPt.none] at h
  · rw [if_neg hy] at h ⊢
    refine ⟨by omega, ?_⟩
    cases hf : (binScan dp x bin_x).find? (binTest dp cell bin_x bin_y) with
    | none =>
      rw [hf] at h
      simp [PixelPt.none] at h
    | some i => exact ⟨i, rfl, rfl, rfl⟩

/-- When `binSearch` finds nothing although the row fits the layer, every offset
of the bin that passes `checkPixels` lies on a point without pixel. -/
theorem binSearch_miss (dp : Opendp) (x : Int) (cell : Cell) (bin_x bin_y : Int)
    (hy : bin_y + gridHeightRow cell (getRowHeight dp cell)
        ≤ (grid_info_map_ dp (getRowHeight dp cell)).row_count)
    (h : (binSearch dp x cell bin_x bin_y).pixel.isSome = false) :
    (∀ i, 0 ≤ i → i < dp.bin_search_width_ → binTest dp cell bin_x bin_y i = false)
    ∨ ∃ i, 0 ≤ i ∧ i < dp.bin_search_width_ ∧ binTest dp cell bin_x bin_y i = true
        ∧ gridPixel dp (grid_info_map_ dp (getRowHeight dp cell)).grid_index (bin_x + i) bin_y
            = none := by
  rw [binSearch_eq, if_neg (by omega)] at h
  cases hf : (binScan dp x bin_x).find? (binTest dp cell bin_x bin_y) with
  | none =>
    left
    intro i h0 h1
    rw [List.find?_eq_none] at hf
    have := hf i ((mem_binScan dp x bin_x i).mpr ⟨h0, h1⟩)
    simpa using this
  | some i =>
    right
    rw [hf] at h
    have hm := (mem_binScan dp x bin_x i).mp (List.mem_of_find?_eq_some hf)
    refine ⟨i, hm.1, hm.2, List.find?_some hf, ?_⟩
    simpa using h

theorem foldl_keeps {α β : Type} (Q : β → Prop) (f : β → α → β) (l : List α) (init : β)
    (h0 : Q init) (hstep : ∀ b a, Q b → Q (f b a)) : Q (l.foldl f init) := by
  induction l generalizing init with
  | nil => exact h0
  | cons a rest ih => exact ih (f init a) (hstep init a h0)

theorem diamondSearchSide_keeps (P : PixelPt → Prop) (dp : Opendp) (cell : Cell) (x y : Int)
    (lim : SearchLimits)
    (hP : ∀ xo yo, (binSearch dp x cell (sideBin dp x y lim xo yo).x
        (sideBin dp x y lim xo yo).y).pixel.isSome →
      P (binSearch dp x cell (sideBin dp x y lim xo yo).x (sideBin dp x y lim xo yo).y))
    (xo yo : Int) (best : PixelPt × Int) (hb : best.1.pixel.isSome → P best.1) :
    (diamondSearchSide dp cell x y lim xo yo best).1.pixel.isSome →
      P (diamondSearchSide dp cell x y lim xo yo best).1 := by
  unfold diamondSearchSide
  simp only []
  split
  · rename_i hs
    split
    · intro _
      exact hP xo yo hs
    · exact hb
  · exact hb

theorem diamondRadius_keeps (P : PixelPt → Prop) (dp : Opendp) (cell : Cell) (x y : Int)
    (lim : SearchLimits)
    (hP : ∀ xo yo, (binSearch dp x cell (sideBin dp x y lim xo yo).x
        (sideBin dp x y lim xo yo).y).pixel.isSome →
      P (binSearch dp x cell (sideBin dp x y lim xo yo).x (sideBin dp x y lim xo yo).y))
    (i : Int) :
    (diamondRadius dp cell x y lim i).1.pixel.isSome → P (diamondRadius dp cell x y lim i).1 := by
  unfold diamondRadius
  simp only []
  apply foldl_keeps (fun b : PixelPt × Int => b.1.pixel.isSome → P b.1)
  · apply foldl_keeps (fun b : PixelPt × Int => b.1.pixel.isSome → P b.1)
    · intro h
      simp [PixelPt.none] at h
    · intro b j hb
      unfold diamondLeftStep
      simp only []
      split
      · exact diamondSearchSide_keeps P dp cell x y lim hP _ _ b hb
      · exact hb
  · intro b j hb
    unfold diamondRightStep
    simp only []
    split
    · exact diamondSearchSide_keeps P dp cell x y lim hP _ _ b hb
    · exact hb

theorem diamondLoop_keeps (P : PixelPt → Prop) (dp : Opendp) (cell : Cell) (x y : Int)
    (lim : SearchLimits)
    (hP : ∀ xo yo, (binSearch dp x cell (sideBin dp x y lim xo yo).x
        (sideBin dp x y lim xo yo).y).pixel.isSome →
      P (binSearch dp x cell (sideBin dp x y lim xo yo).x (sideBin dp x y lim xo yo).y))
    (radii : List Int) :
    (diamondLoop dp cell x y lim radii).pixel.isSome → P (diamondLoop dp cell x y lim radii) := by
  induction radii with
  | nil =>
    intro h
    simp [diamondLoop, PixelPt.none] at h
  | cons i rest ih =>
    unfold diamondLoop
    simp only []
    split
    · exact diamondRadius_keeps P dp cell x y lim hP i
    · exact ih

/-- Every point `diamondSearch` returns is a hit of `binSearch`, in the bin at the
start or in one of the bins of `diamondSearchSide`: a property of all these
hits is a property of the result. -/
theorem diamondSearch_keeps (P : PixelPt → Prop) (dp : Opendp) (cell : Cell) (x y : Int)
    (h0 : (binSearch dp x cell x y).pixel.isSome → P (binSearch dp x cell x y))
    (hP : ∀ xo yo, (binSearch dp x cell (sideBin dp x y (diamondLimits dp cell x y) xo yo).x
        (sideBin dp x y (diamondLimits dp cell x y) xo yo).y).pixel.isSome →
      P (binSearch dp x cell (sideBin dp x y (diamondLimits dp cell x y) xo yo).x
        (sideBin dp x y (diamondLimits dp cell x y) xo yo).y)) :
    (diamondSearch dp cell x y).pixel.isSome → P (diamondSearch dp cell x y) := by
  unfold diamondSearch
  simp only []
  split
  · exact h0
  · exact diamondLoop_keeps P dp cell x y _ hP _

/-- The point of a hit of `binSearch` passes `checkPixels` for the footprint of the
cell. -/
theorem binSearch_checkPixels (dp : Opendp) (x : Int) (cell : Cell) (bin_x bin_y : Int)
    (h : (binSearch dp x cell bin_x bin_y).pixel.isSome) :
    checkPixels dp cell (binSearch dp x cell bin_x bin_y).pt.x
      (binSearch dp x cell bin_x bin_y).pt.y
      ((binSearch dp x cell bin_x bin_y).pt.x + gridPaddedWidth dp cell)
      ((binSearch dp x cell bin_x bin_y).pt.y + gridHeightRow cell (getRowHeight dp cell))
      = true := by
  obtain ⟨_, i, hf, hpt, _⟩ := binSearch_hit dp x cell bin_x bin_y h
  have ht := List.find?_some hf
  rw [hpt]
  unfold binTest at ht
  rw [add_right_comm] at ht
  exact ht

theorem diamondSearch_result_checkPixels (dp : Opendp) (cell : Cell) (x y : Int)
    (h : (diamondSearch dp cell x y).pixel.isSome) :
    checkPixels dp cell (diamondSearch dp cell x y).pt.x (diamondSearch dp cell x y).pt.y
      ((diamondSearch dp cell x y).pt.x + gridPaddedWidth dp cell)
      ((diamondSearch dp cell x y).pt.y + gridHeightRow cell (getRowHeight dp cell)) = true :=
  diamondSearch_keeps
    (fun r => checkPixels dp cell r.pt.x r.pt.y (r.pt.x + gridPaddedWidth dp cell)
      (r.pt.y + gridHeightRow cell (getRowHeight dp cell)) = true)
    dp cell x y (binSearch_checkPixels dp x cell x y)
    (fun _ _ hs => binSearch_checkPixels dp x cell _ _ hs) h

theorem getD_set_self (l : List Cell) (c : Nat) (v : Cell) (hc : c < l.length) :
    (l.set c v).getD c default = v := by
  simp [List.getD_eq_getElem?_getD, List.getElem?_set, hc]

theorem getD_set_other (l : List Cell) (c k : Nat) (v : Cell) (h : k ≠ c) :
    (l.set c v).getD k default = l.getD k default := by
  simp [List.getD_eq_getElem?_getD, List.getElem?_set, Ne.symm h]

theorem paintPixel_cell_self (dp : Opendp) (c : Nat) (gx gy : Int) (hc : c < dp.cells_.length) :
    (paintPixel dp c gx gy).cell c
      = { setGridPaddedLoc dp (dp.cell c) gx gy with is_placed_ := true } := by
  unfold Opendp.cell paintPixel
  exact getD_set_self _ _ _ hc

theorem paintPixel_cell_other (dp : Opendp) (c k : Nat) (gx gy : Int) (h : k ≠ c) :
    (paintPixel dp c gx gy).cell k = dp.cell k := by
  unfold Opendp.cell paintPixel
  exact getD_set_other _ _ _ _ h

theorem paintPixel_gridPixel_in (dp : Opendp) (c : Nat) (gx gy : Int) (layer : Nat) (x y : Int)
    (h : inPaint dp c gx gy layer x y) (p : Pixel) (hp : gridPixel dp layer x y = some p) :
    gridPixel (paintPixel dp c gx gy) layer x y = some { p with cell := some c } := by
  unfold gridPixel at hp ⊢
  unfold inPaint at h
  have hb : 0 ≤ x ∧ x < dp.layer_site_count_ layer ∧ 0 ≤ y ∧ y < dp.layer_row_count_ layer := by
    by_contra hn
    rw [if_neg hn] at hp
    exact absurd hp (by simp)
  rw [if_pos hb] at hp
  have hb' : 0 ≤ x ∧ x < (paintPixel dp c gx gy).layer_site_count_ layer ∧ 0 ≤ y
      ∧ y < (paintPixel dp c gx gy).layer_row_count_ layer := hb
  rw [if_pos hb']
  have hp' : dp.grid_ layer y x = p := Option.some.inj hp
  have hcond : layer = (getRowInfo dp (dp.cell c)).2.grid_index ∧ gx ≤ x
      ∧ x < gx + gridPaddedWidth dp (dp.cell c) ∧ gy ≤ y
      ∧ y < gy + gridHeightRow (dp.cell c) (getRowHeight dp (dp.cell c)) := h
  simp only [paintPixel, if_pos hcond, hp']

theorem paintPixel_gridPixel_out (dp : Opendp) (c : Nat) (gx gy : Int) (layer : Nat) (x y : Int)
    (h : ¬ inPaint dp c gx gy layer x y) :
    gridPixel (paintPixel dp c gx gy) layer x y = gridPixel dp layer x y := by
  unfold gridPixel
  unfold inPaint at h
  simp only [paintPixel, if_neg h]

theorem paintPixel_gridPixel_group (dp : Opendp) (c : Nat) (gx gy : Int) (layer : Nat) (x y : Int)
    (p : Pixel) (hp : gridPixel dp layer x y = some p) :
    ∃ q, gridPixel (paintPixel dp c gx gy) layer x y = some q ∧ q.group_ = p.group_ := by
  by_cases h : inPaint dp c gx gy layer x y
  · exact ⟨_, paintPixel_gridPixel_in dp c gx gy layer x y h p hp, rfl⟩
  · exact ⟨p, by rw [paintPixel_gridPixel_out dp c gx gy layer x y h, hp], rfl⟩

theorem covers_paintPixel_other (dp : Opendp) (c k : Nat) (gx gy : Int) (layer : Nat) (x y : Int)
    (h : k ≠ c) :
    covers (paintPixel dp c gx gy) k layer x y ↔ covers dp k layer x y := by
  unfold covers
  rw [paintPixel_cell_other dp c k gx gy h]
  rfl

theorem gridPaddedX_setGridPaddedLoc (dp : Opendp) (cell : Cell) (gx gy : Int) (b : Bool)
    (hsw : dp.site_width_ ≠ 0) :
    gridPaddedX dp { setGridPaddedLoc dp cell gx gy with is_placed_ := b } = gx := by
  unfold gridPaddedX setGridPaddedLoc gridX cdiv
  have hp : isPadded dp { cell with
      x_ := (gx + (if isPadded dp cell then dp.pad_left_ else 0)) * dp.site_width_,
      y_ := gy * dp.row_height_, is_placed_ := b } = isPadded dp cell := rfl
  simp only [hp]
  by_cases hpad : isPadded dp cell = true
  · simp only [hpad, if_true]
    have : (gx + dp.pad_left_) * dp.site_width_ - dp.pad_left_ * dp.site_width_
        = gx * dp.site_width_ := by ring
    rw [this]
    exact Int.mul_tdiv_cancel gx hsw
  · simp only [hpad, Bool.false_eq_true, if_false, add_zero]
    exact Int.mul_tdiv_cancel gx hsw

theorem gridYCell_setGridPaddedLoc (dp : Opendp) (cell : Cell) (gx gy : Int) (b : Bool)
    (hrh : dp.row_height_ ≠ 0) :
    gridYCell dp { setGridPaddedLoc dp cell gx gy with is_placed_ := b } = gy := by
  unfold gridYCell setGridPaddedLoc gridY cdiv
  exact Int.mul_tdiv_cancel gy hrh

/-- After `paintPixel` the cell covers exactly the painted footprint. -/
theorem covers_paintPixel_self (dp : Opendp) (c : Nat) (gx gy : Int) (layer : Nat) (x y : Int)
    (hc : c < dp.cells_.length) (hsw : dp.site_width_ ≠ 0) (hrh : dp.row_height_ ≠ 0) :
    covers (paintPixel dp c gx gy) c layer x y ↔ inPaint dp c gx gy layer x y := by
  unfold covers inPaint
  rw [paintPixel_cell_self dp c gx gy hc]
  have h1 : gridPaddedX (paintPixel dp c gx gy)
      { setGridPaddedLoc dp (dp.cell c) gx gy with is_placed_ := true } = gx :=
    gridPaddedX_setGridPaddedLoc dp (dp.cell c) gx gy true hsw
  have h2 : gridYCell (paintPixel dp c gx gy)
      { setGridPaddedLoc dp (dp.cell c) gx gy with is_placed_ := true } = gy :=
    gridYCell_setGridPaddedLoc dp (dp.cell c) gx gy true hrh
  have h3 : gridPaddedWidth (paintPixel dp c gx gy)
      { setGridPaddedLoc dp (dp.cell c) gx gy with is_placed_ := true }
      = gridPaddedWidth dp (dp.cell c) := rfl
  have h4 : gridHeightRow { setGridPaddedLoc dp (dp.cell c) gx gy with is_placed_ := true }
      (getRowHeight (paintPixel dp c gx gy)
        { setGridPaddedLoc dp (dp.cell c) gx gy with is_placed_ := true })
      = gridHeightRow (dp.cell c) (getRowHeight dp (dp.cell c)) := rfl
  have h5 : (getRowInfo (paintPixel dp c gx gy)
      { setGridPaddedLoc dp (dp.cell c) gx gy with is_placed_ := true }).2.grid_index
      = (getRowInfo dp (dp.cell c)).2.grid_index := rfl
  rw [h1, h2, h3, h4, h5]
  simp

theorem mapMove_found (dp : Opendp) (c : Nat) (x0 y0 : Int)
    (hfound : (diamondSearch dp (dp.cell c) x0 y0).pixel.isSome) :
    mapMove dp c ⟨x0, y0⟩
      = (true, paintPixel dp c (diamondSearch dp (dp.cell c) x0 y0).pt.x
          (diamondSearch dp (dp.cell c) x0 y0).pt.y) := by
  unfold mapMove
  simp only [hfound, if_true]

/-- Painting a cell onto a footprint that passes `checkPixels` keeps the pixel
invariant. -/
theorem paintPixel_keeps_PixelsOwned (dp : Opendp) (c : Nat) (gx gy : Int)
    (hc : c < dp.cells_.length) (hsw : dp.site_width_ ≠ 0) (hrh : dp.row_height_ ≠ 0)
    (hck : checkPixels dp (dp.cell c) gx gy (gx + gridPaddedWidth dp (dp.cell c))
      (gy + gridHeightRow (dp.cell c) (getRowHeight dp (dp.cell c))) = true)
    (hinv : PixelsOwned dp) : PixelsOwned (paintPixel dp c gx gy) := by
  have hfree := ((checkPixels_eq_true_iff _ _ _ _ _ _).mp hck).2.1
  intro k layer x y hcov
  by_cases hk : k = c
  · subst hk
    have hin := (covers_paintPixel_self dp k gx gy layer x y hc hsw hrh).mp hcov
    obtain ⟨hl, h1, h2, h3, h4⟩ := hin
    obtain ⟨p, hp, _, _, _⟩ := hfree x y h1 h2 h3 h4
    rw [← hl] at hp
    exact ⟨_, paintPixel_gridPixel_in dp k gx gy layer x y ⟨hl, h1, h2, h3, h4⟩ p hp, rfl⟩
  · have hcov' := (covers_paintPixel_other dp c k gx gy layer x y hk).mp hcov
    obtain ⟨p, hp, hpc⟩ := hinv k layer x y hcov'
    by_cases hin : inPaint dp c gx gy layer x y
    · obtain ⟨hl, h1, h2, h3, h4⟩ := hin
      obtain ⟨q, hq, hqc, _, _⟩ := hfree x y h1 h2 h3 h4
      rw [← hl, hp] at hq
      rw [← Option.some.inj hq, hpc] at hqc
      exact absurd hqc (by simp)
    · exact ⟨p, by rw [paintPixel_gridPixel_out dp c gx gy layer x y hin, hp], hpc⟩

theorem NoOverlap_of_PixelsOwned (dp : Opendp) (h : PixelsOwned dp) : NoOverlap dp := by
  intro c1 c2 layer x y h1 h2
  obtain ⟨p, hp, hpc⟩ := h c1 layer x y h1
  obtain ⟨q, hq, hqc⟩ := h c2 layer x y h2
  rw [hp] at hq
  rw [← Option.some.inj hq, hpc] at hqc
  exact Option.some.inj hqc

/-- Painting a cell onto a footprint that passes `checkPixels` keeps group
membership (G3). -/
theorem paintPixel_keeps_GroupHonored (dp : Opendp) (c : Nat) (gx gy : Int)
    (hc : c < dp.cells_.length) (hsw : dp.site_width_ ≠ 0) (hrh : dp.row_height_ ≠ 0)
    (hck : checkPixels dp (dp.cell c) gx gy (gx + gridPaddedWidth dp (dp.cell c))
      (gy + gridHeightRow (dp.cell c) (getRowHeight dp (dp.cell c))) = true)
    (hinv : GroupHonored dp) : GroupHonored (paintPixel dp c gx gy) := by
  have hfree := ((checkPixels_eq_true_iff _ _ _ _ _ _).mp hck).2.1
  intro k layer x y hcov
  by_cases hk : k = c
  · subst hk
    have hin := (covers_paintPixel_self dp k gx gy layer x y hc hsw hrh).mp hcov
    obtain ⟨hl, h1, h2, h3, h4⟩ := hin
    obtain ⟨p, hp, _, _, hg⟩ := hfree x y h1 h2 h3 h4
    rw [← hl] at hp
    refine ⟨_, paintPixel_gridPixel_in dp k gx gy layer x y ⟨hl, h1, h2, h3, h4⟩ p hp, ?_⟩
    rw [paintPixel_cell_self dp k gx gy hc]
    exact hg
  · have hcov' := (covers_paintPixel_other dp c k gx gy layer x y hk).mp hcov
    obtain ⟨p, hp, hpg⟩ := hinv k layer x y hcov'
    obtain ⟨q, hq, hqg⟩ := paintPixel_gridPixel_group dp c gx gy layer x y p hp
    refine ⟨q, hq, ?_⟩
    rw [paintPixel_cell_other dp c k gx gy hk, hqg, hpg]

/-- C4: whenever `diamondSearch(cell, x0, y0)` returns a point (gx, gy),
`checkPixels(cell, gx, gy, gx + gridPaddedWidth(cell), gy + gridHeight(cell))`
holds on the current grid; hence a successful `mapMove` paints the cell only
onto pixels that are in bounds, valid, unoccupied and group-compatible, and so
preserves the pixel invariant, pairwise non-overlap (G1) and group membership
(G3). -/
theorem mapMove_paints_checked_pixels (dp : Opendp) (c : Nat) (x0 y0 : Int)
    (hfound : (diamondSearch dp (dp.cell c) x0 y0).pixel.isSome) :
    checkPixels dp (dp.cell c) (diamondSearch dp (dp.cell c) x0 y0).pt.x
        (diamondSearch dp (dp.cell c) x0 y0).pt.y
        ((diamondSearch dp (dp.cell c) x0 y0).pt.x + gridPaddedWidth dp (dp.cell c))
        ((diamondSearch dp (dp.cell c) x0 y0).pt.y
          + gridHeightRow (dp.cell c) (getRowHeight dp (dp.cell c))) = true
    ∧ (mapMove dp c ⟨x0, y0⟩).1 = true
    ∧ (c < dp.cells_.length → dp.site_width_ ≠ 0 → dp.row_height_ ≠ 0 →
        (∀ layer x y, covers (mapMove dp c ⟨x0, y0⟩).2 c layer x y →
          ∃ pixel, gridPixel dp layer x y = some pixel ∧ pixel.cell = none
            ∧ pixel.is_valid = true ∧ pixel.group_ = (dp.cell c).group_)
        ∧ (PixelsOwned dp →
            PixelsOwned (mapMove dp c ⟨x0, y0⟩).2 ∧ NoOverlap (mapMove dp c ⟨x0, y0⟩).2)
        ∧ (GroupHonored dp → GroupHonored (mapMove dp c ⟨x0, y0⟩).2)) := by
  have hck := diamondSearch_result_checkPixels dp (dp.cell c) x0 y0 hfound
  have hfree := ((checkPixels_eq_true_iff _ _ _ _ _ _).mp hck).2.1
  rw [mapMove_found dp c x0 y0 hfound]
  refine ⟨hck, rfl, fun hc hsw hrh => ⟨?_, ?_, ?_⟩⟩
  · intro layer x y hcov
    obtain ⟨hl, h1, h2, h3, h4⟩ := (covers_paintPixel_self dp c _ _ layer x y hc hsw hrh).mp hcov
    rw [hl]
    exact hfree x y h1 h2 h3 h4
  · intro hinv
    have := paintPixel_keeps_PixelsOwned dp c _ _ hc hsw hrh hck hinv
    exact ⟨this, NoOverlap_of_PixelsOwned _ this⟩
  · exact paintPixel_keeps_GroupHonored dp c _ _ hc hsw hrh hck

/-- In `rowWithBlock 2 4 8 8` the only placed cell is the fixed cell 1, and the two
pixels it covers reference it. -/
theorem rowWithBlock_pixelsOwned : PixelsOwned (rowWithBlock 2 4 8 8) := by
  intro c layer x y h
  match c with
  | 0 => exact absurd h.1 (by decide)
  | 1 =>
    obtain ⟨_, hl, hx1, hx2, hy1, hy2⟩ := h
    have e0 : (getRowInfo (rowWithBlock 2 4 8 8) ((rowWithBlock 2 4 8 8).cell 1)).2.grid_index
        = 0 := by decide
    have e1 : gridPaddedX (rowWithBlock 2 4 8 8) ((rowWithBlock 2 4 8 8).cell 1) = 2 := by
      decide
    have e2 : gridPaddedWidth (rowWithBlock 2 4 8 8) ((rowWithBlock 2 4 8 8).cell 1) = 2 := by
      decide
    have e3 : gridYCell (rowWithBlock 2 4 8 8) ((rowWithBlock 2 4 8 8).cell 1) = 0 := by
      decide
    have e4 : gridHeightRow ((rowWithBlock 2 4 8 8).cell 1)
        (getRowHeight (rowWithBlock 2 4 8 8) ((rowWithBlock 2 4 8 8).cell 1)) = 1 := by
      decide
    rw [e0] at hl
    rw [e1] at hx1
    rw [e1, e2] at hx2
    rw [e3] at hy1
    rw [e3, e4] at hy2
    have hy : y = 0 := by omega
    subst hl hy
    rcases (by omega : x = 2 ∨ x = 3) with hx | hx
    · subst hx
      exact ⟨(rowWithBlock 2 4 8 8).grid_ 0 0 2, by decide, by decide⟩
    · subst hx
      exact ⟨(rowWithBlock 2 4 8 8).grid_ 0 0 3, by decide, by decide⟩
  | k + 2 =>
    have hnp : ((rowWithBlock 2 4 8 8).cell (k + 2)).is_placed_ = false := by
      simp [Opendp.cell, rowWithBlock, List.getD]
      rfl
    rw [h.1] at hnp
    exact absurd hnp (by simp)

/-- A run of C4: in the row `rowWithBlock 2 4 8 8`, where the pixel invariant
holds, the search for cell 0 from (2, 0) finds a point, `mapMove` succeeds, and
no two placed cells overlap after it. -/
theorem mapMove_paints_checked_pixels_witness :
    ((diamondSearch (rowWithBlock 2 4 8 8) ((rowWithBlock 2 4 8 8).cell 0) 2 0).pixel.isSome
          = true
      ∧ 0 < (rowWithBlock 2 4 8 8).cells_.length
      ∧ (rowWithBlock 2 4 8 8).site_width_ ≠ 0 ∧ (rowWithBlock 2 4 8 8).row_height_ ≠ 0
      ∧ PixelsOwned (rowWithBlock 2 4 8 8))
    ∧ (mapMove (rowWithBlock 2 4 8 8) 0 ⟨2, 0⟩).1 = true
    ∧ NoOverlap (mapMove (rowWithBlock 2 4 8 8) 0 ⟨2, 0⟩).2 :=
  ⟨⟨by decide, by decide, by decide, by decide, rowWithBlock_pixelsOwned⟩,
   (mapMove_paints_checked_pixels (rowWithBlock 2 4 8 8) 0 2 0 (by decide)).2.1,
   (((mapMove_paints_checked_pixels (rowWithBlock 2 4 8 8) 0 2 0 (by decide)).2.2
      (by decide) (by decide) (by decide)).2.1 rowWithBlock_pixelsOwned).2⟩

theorem intRange_pairwise (lo hi : Int) : (intRange lo hi).Pairwise (· < ·) := by
  unfold intRange
  refine List.Pairwise.map _ ?_ (List.pairwise_lt_range _)
  intro a b hab
  have : (a : Int) < (b : Int) := by exact_mod_cast hab
  omega

theorem find?_first_of_sorted (l : List Int) (p : Int → Bool) (i : Int)
    (hs : l.Pairwise (· < ·)) (hf : l.find? p = some i) :
    ∀ j ∈ l, j < i → p j = false := by
  induction l with
  | nil => simp at hf
  | cons a rest ih =>
    rw [List.pairwise_cons] at hs
    intro j hj hlt
    rw [List.find?_cons_eq_some] at hf
    rcases hf with ⟨_, hai⟩ | ⟨hpa, hrest⟩
    · subst hai
      rcases List.mem_cons.mp hj with h | h
      · omega
      · have := hs.1 j h
        omega
    · rcases List.mem_cons.mp hj with h | h
      · subst h
        simpa using hpa
      · exact ih hs.2 hrest j h hlt

/-- A footprint with at least one site and one row that passes `checkPixels` starts
on a pixel of the layer and ends inside its rows. -/
theorem checkPixels_in_bounds (dp : Opendp) (cell : Cell) (x y : Int)
    (hw : 0 < gridPaddedWidth dp cell) (hh : 0 < gridHeightRow cell (getRowHeight dp cell))
    (hck : checkPixels dp cell x y (x + gridPaddedWidth dp cell)
      (y + gridHeightRow cell (getRowHeight dp cell)) = true) :
    (gridPixel dp (grid_info_map_ dp (getRowHeight dp cell)).grid_index x y).isSome
    ∧ y + gridHeightRow cell (getRowHeight dp cell)
        ≤ (grid_info_map_ dp (getRowHeight dp cell)).row_count := by
  have hfree := ((checkPixels_eq_true_iff _ _ _ _ _ _).mp hck).2.1
  constructor
  · obtain ⟨p, hp, _⟩ := hfree x y (le_refl _) (by omega) (le_refl _) (by omega)
    simp only [getRowInfo] at hp
    rw [hp]
    rfl
  · obtain ⟨p, hp, _⟩ := hfree x (y + gridHeightRow cell (getRowHeight dp cell) - 1)
      (le_refl _) (by omega) (by omega) (by omega)
    simp only [getRowInfo] at hp
    unfold gridPixel at hp
    split at hp
    · rename_i hb
      have : (grid_info_map_ dp (getRowHeight dp cell)).row_count
          = dp.layer_row_count_ (grid_info_map_ dp (getRowHeight dp cell)).grid_index := rfl
      omega
    · exact absurd hp (by simp)

/-- The bin at the start is scanned from the start to the right: when a position
of the bin passes `checkPixels`, `binSearch` hits, at a position of the bin that
is not right of it. -/
theorem binSearch_start_bin (dp : Opendp) (cell : Cell) (x0 y0 : Int)
    (hw : 0 < gridPaddedWidth dp cell) (hh : 0 < gridHeightRow cell (getRowHeight dp cell))
    (xf : Int) (h1 : x0 ≤ xf) (h2 : xf < x0 + dp.bin_search_width_)
    (hck : checkPixels dp cell xf y0 (xf + gridPaddedWidth dp cell)
      (y0 + gridHeightRow cell (getRowHeight dp cell)) = true) :
    (binSearch dp x0 cell x0 y0).pixel.isSome
    ∧ (binSearch dp x0 cell x0 y0).pt.y = y0
    ∧ x0 ≤ (binSearch dp x0 cell x0 y0).pt.x
    ∧ (binSearch dp x0 cell x0 y0).pt.x ≤ xf := by
  have hyb := (checkPixels_in_bounds dp cell xf y0 hw hh hck).2
  have htest : binTest dp cell x0 y0 (xf - x0) = true := by
    unfold binTest
    have e1 : x0 + (xf - x0) = xf := by ring
    have e2 : x0 + gridPaddedWidth dp cell + (xf - x0) = xf + gridPaddedWidth dp cell := by ring
    rw [e1, e2]
    exact hck
  have hsome : (binSearch dp x0 cell x0 y0).pixel.isSome = true := by
    cases hn' : (binSearch dp x0 cell x0 y0).pixel.isSome with
    | true => rfl
    | false =>
    exfalso
    rcases binSearch_miss dp x0 cell x0 y0 hyb hn' with hall | ⟨i, _, _, hti, hnone⟩
    · have := hall (xf - x0) (by omega) (by omega)
      rw [htest] at this
      exact absurd this (by simp)
    · unfold binTest at hti
      rw [add_right_comm] at hti
      have := (checkPixels_in_bounds dp cell (x0 + i) y0 hw hh hti).1
      rw [hnone] at this
      exact absurd this (by simp)
  obtain ⟨_, i, hf, hpt, _⟩ := binSearch_hit dp x0 cell x0 y0 hsome
  have hscan : binScan dp x0 x0 = intRange 0 dp.bin_search_width_ := by
    unfold binScan
    rw [if_neg (by omega)]
  rw [hscan] at hf
  have hi := (mem_intRange _ _ _).mp (List.mem_of_find?_eq_some hf)
  have hfirst := find?_first_of_sorted _ _ i (intRange_pairwise _ _) hf (xf - x0)
    ((mem_intRange _ _ _).mpr ⟨by omega, by omega⟩)
  refine ⟨hsome, by rw [hpt], by rw [hpt]; show x0 ≤ x0 + i; omega, ?_⟩
  rw [hpt]
  show x0 + i ≤ xf
  by_contra hlt
  have := hfirst (by omega)
  rw [htest] at this
  exact absurd this (by simp)

theorem diamondSearch_of_start_hit (dp : Opendp) (cell : Cell) (x0 y0 : Int)
    (h : (binSearch dp x0 cell x0 y0).pixel.isSome) :
    diamondSearch dp cell x0 y0 = binSearch dp x0 cell x0 y0 := by
  unfold diamondSearch
  simp only [h, if_true]

theorem diamondSearch_none_start_miss (dp : Opendp) (cell : Cell) (x0 y0 : Int)
    (h : (diamondSearch dp cell x0 y0).pixel.isSome = false) :
    (binSearch dp x0 cell x0 y0).pixel.isSome = false := by
  cases hs : (binSearch dp x0 cell x0 y0).pixel.isSome with
  | false => rfl
  | true =>
    rw [diamondSearch_of_start_hit dp cell x0 y0 hs, hs] at h
    exact absurd h (by simp)

/-- C5: for every cell (with a footprint of at least one site and one row) and grid
point (x0, y0) such that
`checkPixels(cell, x0, y0, x0 + gridPaddedWidth(cell), y0 + gridHeight(cell))` is
true, `diamondSearch(cell, x0, y0)` returns exactly (x0, y0), with the pixel at
(x0, y0). -/
theorem diamondSearch_feasible_start (dp : Opendp) (cell : Cell) (x0 y0 : Int)
    (hbw : 0 < dp.bin_search_width_)
    (hw : 0 < gridPaddedWidth dp cell) (hh : 0 < gridHeightRow cell (getRowHeight dp cell))
    (hck : checkPixels dp cell x0 y0 (x0 + gridPaddedWidth dp cell)
      (y0 + gridHeightRow cell (getRowHeight dp cell)) = true) :
    (diamondSearch dp cell x0 y0).pixel.isSome
    ∧ (diamondSearch dp cell x0 y0).pt = ⟨x0, y0⟩
    ∧ (diamondSearch dp cell x0 y0).pixel
        = gridPixel dp (getRowInfo dp cell).2.grid_index x0 y0 := by
  obtain ⟨hs, hy, hx1, hx2⟩ :=
    binSearch_start_bin dp cell x0 y0 hw hh x0 (le_refl _) (by omega) hck
  rw [diamondSearch_of_start_hit dp cell x0 y0 hs]
  have hpt : (binSearch dp x0 cell x0 y0).pt = ⟨x0, y0⟩ := by
    have hx : (binSearch dp x0 cell x0 y0).pt.x = x0 := le_antisymm hx2 hx1
    cases hb : (binSearch dp x0 cell x0 y0).pt with
    | mk a b =>
      rw [hb] at hx hy
      simp only at hx hy
      rw [hx, hy]
  refine ⟨hs, hpt, ?_⟩
  obtain ⟨_, i, _, hpt', hpix⟩ := binSearch_hit dp x0 cell x0 y0 hs
  rw [hpix]
  rw [hpt'] at hpt
  have hi : x0 + i = x0 := congrArg Point.x hpt
  rw [hi]
  rfl

/-- A run of C5: in `rowWithBlock 2 4 8 8` the footprint of cell 0 at (0, 0) is free,
and the search from (0, 0) returns (0, 0). -/
theorem diamondSearch_feasible_start_witness :
    (0 < (rowWithBlock 2 4 8 8).bin_search_width_
      ∧ 0 < gridPaddedWidth (rowWithBlock 2 4 8 8) ((rowWithBlock 2 4 8 8).cell 0)
      ∧ 0 < gridHeightRow ((rowWithBlock 2 4 8 8).cell 0)
          (getRowHeight (rowWithBlock 2 4 8 8) ((rowWithBlock 2 4 8 8).cell 0))
      ∧ checkPixels (rowWithBlock 2 4 8 8) ((rowWithBlock 2 4 8 8).cell 0) 0 0
          (0 + gridPaddedWidth (rowWithBlock 2 4 8 8) ((rowWithBlock 2 4 8 8).cell 0))
          (0 + gridHeightRow ((rowWithBlock 2 4 8 8).cell 0)
            (getRowHeight (rowWithBlock 2 4 8 8) ((rowWithBlock 2 4 8 8).cell 0))) = true)
    ∧ (diamondSearch (rowWithBlock 2 4 8 8) ((rowWithBlock 2 4 8 8).cell 0) 0 0).pt = ⟨0, 0⟩ :=
  ⟨⟨by decide, by decide, by decide, by decide⟩,
   (diamondSearch_feasible_start (rowWithBlock 2 4 8 8) ((rowWithBlock 2 4 8 8).cell 0) 0 0
      (by decide) (by decide) (by decide) (by decide)).2.1⟩

/-- C6, as stated, fails.  In `rowWithBlock 2 4 8 8` the search from (2, 0) returns
(4, 0) at distance 400, although (1, 0) lies inside the window, passes
`checkPixels` and is at distance 200.  In `rowWithBlock 1 6 1 1` the search from
(1, 0) returns nothing, although (0, 0) lies inside the window and passes
`checkPixels`. -/
theorem diamondSearch_not_nearest_in_window :
    ((diamondSearch (rowWithBlock 2 4 8 8) ((rowWithBlock 2 4 8 8).cell 0) 2 0).pixel.isSome = true
      ∧ (diamondSearch (rowWithBlock 2 4 8 8) ((rowWithBlock 2 4 8 8).cell 0) 2 0).pt = ⟨4, 0⟩
      ∧ (diamondLimits (rowWithBlock 2 4 8 8) ((rowWithBlock 2 4 8 8).cell 0) 2 0).x_min ≤ 1
      ∧ 1 ≤ (diamondLimits (rowWithBlock 2 4 8 8) ((rowWithBlock 2 4 8 8).cell 0) 2 0).x_max
      ∧ (diamondLimits (rowWithBlock 2 4 8 8) ((rowWithBlock 2 4 8 8).cell 0) 2 0).y_min ≤ 0
      ∧ 0 ≤ (diamondLimits (rowWithBlock 2 4 8 8) ((rowWithBlock 2 4 8 8).cell 0) 2 0).y_max
      ∧ checkPixels (rowWithBlock 2 4 8 8) ((rowWithBlock 2 4 8 8).cell 0) 1 0
          (1 + gridPaddedWidth (rowWithBlock 2 4 8 8) ((rowWithBlock 2 4 8 8).cell 0))
          (0 + gridHeightRow ((rowWithBlock 2 4 8 8).cell 0)
            (getRowHeight (rowWithBlock 2 4 8 8) ((rowWithBlock 2 4 8 8).cell 0))) = true
      ∧ searchDist (rowWithBlock 2 4 8 8) ((rowWithBlock 2 4 8 8).cell 0) 2 0 ⟨1, 0⟩
          < searchDist (rowWithBlock 2 4 8 8) ((rowWithBlock 2 4 8 8).cell 0) 2 0
              (diamondSearch (rowWithBlock 2 4 8 8) ((rowWithBlock 2 4 8 8).cell 0) 2 0).pt)
    ∧ ((diamondSearch (rowWithBlock 1 6 1 1) ((rowWithBlock 1 6 1 1).cell 0) 1 0).pixel.isSome
          = false
      ∧ (diamondLimits (rowWithBlock 1 6 1 1) ((rowWithBlock 1 6 1 1).cell 0) 1 0).x_min ≤ 0
      ∧ 0 ≤ (diamondLimits (rowWithBlock 1 6 1 1) ((rowWithBlock 1 6 1 1).cell 0) 1 0).x_max
      ∧ (diamondLimits (rowWithBlock 1 6 1 1) ((rowWithBlock 1 6 1 1).cell 0) 1 0).y_min ≤ 0
      ∧ 0 ≤ (diamondLimits (rowWithBlock 1 6 1 1) ((rowWithBlock 1 6 1 1).cell 0) 1 0).y_max
      ∧ checkPixels (rowWithBlock 1 6 1 1) ((rowWithBlock 1 6 1 1).cell 0) 0 0
          (0 + gridPaddedWidth (rowWithBlock 1 6 1 1) ((rowWithBlock 1 6 1 1).cell 0))
          (0 + gridHeightRow ((rowWithBlock 1 6 1 1).cell 0)
            (getRowHeight (rowWithBlock 1 6 1 1) ((rowWithBlock 1 6 1 1).cell 0))) = true) := by
  decide

/-- C6, amended: `diamondSearch` is nearest within the bin at the start only.  For a
cell with a footprint of at least one site and one row: if the search returns
(gx, gy), no position of the bin at the start (row y0, columns x0 to
x0 + bin_search_width - 1) at which `checkPixels` holds is strictly nearer to
(x0, y0) than (gx, gy); if the search returns nothing, `checkPixels` holds at no
position of that bin. -/
theorem diamondSearch_nearest_in_start_bin (dp : Opendp) (cell : Cell) (x0 y0 : Int)
    (hw : 0 < gridPaddedWidth dp cell) (hh : 0 < gridHeightRow cell (getRowHeight dp cell))
    (hsw : 0 ≤ getSiteWidth dp cell) :
    ((diamondSearch dp cell x0 y0).pixel.isSome →
      ∀ xf, x0 ≤ xf → xf < x0 + dp.bin_search_width_ →
        checkPixels dp cell xf y0 (xf + gridPaddedWidth dp cell)
          (y0 + gridHeightRow cell (getRowHeight dp cell)) = true →
        ¬ (searchDist dp cell x0 y0 ⟨xf, y0⟩
            < searchDist dp cell x0 y0 (diamondSearch dp cell x0 y0).pt))
    ∧ ((diamondSearch dp cell x0 y0).pixel.isSome = false →
      ∀ xf, x0 ≤ xf → xf < x0 + dp.bin_search_width_ →
        checkPixels dp cell xf y0 (xf + gridPaddedWidth dp cell)
          (y0 + gridHeightRow cell (getRowHeight dp cell)) = false) := by
  constructor
  · intro _ xf h1 h2 hck
    obtain ⟨hs, hy, hx1, hx2⟩ := binSearch_start_bin dp cell x0 y0 hw hh xf h1 h2 hck
    rw [diamondSearch_of_start_hit dp cell x0 y0 hs]
    unfold searchDist
    simp only [hy, sub_self]
    have e1 : iabs (x0 - xf) = xf - x0 := by unfold iabs; split <;> omega
    have e2 : iabs (x0 - (binSearch dp x0 cell x0 y0).pt.x)
        = (binSearch dp x0 cell x0 y0).pt.x - x0 := by unfold iabs; split <;> omega
    rw [e1, e2]
    have : ((binSearch dp x0 cell x0 y0).pt.x - x0) * getSiteWidth dp cell
        ≤ (xf - x0) * getSiteWidth dp cell :=
      mul_le_mul_of_nonneg_right (by omega) hsw
    omega
  · intro hnone xf h1 h2
    cases hck : checkPixels dp cell xf y0 (xf + gridPaddedWidth dp cell)
        (y0 + gridHeightRow cell (getRowHeight dp cell)) with
    | false => rfl
    | true =>
      have hs := (binSearch_start_bin dp cell x0 y0 hw hh xf h1 h2 hck).1
      rw [diamondSearch_none_start_miss dp cell x0 y0 hnone] at hs
      exact absurd hs (by simp)

/-- A run of C6 as amended: in `rowWithBlock 2 4 8 8` the position (5, 0) of the
bin at the start (2, 0) is not nearer than the point the search returns. -/
theorem diamondSearch_nearest_in_start_bin_witness :
    (0 < gridPaddedWidth (rowWithBlock 2 4 8 8) ((rowWithBlock 2 4 8 8).cell 0)
      ∧ 0 < gridHeightRow ((rowWithBlock 2 4 8 8).cell 0)
          (getRowHeight (rowWithBlock 2 4 8 8) ((rowWithBlock 2 4 8 8).cell 0))
      ∧ 0 ≤ getSiteWidth (rowWithBlock 2 4 8 8) ((rowWithBlock 2 4 8 8).cell 0))
    ∧ ¬ (searchDist (rowWithBlock 2 4 8 8) ((rowWithBlock 2 4 8 8).cell 0) 2 0 ⟨5, 0⟩
          < searchDist (rowWithBlock 2 4 8 8) ((rowWithBlock 2 4 8 8).cell 0) 2 0
              (diamondSearch (rowWithBlock 2 4 8 8) ((rowWithBlock 2 4 8 8).cell 0) 2 0).pt) :=
  ⟨⟨by decide, by decide, by decide⟩,
   (diamondSearch_nearest_in_start_bin (rowWithBlock 2 4 8 8) ((rowWithBlock 2 4 8 8).cell 0) 2 0
      (by decide) (by decide) (by decide)).1 (by decide) 5 (by decide) (by decide) (by decide)⟩

/-- C7, as stated, fails: in `rowWithBlock 0 3 1 1` (max_displacement_x = 1) the
search from (0, 0) returns (3, 0), three sites right of the start. -/
theorem diamondSearch_leaves_window :
    (diamondSearch (rowWithBlock 0 3 1 1) ((rowWithBlock 0 3 1 1).cell 0) 0 0).pixel.isSome = true
    ∧ (diamondSearch (rowWithBlock 0 3 1 1) ((rowWithBlock 0 3 1 1).cell 0) 0 0).pt = ⟨3, 0⟩
    ∧ (rowWithBlock 0 3 1 1).max_displacement_x_ = 1
    ∧ ¬ ((diamondSearch (rowWithBlock 0 3 1 1) ((rowWithBlock 0 3 1 1).cell 0) 0 0).pt.x
          ≤ 0 + (rowWithBlock 0 3 1 1).max_displacement_x_) := by
  decide

theorem binSearch_hit_range (dp : Opendp) (x : Int) (cell : Cell) (bin_x bin_y : Int)
    (h : (binSearch dp x cell bin_x bin_y).pixel.isSome) :
    bin_x ≤ (binSearch dp x cell bin_x bin_y).pt.x
    ∧ (binSearch dp x cell bin_x bin_y).pt.x ≤ bin_x + dp.bin_search_width_ - 1
    ∧ (binSearch dp x cell bin_x bin_y).pt.y = bin_y := by
  obtain ⟨_, i, hf, hpt, _⟩ := binSearch_hit dp x cell bin_x bin_y h
  have hi := (mem_binScan dp x bin_x i).mp (List.mem_of_find?_eq_some hf)
  rw [hpt]
  refine ⟨?_, ?_, rfl⟩
  · show bin_x ≤ bin_x + i
    omega
  · show bin_x + i ≤ bin_x + dp.bin_search_width_ - 1
    omega

/-- C7, amended: for a start (x0, y0) with x0 <= site_count and y0 <= row_count that
lies inside the grid boundary of the group when the cell has one, and for
non-negative Dx = max_displacement_x and Dy' = scaled max_displacement_y, every
point (gx, gy) returned by `diamondSearch(cell, x0, y0)` satisfies
x0 - Dx <= gx <= x0 + Dx + bin_search_width - 1 and y0 - Dy' <= gy <= y0 + Dy':
the scan of a bin may pass the right end of the window by up to
bin_search_width - 1 sites. -/
theorem diamondSearch_within_window_and_bin (dp : Opendp) (cell : Cell) (x0 y0 : Int)
    (hDx : 0 ≤ dp.max_displacement_x_) (hDy : 0 ≤ scaledMaxDisplacementY dp cell)
    (hx0 : x0 ≤ (getRowInfo dp cell).2.site_count)
    (hy0 : y0 ≤ (getRowInfo dp cell).2.row_count)
    (hgrp : ∀ g, cell.group_ = some g →
      (groupGridBoundary dp g (getSiteWidth dp cell) (getRowInfo dp cell).1).xMin ≤ x0
      ∧ x0 ≤ (groupGridBoundary dp g (getSiteWidth dp cell) (getRowInfo dp cell).1).xMax
      ∧ (groupGridBoundary dp g (getSiteWidth dp cell) (getRowInfo dp cell).1).yMin ≤ y0
      ∧ y0 ≤ (groupGridBoundary dp g (getSiteWidth dp cell) (getRowInfo dp cell).1).yMax)
    (hfound : (diamondSearch dp cell x0 y0).pixel.isSome) :
    x0 - dp.max_displacement_x_ ≤ (diamondSearch dp cell x0 y0).pt.x
    ∧ (diamondSearch dp cell x0 y0).pt.x
        ≤ x0 + dp.max_displacement_x_ + dp.bin_search_width_ - 1
    ∧ y0 - scaledMaxDisplacementY dp cell ≤ (diamondSearch dp cell x0 y0).pt.y
    ∧ (diamondSearch dp cell x0 y0).pt.y ≤ y0 + scaledMaxDisplacementY dp cell := by
  refine diamondSearch_keeps
    (fun r => x0 - dp.max_displacement_x_ ≤ r.pt.x
      ∧ r.pt.x ≤ x0 + dp.max_displacement_x_ + dp.bin_search_width_ - 1
      ∧ y0 - scaledMaxDisplacementY dp cell ≤ r.pt.y
      ∧ r.pt.y ≤ y0 + scaledMaxDisplacementY dp cell) dp cell x0 y0 ?_ ?_ hfound
  · intro hs
    obtain ⟨h1, h2, h3⟩ := binSearch_hit_range dp x0 cell x0 y0 hs
    omega
  · intro xo yo hs
    obtain ⟨h1, h2, h3⟩ := binSearch_hit_range dp x0 cell _ _ hs
    rw [h3]
    revert h1 h2
    generalize (binSearch dp x0 cell (sideBin dp x0 y0 (diamondLimits dp cell x0 y0) xo yo).x
      (sideBin dp x0 y0 (diamondLimits dp cell x0 y0) xo yo).y).pt.x = gx
    simp only [sideBin, diamondLimits]
    cases hg : cell.group_ with
    | none =>
      simp only []
      intro h1 h2
      omega
    | some g =>
      obtain ⟨b1, b2, b3, b4⟩ := hgrp g hg
      simp only [Rect.closestPtInside]
      intro h1 h2
      omega

/-- A run of C7 as amended: in `rowWithBlock 0 3 1 1` the point returned from (0, 0)
lies at most max_displacement_x + bin_search_width - 1 = 5 sites right of the
start. -/
theorem diamondSearch_within_window_and_bin_witness :
    (0 ≤ (rowWithBlock 0 3 1 1).max_displacement_x_
      ∧ 0 ≤ scaledMaxDisplacementY (rowWithBlock 0 3 1 1) ((rowWithBlock 0 3 1 1).cell 0)
      ∧ (0 : Int) ≤ (getRowInfo (rowWithBlock 0 3 1 1) ((rowWithBlock 0 3 1 1).cell 0)).2.site_count
      ∧ (0 : Int) ≤ (getRowInfo (rowWithBlock 0 3 1 1) ((rowWithBlock 0 3 1 1).cell 0)).2.row_count
      ∧ ((rowWithBlock 0 3 1 1).cell 0).group_ = none
      ∧ (diamondSearch (rowWithBlock 0 3 1 1) ((rowWithBlock 0 3 1 1).cell 0) 0 0).pixel.isSome
          = true)
    ∧ (diamondSearch (rowWithBlock 0 3 1 1) ((rowWithBlock 0 3 1 1).cell 0) 0 0).pt.x
        ≤ 0 + (rowWithBlock 0 3 1 1).max_displacement_x_
            + (rowWithBlock 0 3 1 1).bin_search_width_ - 1 :=
  ⟨⟨by decide, by decide, by decide, by decide, by decide, by decide⟩,
   (diamondSearch_within_window_and_bin (rowWithBlock 0 3 1 1) ((rowWithBlock 0 3 1 1).cell 0)
      0 0 (by decide) (by decide) (by decide) (by decide)
      (fun g hg => absurd
        ((by decide : ((rowWithBlock 0 3 1 1).cell 0).group_ = none).symm.trans hg) (by simp))
      (by decide)).2.1⟩


/-! ## Swap of cells with equal padding -/

/-- A fixed cell and a cell that is not placed are not erased. -/
theorem erasePixel_skip (dp : Opendp) (c : Nat)
    (h : (isFixed (dp.cell c) || !(dp.cell c).is_placed_) = true) : erasePixel dp c = dp := by
  unfold erasePixel
  dsimp only
  rw [if_pos h]

/-- The erased cell: a placed cell that is not fixed loses `placed` and `hold`. -/
theorem erasePixel_cell_erased (dp : Opendp) (c : Nat) (hc : c < dp.cells_.length)
    (hfix : isFixed (dp.cell c) = false) (hpl : (dp.cell c).is_placed_ = true) :
    (erasePixel dp c).cell c = { dp.cell c with is_placed_ := false, hold_ := false } := by
  have h : ¬ ((isFixed (dp.cell c) || !(dp.cell c).is_placed_) = true) := by
    rw [hfix, hpl]
    decide
  unfold erasePixel
  dsimp only
  rw [if_neg h]
  unfold Opendp.cell
  exact getD_set_self _ _ _ hc

/-- A cell that is neither fixed nor pinned is, after its erase, the cell it was but
for `placed`. -/
theorem erasePixel_cell_self (dp : Opendp) (c : Nat) (hc : c < dp.cells_.length)
    (hfix : isFixed (dp.cell c) = false) (hhold : (dp.cell c).hold_ = false) :
    (erasePixel dp c).cell c = { dp.cell c with is_placed_ := false } := by
  by_cases hpl : (dp.cell c).is_placed_ = true
  · rw [erasePixel_cell_erased dp c hc hfix hpl]
    generalize dp.cell c = cell at hhold
    cases cell
    simp only at hhold
    subst hhold
    rfl
  · have hpl' : (dp.cell c).is_placed_ = false := by simpa using hpl
    rw [erasePixel_skip dp c (by rw [hpl']; simp)]
    generalize dp.cell c = cell at hpl'
    cases cell
    simp only at hpl'
    subst hpl'
    rfl

theorem erasePixel_cell_other (dp : Opendp) (c k : Nat) (h : k ≠ c) :
    (erasePixel dp c).cell k = dp.cell k := by
  unfold erasePixel
  dsimp only
  split_ifs
  · rfl
  · unfold Opendp.cell
    exact getD_set_other _ _ _ _ h

theorem erasePixel_length (dp : Opendp) (c : Nat) :
    (erasePixel dp c).cells_.length = dp.cells_.length := by
  unfold erasePixel
  dsimp only
  split_ifs <;> simp

@[simp] theorem erasePixel_core (dp : Opendp) (c : Nat) : (erasePixel dp c).core_ = dp.core_ := by
  unfold erasePixel
  dsimp only
  split_ifs <;> rfl

@[simp] theorem erasePixel_site_width (dp : Opendp) (c : Nat) :
    (erasePixel dp c).site_width_ = dp.site_width_ := by
  unfold erasePixel
  dsimp only
  split_ifs <;> rfl

@[simp] theorem erasePixel_row_height (dp : Opendp) (c : Nat) :
    (erasePixel dp c).row_height_ = dp.row_height_ := by
  unfold erasePixel
  dsimp only
  split_ifs <;> rfl

@[simp] theorem erasePixel_pad_left (dp : Opendp) (c : Nat) :
    (erasePixel dp c).pad_left_ = dp.pad_left_ := by
  unfold erasePixel
  dsimp only
  split_ifs <;> rfl

@[simp] theorem erasePixel_pad_right (dp : Opendp) (c : Nat) :
    (erasePixel dp c).pad_right_ = dp.pad_right_ := by
  unfold erasePixel
  dsimp only
  split_ifs <;> rfl

/-- The cells after an erase depend on the cells before it only. -/
theorem erasePixel_cells (dp dp' : Opendp) (c : Nat) (h : dp.cells_ = dp'.cells_) :
    (erasePixel dp c).cells_ = (erasePixel dp' c).cells_ := by
  have hc : dp.cell c = dp'.cell c := by unfold Opendp.cell; rw [h]
  unfold erasePixel
  dsimp only
  rw [hc]
  split_ifs
  · exact h
  · rw [h]

/-- An erase changes the cells and the grid only. -/
theorem erasePixel_frame (dp : Opendp) (c : Nat) :
    (erasePixel dp c).core_ = dp.core_
      ∧ (erasePixel dp c).site_width_ = dp.site_width_
      ∧ (erasePixel dp c).row_height_ = dp.row_height_
      ∧ (erasePixel dp c).pad_left_ = dp.pad_left_
      ∧ (erasePixel dp c).pad_right_ = dp.pad_right_
      ∧ (erasePixel dp c).groups_ = dp.groups_
      ∧ (erasePixel dp c).placement_failures_ = dp.placement_failures_ := by
  unfold erasePixel
  dsimp only
  split_ifs <;> exact ⟨rfl, rfl, rfl, rfl, rfl, rfl, rfl⟩

theorem paintPixel_length (dp : Opendp) (c : Nat) (gx gy : Int) :
    (paintPixel dp c gx gy).cells_.length = dp.cells_.length := by
  unfold paintPixel
  simp

/-- The cells after an accepted swap: each of the two cells is repainted at the
padded grid position of the other, every other cell is untouched. -/
theorem swapCells_cells (dp : Opendp) (c1 c2 : Nat) (h12 : c1 ≠ c2)
    (h1 : c1 < dp.cells_.length) (h2 : c2 < dp.cells_.length)
    (hacc : (swapCells dp c1 c2).1 = true) :
    (swapCells dp c1 c2).2.cell c1
        = { setGridPaddedLoc dp (dp.cell c1) (gridPaddedX dp (dp.cell c2))
              (gridYCell dp (dp.cell c2)) with is_placed_ := true }
    ∧ (swapCells dp c1 c2).2.cell c2
        = { setGridPaddedLoc dp (dp.cell c2) (gridPaddedX dp (dp.cell c1))
              (gridYCell dp (dp.cell c1)) with is_placed_ := true }
    ∧ ∀ k, k ≠ c1 → k ≠ c2 → (swapCells dp c1 c2).2.cell k = dp.cell k := by
  have hs := swapCells_accepted_state dp c1 c2 hacc
  obtain ⟨-, hh1, hh2, hf1, hf2, -⟩ := (swapCells_guard_and_sign dp c1 c2).mp hacc
  have hh2' : ((erasePixel dp c1).cell c2).hold_ = false := by
    rw [erasePixel_cell_other _ _ _ (Ne.symm h12)]; exact hh2
  have hf2' : isFixed ((erasePixel dp c1).cell c2) = false := by
    rw [erasePixel_cell_other _ _ _ (Ne.symm h12)]; exact hf2
  rw [hs]
  have l1 : c1 < (erasePixel (erasePixel dp c1) c2).cells_.length := by
    rw [erasePixel_length, erasePixel_length]; exact h1
  have l2 : c2 < (paintPixel (erasePixel (erasePixel dp c1) c2) c1
      (gridPaddedX dp (dp.cell c2)) (gridYCell dp (dp.cell c2))).cells_.length := by
    rw [paintPixel_length, erasePixel_length, erasePixel_length]; exact h2
  have l3 : c2 < (erasePixel dp c1).cells_.length := by
    rw [erasePixel_length]; exact h2
  refine ⟨?_, ?_, ?_⟩
  · rw [paintPixel_cell_other _ _ _ _ _ h12, paintPixel_cell_self _ _ _ _ l1,
      erasePixel_cell_other _ _ _ h12, erasePixel_cell_self _ _ h1 hf1 hh1]
    simp only [setGridPaddedLoc, isPadded, isPaddedType, erasePixel_site_width,
      erasePixel_row_height, erasePixel_pad_left, erasePixel_pad_right]
  · rw [paintPixel_cell_self _ _ _ _ l2, paintPixel_cell_other _ _ _ _ _ (Ne.symm h12),
      erasePixel_cell_self _ _ l3 hf2' hh2', erasePixel_cell_other _ _ _ (Ne.symm h12)]
    simp only [setGridPaddedLoc, isPadded, isPaddedType, paintPixel, erasePixel_site_width,
      erasePixel_row_height, erasePixel_pad_left, erasePixel_pad_right]
  · intro k hk1 hk2
    rw [paintPixel_cell_other _ _ _ _ _ hk2, paintPixel_cell_other _ _ _ _ _ hk1,
      erasePixel_cell_other _ _ _ hk2, erasePixel_cell_other _ _ _ hk1]

theorem gridPaddedX_of_onGrid (dp : Opendp) (cell : Cell) (gx gy : Int)
    (hsw : dp.site_width_ ≠ 0) (hx : cell.x_ = (setGridPaddedLoc dp cell gx gy).x_) :
    gridPaddedX dp cell = gx := by
  unfold gridPaddedX gridX cdiv
  unfold setGridPaddedLoc at hx
  simp only at hx
  rw [hx]
  by_cases hpad : isPadded dp cell = true
  · simp only [hpad, if_true]
    have : (gx + dp.pad_left_) * dp.site_width_ - dp.pad_left_ * dp.site_width_
        = gx * dp.site_width_ := by ring
    rw [this]
    exact Int.mul_tdiv_cancel gx hsw
  · simp only [hpad, Bool.false_eq_true, if_false, add_zero]
    exact Int.mul_tdiv_cancel gx hsw

theorem gridYCell_of_onGrid (dp : Opendp) (cell : Cell) (gx gy : Int)
    (hrh : dp.row_height_ ≠ 0) (hy : cell.y_ = (setGridPaddedLoc dp cell gx gy).y_) :
    gridYCell dp cell = gy := by
  unfold gridYCell gridY cdiv
  unfold setGridPaddedLoc at hy
  simp only at hy
  rw [hy]
  exact Int.mul_tdiv_cancel gy hrh

/-- Where the swap does what C2 and C3 say: for two cells on the grid with the same
padding status, an accepted swap exchanges the two locations, leaves every other
cell alone, lowers the sum of the two displacements by the computed
`dist_change`, and a second swap right after it is rejected. -/
theorem swapCells_equal_padding (dp : Opendp) (c1 c2 : Nat)
    (h1 : c1 < dp.cells_.length) (h2 : c2 < dp.cells_.length)
    (hsw : dp.site_width_ ≠ 0) (hrh : dp.row_height_ ≠ 0)
    (hg1 : OnGrid dp (dp.cell c1)) (hg2 : OnGrid dp (dp.cell c2))
    (hpad : isPadded dp (dp.cell c1) = isPadded dp (dp.cell c2))
    (hacc : (swapCells dp c1 c2).1 = true) :
    ((swapCells dp c1 c2).2.cell c1).x_ = (dp.cell c2).x_
    ∧ ((swapCells dp c1 c2).2.cell c1).y_ = (dp.cell c2).y_
    ∧ ((swapCells dp c1 c2).2.cell c2).x_ = (dp.cell c1).x_
    ∧ ((swapCells dp c1 c2).2.cell c2).y_ = (dp.cell c1).y_
    ∧ (∀ k, k ≠ c1 → k ≠ c2 → (swapCells dp c1 c2).2.cell k = dp.cell k)
    ∧ disp (swapCells dp c1 c2).2 ((swapCells dp c1 c2).2.cell c1)
        + disp (swapCells dp c1 c2).2 ((swapCells dp c1 c2).2.cell c2)
        < disp dp (dp.cell c1) + disp dp (dp.cell c2)
    ∧ (swapCells (swapCells dp c1 c2).2 c1 c2).1 = false
    ∧ (swapCells (swapCells dp c1 c2).2 c1 c2).2 = (swapCells dp c1 c2).2 := by
  have hiff := (swapCells_guard_and_sign dp c1 c2).mp hacc
  obtain ⟨h12, hh1, hh2, hf1, hf2, hwd, hht, hd⟩ := hiff
  obtain ⟨e1, e2, e3⟩ := swapCells_cells dp c1 c2 h12 h1 h2 hacc
  obtain ⟨g1x, g1y, hx1, hy1⟩ := hg1
  obtain ⟨g2x, g2y, hx2, hy2⟩ := hg2
  have px1 := gridPaddedX_of_onGrid dp (dp.cell c1) g1x g1y hsw hx1
  have px2 := gridPaddedX_of_onGrid dp (dp.cell c2) g2x g2y hsw hx2
  have py1 := gridYCell_of_onGrid dp (dp.cell c1) g1x g1y hrh hy1
  have py2 := gridYCell_of_onGrid dp (dp.cell c2) g2x g2y hrh hy2
  rw [px2, py2] at e1
  rw [px1, py1] at e2
  have x1 : ((swapCells dp c1 c2).2.cell c1).x_ = (dp.cell c2).x_ := by
    rw [e1, hx2]
    simp only [setGridPaddedLoc, hpad]
  have y1 : ((swapCells dp c1 c2).2.cell c1).y_ = (dp.cell c2).y_ := by
    rw [e1, hy2]
    simp only [setGridPaddedLoc]
  have x2 : ((swapCells dp c1 c2).2.cell c2).x_ = (dp.cell c1).x_ := by
    rw [e2, hx1]
    simp only [setGridPaddedLoc, hpad]
  have y2 : ((swapCells dp c1 c2).2.cell c2).y_ = (dp.cell c1).y_ := by
    rw [e2, hy1]
    simp only [setGridPaddedLoc]
  have i1 : initialLocation (swapCells dp c1 c2).2 ((swapCells dp c1 c2).2.cell c1)
      = initialLocation dp (dp.cell c1) := by
    rw [e1]
    have hcore : (swapCells dp c1 c2).2.core_ = dp.core_ := by
      rw [swapCells_accepted_state dp c1 c2 hacc]
      exact (erasePixel_core _ _).trans (erasePixel_core _ _)
    simp only [initialLocation, setGridPaddedLoc, hcore]
  have i2 : initialLocation (swapCells dp c1 c2).2 ((swapCells dp c1 c2).2.cell c2)
      = initialLocation dp (dp.cell c2) := by
    rw [e2]
    have hcore : (swapCells dp c1 c2).2.core_ = dp.core_ := by
      rw [swapCells_accepted_state dp c1 c2 hacc]
      exact (erasePixel_core _ _).trans (erasePixel_core _ _)
    simp only [initialLocation, setGridPaddedLoc, hcore]
  have hdisp : disp (swapCells dp c1 c2).2 ((swapCells dp c1 c2).2.cell c1)
        + disp (swapCells dp c1 c2).2 ((swapCells dp c1 c2).2.cell c2)
      = disp dp (dp.cell c1) + disp dp (dp.cell c2)
        + (distChange dp (dp.cell c1) (dp.cell c2).x_ (dp.cell c2).y_
          + distChange dp (dp.cell c2) (dp.cell c1).x_ (dp.cell c1).y_) := by
    simp only [disp, distChange, initialLocationP, i1, i2, x1, y1, x2, y2, if_false,
      Bool.false_eq_true]
    have a1 : ∀ a b : Int, iabs (a - b) = iabs (b - a) := by
      intro a b
      unfold iabs
      split <;> split <;> omega
    rw [a1 (dp.cell c1).x_ _, a1 (dp.cell c1).y_ _, a1 (dp.cell c2).x_ _, a1 (dp.cell c2).y_ _]
    ring
  have hrej : (swapCells (swapCells dp c1 c2).2 c1 c2).1 = false := by
    cases hr : (swapCells (swapCells dp c1 c2).2 c1 c2).1 with
    | false => rfl
    | true =>
      exfalso
      have hd2 := ((swapCells_guard_and_sign (swapCells dp c1 c2).2 c1 c2).mp hr).2.2.2.2.2.2.2
      simp only [distChange, initialLocationP, i1, i2, x1, y1, x2, y2, if_false,
        Bool.false_eq_true] at hd2
      simp only [distChange, initialLocationP, if_false, Bool.false_eq_true] at hd
      have a1 : ∀ a b : Int, iabs (a - b) = iabs (b - a) := by
        intro a b
        unfold iabs
        split <;> split <;> omega
      rw [a1 (dp.cell c1).x_ _, a1 (dp.cell c1).y_ _, a1 (dp.cell c2).x_ _,
        a1 (dp.cell c2).y_ _] at hd hd2
      omega
  refine ⟨x1, y1, x2, y2, e3, by rw [hdisp]; omega, hrej, ?_⟩
  exact swapCells_rejected_unchanged _ c1 c2 hrej


/-- A run of `swapCells_equal_padding`: in `equalPadPlaced` the swap of the two
padded cells is accepted and the second swap is rejected. -/
theorem swapCells_equal_padding_witness :
    (swapCells equalPadPlaced 0 1).1 = true
    ∧ (swapCells (swapCells equalPadPlaced 0 1).2 0 1).1 = false :=
  ⟨by decide,
   (swapCells_equal_padding equalPadPlaced 0 1 (by decide) (by decide) (by decide) (by decide)
      ⟨0, 0, by decide, by decide⟩ ⟨6, 1, by decide, by decide⟩ (by decide)
      (by decide)).2.2.2.2.2.2.1⟩

/-! ## Legal points of aligned cells -/

theorem divRound_clamp_bounds (sw k c : Int) (hsw : 0 < sw) (hc0 : 0 ≤ c) (hcW : c ≤ k * sw) :
    0 ≤ divRound c sw * sw ∧ divRound c sw * sw ≤ k * sw := by
  rw [divRound_of_nonneg c sw hc0 hsw]
  have h2sw : 0 < 2 * sw := by omega
  have hg0 : 0 ≤ (2 * c + sw) / (2 * sw) := Int.ediv_nonneg (by omega) (by omega)
  have hlt : (2 * c + sw) / (2 * sw) < k + 1 := by
    apply Int.ediv_lt_of_lt_mul h2sw
    nlinarith
  constructor
  · exact mul_nonneg hg0 (le_of_lt hsw)
  · exact mul_le_mul_of_nonneg_right (by omega) (le_of_lt hsw)

/-- Where `legalPt` does what C10 says: when the room left of the cell in the core,
site_count * site_width - width, is a whole number of sites and the room above
it a whole number of rows, the returned point keeps the cell inside the core. -/
theorem legalPt_inside_core_of_aligned (dp : Opendp) (cell : Cell) (pt : Point)
    (row_height site_width kx ky : Int)
    (hsw : 0 < legalSiteWidth dp cell site_width)
    (hrh : 0 < legalRowHeight dp cell row_height)
    (hkx : 0 ≤ kx) (hky : 0 ≤ ky)
    (hw : (grid_info_map_ dp (legalRowHeight dp cell row_height)).site_count
            * legalSiteWidth dp cell site_width - cell.width_
          = kx * legalSiteWidth dp cell site_width)
    (hh : (grid_info_map_ dp (legalRowHeight dp cell row_height)).row_count
            * legalRowHeight dp cell row_height - cell.height_
          = ky * legalRowHeight dp cell row_height) :
    0 ≤ (legalPt dp cell pt row_height site_width).x
    ∧ (legalPt dp cell pt row_height site_width).x + cell.width_
        ≤ (grid_info_map_ dp (legalRowHeight dp cell row_height)).site_count
          * legalSiteWidth dp cell site_width
    ∧ 0 ≤ (legalPt dp cell pt row_height site_width).y
    ∧ (legalPt dp cell pt row_height site_width).y + cell.height_
        ≤ (grid_info_map_ dp (legalRowHeight dp cell row_height)).row_count
          * legalRowHeight dp cell row_height := by
  unfold legalPt
  simp only []
  rw [hw, hh]
  have hW : 0 ≤ kx * legalSiteWidth dp cell site_width := mul_nonneg hkx (le_of_lt hsw)
  have hH : 0 ≤ ky * legalRowHeight dp cell row_height := mul_nonneg hky (le_of_lt hrh)
  have hx := divRound_clamp_bounds (legalSiteWidth dp cell site_width) kx
    (min (max 0 pt.x) (kx * legalSiteWidth dp cell site_width)) hsw
    (le_min (le_max_left _ _) hW) (min_le_right _ _)
  have hy := divRound_clamp_bounds (legalRowHeight dp cell row_height) ky
    (min (max 0 pt.y) (ky * legalRowHeight dp cell row_height)) hrh
    (le_min (le_max_left _ _) hH) (min_le_right _ _)
  refine ⟨hx.1, ?_, hy.1, ?_⟩
  · have := hx.2
    omega
  · have := hy.2
    omega


/-- A run of `legalPt_inside_core_of_aligned`: cell 0 of `mixedPadBase` is one site
wide and one row high in a core of 8 sites by 2 rows. -/
theorem legalPt_inside_core_of_aligned_witness :
    (legalPt mixedPadBase (mixedPadBase.cell 0) ⟨1500, 1700⟩ (-1) (-1)).x
        + (mixedPadBase.cell 0).width_
      ≤ (grid_info_map_ mixedPadBase
          (legalRowHeight mixedPadBase (mixedPadBase.cell 0) (-1))).site_count
        * legalSiteWidth mixedPadBase (mixedPadBase.cell 0) (-1) :=
  (legalPt_inside_core_of_aligned mixedPadBase (mixedPadBase.cell 0) ⟨1500, 1700⟩ (-1) (-1) 7 1
    (by decide) (by decide) (by decide) (by decide) (by decide) (by decide)).2.1

/-! ## Legal points: alignment -/

theorem legalSiteWidth_of_pos (dp : Opendp) (cell : Cell) (sw : Int) (h : 0 < sw) :
    legalSiteWidth dp cell sw = sw := by
  unfold legalSiteWidth
  rw [if_neg (by omega)]

theorem legalRowHeight_of_pos (dp : Opendp) (cell : Cell) (rh : Int) (h : 0 < rh) :
    legalRowHeight dp cell rh = rh := by
  unfold legalRowHeight
  rw [if_neg (by omega)]

theorem cdiv_mul_cancel (g s : Int) (h : 0 < s) : cdiv (g * s) s = g := by
  unfold cdiv
  exact Int.mul_tdiv_cancel g (by omega)

/-- C11: with a positive site width and row height, `legalPt(cell, pt)` is
(divRound(cx, site_width) * site_width, divRound(cy, row_height) * row_height)
for the clamped cx and cy; so x is a multiple of the site width and y of the row
height, and `legalGridPt(cell, pt)` is (x / site_width, y / row_height), with
both divisions exact. -/
theorem legalPt_aligned_legalGridPt_exact (dp : Opendp) (cell : Cell) (pt : Point)
    (row_height site_width : Int)
    (hsw : 0 < legalSiteWidth dp cell site_width)
    (hrh : 0 < legalRowHeight dp cell row_height) :
    legalPt dp cell pt row_height site_width
        = ⟨divRound (min (max 0 pt.x)
              ((grid_info_map_ dp (legalRowHeight dp cell row_height)).site_count
                * legalSiteWidth dp cell site_width - cell.width_))
              (legalSiteWidth dp cell site_width) * legalSiteWidth dp cell site_width,
           divRound (min (max 0 pt.y)
              ((grid_info_map_ dp (legalRowHeight dp cell row_height)).row_count
                * legalRowHeight dp cell row_height - cell.height_))
              (legalRowHeight dp cell row_height) * legalRowHeight dp cell row_height⟩
      ∧ legalSiteWidth dp cell site_width ∣ (legalPt dp cell pt row_height site_width).x
      ∧ legalRowHeight dp cell row_height ∣ (legalPt dp cell pt row_height site_width).y
      ∧ legalGridPt dp cell pt row_height site_width
          = ⟨cdiv (legalPt dp cell pt row_height site_width).x (legalSiteWidth dp cell site_width),
             cdiv (legalPt dp cell pt row_height site_width).y
               (legalRowHeight dp cell row_height)⟩
      ∧ (legalGridPt dp cell pt row_height site_width).x * legalSiteWidth dp cell site_width
          = (legalPt dp cell pt row_height site_width).x
      ∧ (legalGridPt dp cell pt row_height site_width).y * legalRowHeight dp cell row_height
          = (legalPt dp cell pt row_height site_width).y := by
  have h1 : legalPt dp cell pt (legalRowHeight dp cell row_height)
      (legalSiteWidth dp cell site_width) = legalPt dp cell pt row_height site_width := by
    unfold legalPt
    rw [legalSiteWidth_of_pos dp cell _ hsw, legalRowHeight_of_pos dp cell _ hrh]
  have h2 : legalGridPt dp cell pt row_height site_width
      = ⟨cdiv (legalPt dp cell pt row_height site_width).x (legalSiteWidth dp cell site_width),
         cdiv (legalPt dp cell pt row_height site_width).y
           (legalRowHeight dp cell row_height)⟩ := by
    unfold legalGridPt
    simp only [h1]
  refine ⟨rfl, ⟨_, (mul_comm _ _)⟩, ⟨_, (mul_comm _ _)⟩, h2, ?_, ?_⟩
  · rw [h2]
    show cdiv (_ * legalSiteWidth dp cell site_width) _ * _ = _ * _
    rw [cdiv_mul_cancel _ _ hsw]
  · rw [h2]
    show cdiv (_ * legalRowHeight dp cell row_height) _ * _ = _ * _
    rw [cdiv_mul_cancel _ _ hrh]

/-- C11 at a point: on `wideCellCore` the point (1950, 400) becomes (1800, 0), grid
point (9, 0). -/
theorem legalPt_aligned_legalGridPt_exact_witness :
    legalPt wideCellCore (wideCellCore.cell 0) ⟨1950, 400⟩ (-1) (-1) = ⟨1800, 0⟩
      ∧ legalGridPt wideCellCore (wideCellCore.cell 0) ⟨1950, 400⟩ (-1) (-1) = ⟨9, 0⟩
      ∧ (legalGridPt wideCellCore (wideCellCore.cell 0) ⟨1950, 400⟩ (-1) (-1)).x
          * legalSiteWidth wideCellCore (wideCellCore.cell 0) (-1)
          = (legalPt wideCellCore (wideCellCore.cell 0) ⟨1950, 400⟩ (-1) (-1)).x :=
  ⟨by decide, by decide,
   (legalPt_aligned_legalGridPt_exact wideCellCore (wideCellCore.cell 0) ⟨1950, 400⟩ (-1) (-1)
      (by decide) (by decide)).2.2.2.2.1⟩

/-! ## Legal point of a cell: the critical message -/

theorem legalPtInit_not_fixed (dp : Opendp) (cell : Cell) (padded : Bool)
    (row_height site_width : Int) (h : isFixed cell = false) :
    ∃ p, legalPtInit dp cell padded row_height site_width = .ok p := by
  unfold legalPtInit
  rw [if_neg (by simp [h])]
  dsimp only
  repeat' split
  all_goals exact ⟨_, rfl⟩

theorem legalPtInit_fixed (dp : Opendp) (cell : Cell) (padded : Bool)
    (row_height site_width : Int) (h : isFixed cell = true) :
    legalPtInit dp cell padded row_height site_width = .error 26 := by
  unfold legalPtInit
  rw [if_pos h]

/-- C14: `legalPt(cell, padded, ...)` raises the critical message 26 (legalPt called
on fixed cell) when the cell is fixed, and returns a point when it is not; so
it fails if and only if the cell is fixed. -/
theorem legalPtInit_fails_iff_fixed (dp : Opendp) (cell : Cell) (padded : Bool)
    (row_height site_width : Int) :
    ((isFixed cell = true ∧ legalPtInit dp cell padded row_height site_width = .error 26)
      ∨ (isFixed cell = false
          ∧ ∃ p, legalPtInit dp cell padded row_height site_width = .ok p))
    ∧ ((∃ id, legalPtInit dp cell padded row_height site_width = .error id)
        ↔ isFixed cell = true) := by
  cases h : isFixed cell with
  | true =>
    refine ⟨Or.inl ⟨rfl, legalPtInit_fixed dp cell padded _ _ h⟩, ?_⟩
    exact ⟨fun _ => rfl, fun _ => ⟨26, legalPtInit_fixed dp cell padded _ _ h⟩⟩
  | false =>
    obtain ⟨p, hp⟩ := legalPtInit_not_fixed dp cell padded row_height site_width h
    refine ⟨Or.inr ⟨rfl, p, hp⟩, ?_⟩
    constructor
    · rintro ⟨id, hid⟩
      rw [hp] at hid
      cases hid
    · intro hf
      cases hf

/-! ## Nearest point outside a rectangle -/

/-- C20 fails on `flatCell` and the rectangle [0, 1000] x [0, 1000]: the initial
footprint at (0, 10) overlaps the rectangle and `nearestPt` returns the push-out
to the left, (-500, 10), at L1 distance 500 from the initial location, while the
push-out down, (0, -10), is at distance 20. -/
theorem nearestPt_not_minimal_push_out :
    checkOverlap {} flatCell ⟨0, 0, 1000, 1000⟩ = true
      ∧ initialLocationP {} flatCell false = ⟨0, 10⟩
      ∧ nearestPt {} flatCell ⟨0, 0, 1000, 1000⟩ = ⟨-500, 10⟩
      ∧ l1Dist ⟨0, 10⟩ (nearestPt {} flatCell ⟨0, 0, 1000, 1000⟩) = 500
      ∧ (⟨0, -10⟩ : Point) ∈ pushOuts flatCell ⟨0, 10⟩ ⟨0, 0, 1000, 1000⟩
      ∧ l1Dist ⟨0, 10⟩ ⟨0, -10⟩ = 20 := by
  decide

/-! ## Refinement of a padded cell -/

/-- C18 fails on `refinePadPlaced`: the padded cell lies at (200, 0), at distance 150
from its initial location (350, 0); `refineMove` returns true and leaves the
cell at (600, 0), at distance 250.  The search returns the padded grid point
(2, 0); `distChange` is asked about (400, 0), the padded origin, at distance 50,
and `paintPixel` puts the cell one site of padding further right. -/
theorem refineMove_padded_raises_disp :
    disp refinePadPlaced (refinePadPlaced.cell 0) = 150
      ∧ (refineMove refinePadPlaced 0).value? = some true
      ∧ (diamondSearch refinePadPlaced (refinePadPlaced.cell 0) 1 0).pt = ⟨2, 0⟩
      ∧ distChange refinePadPlaced (refinePadPlaced.cell 0) (2 * 200) (0 * 1000) = -100
      ∧ ((refineMove refinePadPlaced 0).state.cell 0).x_ = 600
      ∧ disp (refineMove refinePadPlaced 0).state ((refineMove refinePadPlaced 0).state.cell 0)
          = 250 := by
  decide

/-! ## Brick placement -/

/-- C12 fails on `fixedInGroup`: the fixed cell 0 is painted at its initial location
(1200, 0) on site 6; `placeGroups2` returns without a fatal message and leaves
cell 0 at (1400, 0), on site 7.  The bulk pass fails on cell 1, whose window
holds no valid site, and `brickPlace1` calls `mapMove` on every cell of the
group, the fixed one included; called on the state as it is, without the erase
loop before it, `brickPlace1` moves cell 0 to (1400, 0) as well. -/
theorem placeGroups2_moves_fixed_cell :
    isFixed (fixedInGroup.cell 0) = true
      ∧ (fixedInGroup.cell 0).is_placed_ = true
      ∧ (fixedInGroup.cell 0).x_ = (initialLocation fixedInGroup (fixedInGroup.cell 0)).x
      ∧ (fixedInGroup.cell 0).x_ = 1200
      ∧ (gridPixel fixedInGroup 0 6 0).bind (fun p => p.cell) = some 0
      ∧ (mapMoveInit fixedInGroup 1).value? = some false
      ∧ (placeGroups2 fixedInGroup).fatalId = none
      ∧ ((placeGroups2 fixedInGroup).state.cell 0).x_ = 1400
      ∧ (gridPixel (placeGroups2 fixedInGroup).state 0 7 0).bind (fun p => p.cell) = some 0
      ∧ (brickPlace1 fixedInGroup 0).fatalId = none
      ∧ ((brickPlace1 fixedInGroup 0).state.cell 0).x_ = 1400 := by
  decide



/-! ## Random swaps -/

theorem swapCells_frame (dp dp' : Opendp) (c1 c2 : Nat) (h : dp.frame = dp'.frame) :
    (swapCells dp c1 c2).1 = (swapCells dp' c1 c2).1
      ∧ (swapCells dp c1 c2).2.frame = (swapCells dp' c1 c2).2.frame := by
  have h' := h
  simp only [Opendp.frame, Prod.mk.injEq] at h'
  obtain ⟨h1, h2, h3, h4, h5, h6⟩ := h'
  have hg : swapGuard dp c1 c2 = swapGuard dp' c1 c2 := by
    simp only [swapGuard, Opendp.cell, h1]
  have hd : distChange dp (dp.cell c1) (dp.cell c2).x_ (dp.cell c2).y_
      + distChange dp (dp.cell c2) (dp.cell c1).x_ (dp.cell c1).y_
      = distChange dp' (dp'.cell c1) (dp'.cell c2).x_ (dp'.cell c2).y_
      + distChange dp' (dp'.cell c2) (dp'.cell c1).x_ (dp'.cell c1).y_ := by
    simp only [distChange, initialLocationP, initialLocation, Opendp.cell, h1, h2,
      Bool.false_eq_true, if_false]
  unfold swapCells
  dsimp only
  rw [hg, hd]
  by_cases hgd : swapGuard dp' c1 c2 = true
  · rw [if_pos hgd, if_pos hgd]
    by_cases hlt : distChange dp' (dp'.cell c1) (dp'.cell c2).x_ (dp'.cell c2).y_
        + distChange dp' (dp'.cell c2) (dp'.cell c1).x_ (dp'.cell c1).y_ < 0
    · rw [if_pos hlt, if_pos hlt]
      refine ⟨rfl, ?_⟩
      have hc2 : (erasePixel (erasePixel dp c1) c2).cells_
          = (erasePixel (erasePixel dp' c1) c2).cells_ :=
        erasePixel_cells _ _ c2 (erasePixel_cells dp dp' c1 h1)
      simp only [Opendp.frame, paintPixel, Opendp.cell, setGridPaddedLoc, isPadded,
        gridPaddedX, gridYCell, gridX, gridY, erasePixel_core, erasePixel_site_width,
        erasePixel_row_height, erasePixel_pad_left, erasePixel_pad_right, hc2, h1, h2, h3, h4,
        h5, h6]
    · rw [if_neg hlt, if_neg hlt]
      exact ⟨rfl, h⟩
  · rw [if_neg hgd, if_neg hgd]
    exact ⟨rfl, h⟩

theorem sumDisp_frame (dp dp' : Opendp) (l : List Nat) (h : dp.frame = dp'.frame) :
    sumDisp dp l = sumDisp dp' l := by
  simp only [Opendp.frame, Prod.mk.injEq] at h
  obtain ⟨h1, h2, -⟩ := h
  simp only [sumDisp, disp, initialLocation, Opendp.cell, h1, h2]

theorem annealMixed_swaps :
    (swapCells annealMixed 0 0).1 = false ∧ (swapCells annealMixed 1 1).1 = false
      ∧ (swapCells annealMixed 0 1).1 = true ∧ (swapCells annealMixed 1 0).1 = true
      ∧ (swapCells annealMixed 1 0).2.frame = (swapCells annealMixed 0 1).2.frame
      ∧ (swapCells (swapCells annealMixed 0 1).2 0 0).1 = false
      ∧ (swapCells (swapCells annealMixed 0 1).2 1 1).1 = false
      ∧ (swapCells (swapCells annealMixed 0 1).2 0 1).1 = true
      ∧ (swapCells (swapCells annealMixed 0 1).2 1 0).1 = true
      ∧ (swapCells (swapCells annealMixed 0 1).2 0 1).2.frame = annealMixed.frame
      ∧ (swapCells (swapCells annealMixed 0 1).2 1 0).2.frame = annealMixed.frame
      ∧ sumDisp annealMixed [0, 1] = 2300
      ∧ sumDisp (swapCells annealMixed 0 1).2 [0, 1] = 2500 := by
  refine ⟨?_, ?_, ?_, ?_, ?_, ?_, ?_, ?_, ?_, ?_, ?_, ?_, ?_⟩ <;> decide

/-- The invariant of the loop of `anneal` on `annealMixed`: after an even number of
accepted swaps the cells are where they started, after an odd number they are
swapped. -/
theorem annealMixed_step (rand : Nat → Nat) (acc : Nat × Opendp) (i : Nat)
    (h : (acc.1 % 2 = 0 ∧ acc.2.frame = annealMixed.frame)
      ∨ (acc.1 % 2 = 1 ∧ acc.2.frame = (swapCells annealMixed 0 1).2.frame)) :
    ((annealStep [0, 1] rand acc i).1 % 2 = 0
        ∧ (annealStep [0, 1] rand acc i).2.frame = annealMixed.frame)
      ∨ ((annealStep [0, 1] rand acc i).1 % 2 = 1
        ∧ (annealStep [0, 1] rand acc i).2.frame = (swapCells annealMixed 0 1).2.frame) := by
  obtain ⟨f00, f11, t01, t10, e10, g00, g11, u01, u10, b01, b10, -, -⟩ := annealMixed_swaps
  have key : ∀ (base : Opendp) (c1 c2 : Nat), acc.2.frame = base.frame →
      (swapCells acc.2 c1 c2).1 = (swapCells base c1 c2).1
        ∧ ((swapCells base c1 c2).1 = false → (swapCells acc.2 c1 c2).2.frame = base.frame)
        ∧ (swapCells acc.2 c1 c2).2.frame = (swapCells base c1 c2).2.frame := by
    intro base c1 c2 hb
    obtain ⟨k1, k2⟩ := swapCells_frame acc.2 base c1 c2 hb
    refine ⟨k1, fun hf => ?_, k2⟩
    rw [k2, swapCells_rejected_unchanged base c1 c2 hf]
  have hlen : ([0, 1] : List Nat).length = 2 := rfl
  unfold annealStep
  dsimp only
  rw [hlen]
  rcases Nat.mod_two_eq_zero_or_one (rand (2 * i)) with ha | ha <;>
  rcases Nat.mod_two_eq_zero_or_one (rand (2 * i + 1)) with hb | hb <;>
  rw [ha, hb] <;>
  simp only [List.getD_cons_zero, List.getD_cons_succ] <;>
  rcases h with ⟨hp, hf⟩ | ⟨hp, hf⟩
  · obtain ⟨k1, k2, -⟩ := key _ 0 0 hf
    rw [if_neg (by rw [k1.trans f00]; decide)]
    exact Or.inl ⟨hp, k2 f00⟩
  · obtain ⟨k1, k2, -⟩ := key _ 0 0 hf
    rw [if_neg (by rw [k1.trans g00]; decide)]
    exact Or.inr ⟨hp, k2 g00⟩
  · obtain ⟨k1, -, k3⟩ := key _ 0 1 hf
    rw [if_pos (k1.trans t01)]
    exact Or.inr ⟨by omega, k3⟩
  · obtain ⟨k1, -, k3⟩ := key _ 0 1 hf
    rw [if_pos (k1.trans u01)]
    exact Or.inl ⟨by omega, k3.trans b01⟩
  · obtain ⟨k1, -, k3⟩ := key _ 1 0 hf
    rw [if_pos (k1.trans t10)]
    exact Or.inr ⟨by omega, k3.trans e10⟩
  · obtain ⟨k1, -, k3⟩ := key _ 1 0 hf
    rw [if_pos (k1.trans u10)]
    exact Or.inl ⟨by omega, k3.trans b10⟩
  · obtain ⟨k1, k2, -⟩ := key _ 1 1 hf
    rw [if_neg (by rw [k1.trans f11]; decide)]
    exact Or.inl ⟨hp, k2 f11⟩
  · obtain ⟨k1, k2, -⟩ := key _ 1 1 hf
    rw [if_neg (by rw [k1.trans g11]; decide)]
    exact Or.inr ⟨hp, k2 g11⟩

theorem annealMixed_parity (rand : Nat → Nat) :
    ((anneal annealMixed 0 rand).1 % 2 = 0
        ∧ (anneal annealMixed 0 rand).2.frame = annealMixed.frame)
      ∨ ((anneal annealMixed 0 rand).1 % 2 = 1
        ∧ (anneal annealMixed 0 rand).2.frame = (swapCells annealMixed 0 1).2.frame) := by
  have hcells : (annealMixed.groups_.getD 0 default).cells_ = [0, 1] := by decide
  unfold anneal
  dsimp only
  rw [hcells]
  exact foldl_keeps
    (fun acc : Nat × Opendp =>
      (acc.1 % 2 = 0 ∧ acc.2.frame = annealMixed.frame)
        ∨ (acc.1 % 2 = 1 ∧ acc.2.frame = (swapCells annealMixed 0 1).2.frame))
    _ _ _ (Or.inl ⟨rfl, rfl⟩) (fun acc i h => annealMixed_step rand acc i h)

set_option maxRecDepth 100000 in
/-- C19 fails on `annealMixed`, group 0, for every stream of random values: the sum
of the displacements of the two cells is 2300 before the call, and after it
2300 when the number of accepted swaps is even and 2500 when it is odd, so it
is never smaller than before.  With the stream 0, 1, 0, 0, ... the call returns
the count 1.  The accepted swaps are those of a padded with an unpadded cell
(the defect of `swapCells` with mixed padding). -/
theorem anneal_mixed_padding_never_improves :
    sumDisp annealMixed [0, 1] = 2300
      ∧ (∀ rand : Nat → Nat,
          sumDisp (anneal annealMixed 0 rand).2 [0, 1]
            = if (anneal annealMixed 0 rand).1 % 2 = 0 then 2300 else 2500)
      ∧ (anneal annealMixed 0 (fun k => if k = 1 then 1 else 0)).1 = 1 := by
  obtain ⟨-, -, -, -, -, -, -, -, -, -, -, s0, s1⟩ := annealMixed_swaps
  refine ⟨s0, fun rand => ?_, by decide⟩
  rcases annealMixed_parity rand with ⟨hp, hf⟩ | ⟨hp, hf⟩
  · rw [if_pos hp, sumDisp_frame _ _ _ hf, s0]
  · rw [if_neg (by omega), sumDisp_frame _ _ _ hf, s1]

/-! ## Global placement pass: the error of a cell that does not fit -/

theorem legalGridPtInit_error (dp : Opendp) (cell : Cell) (padded : Bool)
    (row_height site_width : Int) (id : Nat)
    (h : legalGridPtInit dp cell padded row_height site_width = .error id) : id = 26 := by
  unfold legalGridPtInit at h
  dsimp only at h
  cases hf : isFixed cell with
  | true =>
    rw [legalPtInit_fixed dp cell padded _ _ hf] at h
    cases h
    rfl
  | false =>
    obtain ⟨p, hp⟩ := legalPtInit_not_fixed dp cell padded
      (legalRowHeight dp cell row_height) (legalSiteWidth dp cell site_width) hf
    rw [hp] at h
    cases h

theorem mapMoveInit_fatal (dp : Opendp) (c : Nat) (id : Nat)
    (h : (mapMoveInit dp c).fatalId = some id) : id = 26 := by
  unfold mapMoveInit at h
  cases hl : legalGridPtInit dp (dp.cell c) true (-1) (-1) with
  | error e =>
    rw [hl] at h
    cases h
    exact legalGridPtInit_error _ _ _ _ _ _ hl
  | ok p =>
    rw [hl] at h
    cases h

theorem shiftReplace_fatal (c : Nat) (l : List Nat) (dp : Opendp) (calls : List (Nat × Bool))
    (id : Nat) (h : (shiftReplace c l dp calls).fatalId = some id) : id = 26 := by
  induction l generalizing dp calls with
  | nil => cases h
  | cons a rest ih =>
    unfold shiftReplace at h
    split at h
    · cases hm : mapMoveInit dp a with
      | fatal e s =>
        rw [hm] at h
        exact mapMoveInit_fatal dp a id (by rw [hm]; exact h)
      | ok flag s =>
        rw [hm] at h
        exact ih _ _ h
    · exact ih _ _ h

theorem shiftMove_fatal (dp : Opendp) (c : Nat) (id : Nat)
    (h : (shiftMove dp c).fatalId = some id) : id = 26 := by
  unfold shiftMove at h
  cases hl : legalGridPtInit dp (dp.cell c) true (-1) (-1) with
  | error e =>
    rw [hl] at h
    cases h
    exact legalGridPtInit_error _ _ _ _ _ _ hl
  | ok p =>
    rw [hl] at h
    dsimp only at h
    cases hm : mapMoveInit (shiftErase c (shiftRegionCells dp c p) dp) c with
    | fatal e s =>
      rw [hm] at h
      exact mapMoveInit_fatal _ c id (by rw [hm]; exact h)
    | ok flag s =>
      rw [hm] at h
      exact shiftReplace_fatal _ _ _ _ _ h

theorem placePass_fatal (multi : Bool) (l : List Nat) (dp : Opendp) (id : Nat)
    (h : (placePass multi l dp).fatalId = some id) : id = 26 := by
  induction l generalizing dp with
  | nil => cases h
  | cons c rest ih =>
    unfold placePass at h
    split at h
    · cases hm : mapMoveInit dp c with
      | fatal e s =>
        rw [hm] at h
        exact mapMoveInit_fatal dp c id (by rw [hm]; exact h)
      | ok flag s =>
        rw [hm] at h
        cases flag with
        | true => exact ih _ h
        | false =>
          dsimp only at h
          cases hs : shiftMove s c with
          | fatal e s2 =>
            rw [hs] at h
            exact shiftMove_fatal s c id (by rw [hs]; exact h)
          | ok v s2 =>
            rw [hs] at h
            exact ih _ h
    · exact ih _ h

theorem placeCollect_error_iff (dp : Opendp) (l : List Nat) :
    ((∃ id, placeCollect dp l = .error id) ↔ ∃ c ∈ l, Unfit dp c)
      ∧ ∀ id, placeCollect dp l = .error id → id = 15 := by
  induction l with
  | nil =>
    refine ⟨⟨?_, ?_⟩, ?_⟩
    · rintro ⟨id, h⟩
      cases h
    · rintro ⟨c, hc, -⟩
      cases hc
    · intro id h
      cases h
  | cons c rest ih =>
    obtain ⟨ih1, ih2⟩ := ih
    unfold placeCollect
    by_cases hmov : (!(isFixed (dp.cell c) || (dp.cell c).inGroup || (dp.cell c).is_placed_)) = true
    · rw [if_pos hmov]
      have hmov' : isFixed (dp.cell c) = false ∧ (dp.cell c).inGroup = false
          ∧ (dp.cell c).is_placed_ = false := by
        simpa [Bool.or_eq_false_iff, and_assoc] using hmov
      by_cases hfit : (!cellFitsInCore dp (dp.cell c)) = true
      · rw [if_pos hfit]
        have hun : Unfit dp c := by
          refine ⟨hmov'.1, hmov'.2.1, hmov'.2.2, ?_⟩
          simp only [cellFitsInCore, Bool.not_eq_true', Bool.and_eq_false_iff,
            decide_eq_false_iff_not, not_le] at hfit
          exact hfit
        refine ⟨⟨fun _ => ⟨c, List.mem_cons_self _ _, hun⟩, fun _ => ⟨15, rfl⟩⟩, ?_⟩
        intro id h
        cases h
        rfl
      · rw [if_neg hfit]
        have hfits : ¬ Unfit dp c := by
          rintro ⟨-, -, -, hu⟩
          apply hfit
          simp only [cellFitsInCore, Bool.not_eq_true', Bool.and_eq_false_iff,
            decide_eq_false_iff_not, not_le]
          exact hu
        cases hrest : placeCollect dp rest with
        | error e =>
          dsimp only
          refine ⟨⟨fun _ => ?_, fun _ => ⟨e, rfl⟩⟩, ?_⟩
          · obtain ⟨k, hk, hku⟩ := ih1.1 ⟨e, hrest⟩
            exact ⟨k, List.mem_cons_of_mem _ hk, hku⟩
          · intro id h
            cases h
            exact ih2 e hrest
        | ok cells =>
          dsimp only
          refine ⟨⟨?_, ?_⟩, ?_⟩
          · rintro ⟨id, h⟩
            cases h
          · rintro ⟨k, hk, hku⟩
            rcases List.mem_cons.1 hk with rfl | hk'
            · exact absurd hku hfits
            · obtain ⟨e, he⟩ := ih1.2 ⟨k, hk', hku⟩
              rw [hrest] at he
              cases he
          · intro id h
            cases h
    · rw [if_neg hmov]
      have hnot : ¬ Unfit dp c := by
        rintro ⟨h1, h2, h3, -⟩
        apply hmov
        simp [h1, h2, h3]
      refine ⟨⟨fun h => ?_, ?_⟩, ih2⟩
      · obtain ⟨k, hk, hku⟩ := ih1.1 h
        exact ⟨k, List.mem_cons_of_mem _ hk, hku⟩
      · rintro ⟨k, hk, hku⟩
        rcases List.mem_cons.1 hk with rfl | hk'
        · exact absurd hku hnot
        · exact ih1.2 ⟨k, hk', hku⟩

theorem place_fatal_15 (dp : Opendp) :
    ((place dp).fatalId = some 15 ↔ ∃ c, c < dp.cells_.length ∧ Unfit dp c)
      ∧ ((place dp).fatalId ≠ some 15 ∨ (place dp).state = dp) := by
  obtain ⟨h1, h2⟩ := placeCollect_error_iff dp (List.range dp.cells_.length)
  have hmem : (∃ c ∈ List.range dp.cells_.length, Unfit dp c)
      ↔ ∃ c, c < dp.cells_.length ∧ Unfit dp c := by
    constructor
    · rintro ⟨c, hc, hu⟩
      exact ⟨c, List.mem_range.1 hc, hu⟩
    · rintro ⟨c, hc, hu⟩
      exact ⟨c, List.mem_range.2 hc, hu⟩
  rw [← hmem, ← h1]
  unfold place
  cases hcol : placeCollect dp (List.range dp.cells_.length) with
  | error e =>
    dsimp only
    have he : e = 15 := h2 e hcol
    subst he
    exact ⟨⟨fun _ => ⟨15, rfl⟩, fun _ => rfl⟩, Or.inr rfl⟩
  | ok cells =>
    dsimp only
    have hne : ∀ o : Outcome Unit, (∀ id, o.fatalId = some id → id = 26) → o.fatalId ≠ some 15 := by
      intro o ho h15
      have := ho 15 h15
      omega
    have hpass : ∀ id, (match (if dp.have_multi_row_cells_ = true then
          placePass true (sortBy (fun c1 c2 => cellPlaceOrderLess dp (dp.cell c1) (dp.cell c2))
            cells) dp else Outcome.ok () dp) with
        | Outcome.fatal id dp1 => Outcome.fatal id dp1
        | Outcome.ok _ dp1 =>
          placePass false (sortBy (fun c1 c2 => cellPlaceOrderLess dp (dp.cell c1) (dp.cell c2))
            cells) dp1).fatalId = some id → id = 26 := by
      intro id h
      split at h
      · rename_i e s heq
        by_cases hm : dp.have_multi_row_cells_ = true
        · rw [if_pos hm] at heq
          exact placePass_fatal true _ dp id (by rw [heq]; exact h)
        · rw [if_neg hm] at heq
          cases heq
      · exact placePass_fatal false _ _ id h
    refine ⟨⟨fun h => absurd h (hne _ hpass), ?_⟩, Or.inl (hne _ hpass)⟩
    rintro ⟨id, h⟩
    cases h

/-- C13: `place` raises the error 15 if and only if some cell that is not fixed, not
in a group and not yet placed has `gridPaddedWidth > row_site_count_` or
`gridHeight > row_count_`; and when it raises the error, the state is the one
`place` was called in: nothing has been painted or moved. -/
theorem place_raises_15_iff_unfit (dp : Opendp) :
    ((place dp).fatalId = some 15 ↔
        ∃ c, c < dp.cells_.length ∧ isFixed (dp.cell c) = false
          ∧ (dp.cell c).inGroup = false ∧ (dp.cell c).is_placed_ = false
          ∧ (gridPaddedWidth dp (dp.cell c) > dp.row_site_count_
              ∨ gridHeight dp (dp.cell c) > dp.row_count_))
      ∧ ((place dp).fatalId ≠ some 15 ∨ (place dp).state = dp) :=
  place_fatal_15 dp

/-! ## Shift move: what is erased and what is logged -/

theorem cell_set_ge (l : List Cell) (c : Nat) (v : Cell) (hc : l.length ≤ c) :
    (l.set c v).getD c default = l.getD c default := by
  rw [List.getD_eq_default _ _ (by rw [List.length_set]; exact hc),
    List.getD_eq_default _ _ hc]

theorem paintPixel_cell_static (dp : Opendp) (c k : Nat) (gx gy : Int) :
    ((paintPixel dp c gx gy).cell k).inGroup = (dp.cell k).inGroup
      ∧ isFixed ((paintPixel dp c gx gy).cell k) = isFixed (dp.cell k)
      ∧ ((dp.cell k).is_placed_ = true → ((paintPixel dp c gx gy).cell k).is_placed_ = true) := by
  by_cases hk : k = c
  · subst hk
    by_cases hc : k < dp.cells_.length
    · rw [paintPixel_cell_self dp k gx gy hc]
      exact ⟨rfl, rfl, fun _ => rfl⟩
    · have : (paintPixel dp k gx gy).cell k = dp.cell k :=
        cell_set_ge dp.cells_ k _ (by omega)
      rw [this]
      exact ⟨rfl, rfl, fun h => h⟩
  · rw [paintPixel_cell_other dp c k gx gy hk]
    exact ⟨rfl, rfl, fun h => h⟩

theorem erasePixel_cell_static (dp : Opendp) (c k : Nat) :
    ((erasePixel dp c).cell k).inGroup = (dp.cell k).inGroup
      ∧ isFixed ((erasePixel dp c).cell k) = isFixed (dp.cell k)
      ∧ ((dp.cell k).is_placed_ = false → ((erasePixel dp c).cell k).is_placed_ = false) := by
  by_cases hk : k = c
  · subst hk
    by_cases hskip : (isFixed (dp.cell k) || !(dp.cell k).is_placed_) = true
    · rw [erasePixel_skip dp k hskip]
      exact ⟨rfl, rfl, fun h => h⟩
    · have hfix : isFixed (dp.cell k) = false := by
        cases h : isFixed (dp.cell k) with
        | false => rfl
        | true => rw [h] at hskip; simp at hskip
      have hpl : (dp.cell k).is_placed_ = true := by
        cases h : (dp.cell k).is_placed_ with
        | true => rfl
        | false => rw [h] at hskip; simp at hskip
      by_cases hc : k < dp.cells_.length
      · rw [erasePixel_cell_erased dp k hc hfix hpl]
        exact ⟨rfl, rfl, fun _ => rfl⟩
      · have hd : dp.cell k = default := by
          unfold Opendp.cell
          rw [List.getD_eq_default _ _ (by omega)]
        rw [hd] at hpl
        cases hpl
  · rw [erasePixel_cell_other dp c k hk]
    exact ⟨rfl, rfl, fun h => h⟩

/-- After its erase a cell that is not fixed is not placed. -/
theorem erasePixel_unplaced (dp : Opendp) (c : Nat) (hc : c < dp.cells_.length)
    (hfix : isFixed (dp.cell c) = false) : ((erasePixel dp c).cell c).is_placed_ = false := by
  cases hpl : (dp.cell c).is_placed_ with
  | false =>
    rw [erasePixel_skip dp c (by rw [hpl]; simp)]
    exact hpl
  | true => rw [erasePixel_cell_erased dp c hc hfix hpl]

theorem SameCells.refl (s : Opendp) : SameCells s s := ⟨rfl, fun _ => ⟨rfl, rfl⟩⟩

theorem SameCells.trans {s1 s2 s3 : Opendp} (h12 : SameCells s1 s2) (h23 : SameCells s2 s3) :
    SameCells s1 s3 :=
  ⟨h23.1.trans h12.1, fun k => ⟨(h23.2 k).1.trans (h12.2 k).1, (h23.2 k).2.trans (h12.2 k).2⟩⟩

theorem paintPixel_sameCells (dp : Opendp) (c : Nat) (gx gy : Int) :
    SameCells dp (paintPixel dp c gx gy) :=
  ⟨paintPixel_length dp c gx gy, fun k =>
    ⟨(paintPixel_cell_static dp c k gx gy).1, (paintPixel_cell_static dp c k gx gy).2.1⟩⟩

theorem erasePixel_sameCells (dp : Opendp) (c : Nat) : SameCells dp (erasePixel dp c) :=
  ⟨erasePixel_length dp c, fun k =>
    ⟨(erasePixel_cell_static dp c k).1, (erasePixel_cell_static dp c k).2.1⟩⟩

theorem legalGridPtInit_not_fixed (dp : Opendp) (cell : Cell) (padded : Bool)
    (row_height site_width : Int) (h : isFixed cell = false) :
    ∃ p, legalGridPtInit dp cell padded row_height site_width = .ok p := by
  obtain ⟨p, hp⟩ := legalPtInit_not_fixed dp cell padded
    (legalRowHeight dp cell row_height) (legalSiteWidth dp cell site_width) h
  unfold legalGridPtInit
  dsimp only
  rw [hp]
  exact ⟨_, rfl⟩

theorem legalGridPtInit_ok_not_fixed (dp : Opendp) (cell : Cell) (padded : Bool)
    (row_height site_width : Int) (p : Point)
    (h : legalGridPtInit dp cell padded row_height site_width = .ok p) : isFixed cell = false := by
  cases hf : isFixed cell with
  | false => rfl
  | true =>
    unfold legalGridPtInit at h
    dsimp only at h
    rw [legalPtInit_fixed dp cell padded _ _ hf] at h
    cases h

/-- What a `mapMove(cell)` of a cell that is not fixed does: it returns, the state
is unchanged when it returns false, and when it returns true the cell is placed
and no other cell has changed. -/
theorem mapMoveInit_spec (s : Opendp) (a : Nat) (hfix : isFixed (s.cell a) = false) :
    ∃ flag s1, mapMoveInit s a = .ok flag s1
      ∧ SameCells s s1
      ∧ s1.placement_failures_ = s.placement_failures_
      ∧ (∀ k, (s.cell k).is_placed_ = true → (s1.cell k).is_placed_ = true)
      ∧ (flag = true → a < s.cells_.length → (s1.cell a).is_placed_ = true)
      ∧ (∀ k, k ≠ a → s1.cell k = s.cell k)
      ∧ (flag = false → s1 = s) := by
  obtain ⟨p, hp⟩ := legalGridPtInit_not_fixed s (s.cell a) true (-1) (-1) hfix
  unfold mapMoveInit
  rw [hp]
  dsimp only
  unfold mapMove
  dsimp only
  by_cases hfound : (diamondSearch s (s.cell a) p.x p.y).pixel.isSome = true
  · rw [if_pos hfound]
    refine ⟨true, _, rfl, paintPixel_sameCells _ _ _ _, rfl, ?_, ?_, ?_, ?_⟩
    · intro k hk
      exact (paintPixel_cell_static s a k _ _).2.2 hk
    · intro _ ha
      rw [paintPixel_cell_self s a _ _ ha]
    · intro k hk
      exact paintPixel_cell_other s a k _ _ hk
    · intro h
      cases h
  · rw [if_neg hfound]
    refine ⟨false, s, rfl, SameCells.refl s, rfl, fun _ h => h, ?_, fun _ _ => rfl, fun _ => rfl⟩
    intro h
    cases h

theorem shiftRecord_cell (c : Nat) (flag : Bool) (s : Opendp) (k : Nat) :
    (shiftRecord c flag s).cell k = s.cell k := by
  unfold shiftRecord
  cases flag <;> rfl

theorem shiftRecord_length (c : Nat) (flag : Bool) (s : Opendp) :
    (shiftRecord c flag s).cells_.length = s.cells_.length := by
  unfold shiftRecord
  cases flag <;> rfl

theorem shiftRecord_failures (c : Nat) (flag : Bool) (s : Opendp) :
    (shiftRecord c flag s).placement_failures_
      = s.placement_failures_ ++ List.replicate (failedCalls [(c, flag)]) c := by
  unfold shiftRecord
  cases flag
  · rfl
  · simp [failedCalls]

theorem failedCalls_append (l1 l2 : List (Nat × Bool)) :
    failedCalls (l1 ++ l2) = failedCalls l1 + failedCalls l2 := by
  simp [failedCalls, List.filter_append]

theorem failedCalls_cons (a c : Nat) (flag : Bool) (l : List (Nat × Bool)) :
    failedCalls ((a, flag) :: l) = failedCalls [(c, flag)] + failedCalls l := by
  cases flag <;> simp [failedCalls]
  omega

/-- The loop `erase region cells`: the cells it erases are unplaced afterwards, the
other cells are as before. -/
theorem shiftErase_spec (c : Nat) (l : List Nat) (s : Opendp) :
    SameCells s (shiftErase c l s)
      ∧ (shiftErase c l s).placement_failures_ = s.placement_failures_
      ∧ (∀ k, (s.cell k).is_placed_ = false → ((shiftErase c l s).cell k).is_placed_ = false)
      ∧ (∀ a ∈ l, a < s.cells_.length → isFixed (s.cell a) = false →
          (s.cell c).inGroup = (s.cell a).inGroup →
          ((shiftErase c l s).cell a).is_placed_ = false)
      ∧ (∀ k, (k ∈ l → (s.cell c).inGroup ≠ (s.cell k).inGroup) →
          (shiftErase c l s).cell k = s.cell k) := by
  induction l generalizing s with
  | nil =>
    refine ⟨SameCells.refl s, rfl, fun _ h => h, ?_, fun _ _ => rfl⟩
    intro a ha
    cases ha
  | cons b rest ih =>
    unfold shiftErase
    by_cases hb : ((s.cell c).inGroup == (s.cell b).inGroup) = true
    · rw [if_pos hb]
      have hsame := erasePixel_sameCells s b
      obtain ⟨i1, i2, i3, i4, i5⟩ := ih (erasePixel s b)
      have hst : ∀ k, ((erasePixel s b).cell c).inGroup = ((erasePixel s b).cell k).inGroup
          ↔ (s.cell c).inGroup = (s.cell k).inGroup := by
        intro k
        rw [(hsame.2 c).1, (hsame.2 k).1]
      refine ⟨hsame.trans i1, i2.trans (erasePixel_frame s b).2.2.2.2.2.2, ?_, ?_, ?_⟩
      · intro k hk
        exact i3 k ((erasePixel_cell_static s b k).2.2 hk)
      · intro a ha halt hfa hag
        rcases List.mem_cons.1 ha with rfl | har
        · apply i3
          exact erasePixel_unplaced s a halt hfa
        · exact i4 a har (by rw [hsame.1]; exact halt) (by rw [(hsame.2 a).2]; exact hfa)
            ((hst a).2 hag)
      · intro k hk
        have hkb : k ≠ b := by
          rintro rfl
          exact hk (List.mem_cons_self _ _) (beq_iff_eq.1 hb)
        rw [i5 k (fun hkr hne => hk (List.mem_cons_of_mem _ hkr) ((hst k).1 hne)),
          erasePixel_cell_other s b k hkb]
    · rw [if_neg hb]
      obtain ⟨i1, i2, i3, i4, i5⟩ := ih s
      refine ⟨i1, i2, i3, ?_, ?_⟩
      · intro a ha halt hfa hag
        rcases List.mem_cons.1 ha with rfl | har
        · exact absurd (beq_iff_eq.2 hag) hb
        · exact i4 a har halt hfa hag
      · intro k hk
        exact i5 k (fun hkr => hk (List.mem_cons_of_mem _ hkr))

/-- The loop `re-place erased cells`: it returns; it calls `mapMove` on the cells
that pass the test, in order; every false flag appends the target to
`placement_failures_`; a cell it calls `mapMove` on is placed afterwards or has
a false flag; the other cells are as before. -/
theorem shiftReplace_spec (c : Nat) (l : List Nat) (s : Opendp) (tr : List (Nat × Bool))
    (hl : ∀ a ∈ l, a < s.cells_.length ∧ isFixed (s.cell a) = false) :
    ∃ tr1 s1, shiftReplace c l s tr = .ok (tr ++ tr1) s1
      ∧ SameCells s s1
      ∧ tr1.map Prod.fst = l.filter (fun a => (s.cell c).inGroup == (s.cell a).inGroup)
      ∧ s1.placement_failures_ = s.placement_failures_ ++ List.replicate (failedCalls tr1) c
      ∧ (∀ k, (s.cell k).is_placed_ = true → (s1.cell k).is_placed_ = true)
      ∧ (∀ a ∈ l, (s.cell c).inGroup = (s.cell a).inGroup →
          (s1.cell a).is_placed_ = true ∨ (a, false) ∈ tr1)
      ∧ (∀ k, (k ∈ l → (s.cell c).inGroup ≠ (s.cell k).inGroup) → s1.cell k = s.cell k) := by
  induction l generalizing s tr with
  | nil =>
    refine ⟨[], s, by simp [shiftReplace], SameCells.refl s, rfl, by simp [failedCalls],
      fun _ h => h, ?_, fun _ _ => rfl⟩
    intro a ha
    cases ha
  | cons b rest ih =>
    unfold shiftReplace
    by_cases hb : ((s.cell c).inGroup == (s.cell b).inGroup) = true
    · rw [if_pos hb]
      obtain ⟨hblt, hbfix⟩ := hl b (List.mem_cons_self _ _)
      obtain ⟨flag, s1, hm, m1, m2, m3, m4, m5, m6⟩ := mapMoveInit_spec s b hbfix
      rw [hm]
      dsimp only
      have hsame : SameCells s (shiftRecord c flag s1) :=
        ⟨(shiftRecord_length c flag s1).trans m1.1, fun k => by
          rw [shiftRecord_cell]; exact m1.2 k⟩
      have hst : ∀ k, ((shiftRecord c flag s1).cell c).inGroup
            = ((shiftRecord c flag s1).cell k).inGroup
          ↔ (s.cell c).inGroup = (s.cell k).inGroup := by
        intro k
        rw [(hsame.2 c).1, (hsame.2 k).1]
      have hl1 : ∀ a ∈ rest, a < (shiftRecord c flag s1).cells_.length
          ∧ isFixed ((shiftRecord c flag s1).cell a) = false := by
        intro a ha
        obtain ⟨h1, h2⟩ := hl a (List.mem_cons_of_mem _ ha)
        exact ⟨by rw [hsame.1]; exact h1, by rw [(hsame.2 a).2]; exact h2⟩
      obtain ⟨tr2, s2, i0, i1, i2, i3, i4, i5, i6⟩ :=
        ih (shiftRecord c flag s1) (tr ++ [(b, flag)]) hl1
      refine ⟨(b, flag) :: tr2, s2, ?_, hsame.trans i1, ?_, ?_, ?_, ?_, ?_⟩
      · rw [i0, List.append_assoc]
        rfl
      · have hf : (b :: rest).filter (fun a => (s.cell c).inGroup == (s.cell a).inGroup)
            = b :: rest.filter (fun a => (s.cell c).inGroup == (s.cell a).inGroup) :=
          List.filter_cons_of_pos hb
        rw [hf, List.map_cons, i2]
        congr 1
        apply List.filter_congr
        intro a _
        have := hst a
        by_cases h1 : (s.cell c).inGroup = (s.cell a).inGroup
        · rw [beq_iff_eq.2 h1, beq_iff_eq.2 (this.2 h1)]
        · rw [beq_eq_false_iff_ne.2 h1, beq_eq_false_iff_ne.2 (fun h => h1 (this.1 h))]
      · rw [i3, shiftRecord_failures, m2, failedCalls_cons b c flag tr2, List.append_assoc,
          ← List.replicate_add]
      · intro k hk
        apply i4
        rw [shiftRecord_cell]
        exact m3 k hk
      · intro a ha hag
        rcases List.mem_cons.1 ha with rfl | har
        · cases flag with
          | true =>
            left
            apply i4
            rw [shiftRecord_cell]
            exact m4 rfl hblt
          | false =>
            right
            exact List.mem_cons_self _ _
        · rcases i5 a har ((hst a).2 hag) with h | h
          · exact Or.inl h
          · exact Or.inr (List.mem_cons_of_mem _ h)
      · intro k hk
        have hkb : k ≠ b := by
          rintro rfl
          exact hk (List.mem_cons_self _ _) (beq_iff_eq.1 hb)
        rw [i6 k (fun hkr hne => hk (List.mem_cons_of_mem _ hkr) ((hst k).1 hne)),
          shiftRecord_cell, m5 k hkb]
    · rw [if_neg hb]
      have hl1 : ∀ a ∈ rest, a < s.cells_.length ∧ isFixed (s.cell a) = false :=
        fun a ha => hl a (List.mem_cons_of_mem _ ha)
      obtain ⟨tr2, s2, i0, i1, i2, i3, i4, i5, i6⟩ := ih s tr hl1
      refine ⟨tr2, s2, i0, i1, ?_, i3, i4, ?_, ?_⟩
      · have hf : (b :: rest).filter (fun a => (s.cell c).inGroup == (s.cell a).inGroup)
            = rest.filter (fun a => (s.cell c).inGroup == (s.cell a).inGroup) :=
          List.filter_cons_of_neg hb
        rw [hf, i2]
      · intro a ha hag
        rcases List.mem_cons.1 ha with rfl | har
        · exact absurd (beq_iff_eq.2 hag) hb
        · exact i5 a har hag
      · intro k hk
        exact i6 k (fun hkr => hk (List.mem_cons_of_mem _ hkr))

theorem shiftRegionCells_mem (dp : Opendp) (c : Nat) (grid_pt : Point) (a : Nat)
    (ha : a ∈ shiftRegionCells dp c grid_pt) :
    a < dp.cells_.length ∧ isFixed (dp.cell a) = false := by
  unfold shiftRegionCells at ha
  dsimp only at ha
  rw [List.mem_filter, List.mem_range] at ha
  refine ⟨ha.1, ?_⟩
  have := ha.2
  rw [Bool.and_eq_true] at this
  simpa using this.1

/-- What `shiftMove` does for a target that is not fixed, stage by stage: it returns;
the `mapMove` calls are the one of the target and then those of the erased
cells; every false flag appends the target to `placement_failures_`; an erased
cell is placed at the end or has a false flag; a collected cell that is not
erased is, at the end, as it was. -/
theorem shiftMove_spec (dp : Opendp) (c : Nat) (grid_pt : Point)
    (hpt : legalGridPtInit dp (dp.cell c) true (-1) (-1) = .ok grid_pt) :
    ∃ calls s1, shiftMove dp c = .ok calls s1
      ∧ calls.map Prod.fst = c :: shiftErased dp c grid_pt
      ∧ s1.placement_failures_
          = dp.placement_failures_ ++ List.replicate (failedCalls calls) c
      ∧ (∀ a ∈ shiftErased dp c grid_pt, (s1.cell a).is_placed_ = true ∨ (a, false) ∈ calls)
      ∧ (∀ a ∈ shiftRegionCells dp c grid_pt, (dp.cell c).inGroup ≠ (dp.cell a).inGroup →
          s1.cell a = dp.cell a) := by
  have hfix := legalGridPtInit_ok_not_fixed _ _ _ _ _ _ hpt
  obtain ⟨e1, e2, e3, e4, e5⟩ := shiftErase_spec c (shiftRegionCells dp c grid_pt) dp
  have hfix1 : isFixed ((shiftErase c (shiftRegionCells dp c grid_pt) dp).cell c) = false := by
    rw [(e1.2 c).2]; exact hfix
  obtain ⟨flag, s1, hm, m1, m2, m3, m4, m5, m6⟩ :=
    mapMoveInit_spec (shiftErase c (shiftRegionCells dp c grid_pt) dp) c hfix1
  have hsame : SameCells dp (shiftRecord c flag s1) :=
    ⟨(shiftRecord_length c flag s1).trans (m1.1.trans e1.1), fun k => by
      rw [shiftRecord_cell]
      exact ⟨(m1.2 k).1.trans (e1.2 k).1, (m1.2 k).2.trans (e1.2 k).2⟩⟩
  have hst : ∀ k, ((shiftRecord c flag s1).cell c).inGroup
        = ((shiftRecord c flag s1).cell k).inGroup
      ↔ (dp.cell c).inGroup = (dp.cell k).inGroup := by
    intro k
    rw [(hsame.2 c).1, (hsame.2 k).1]
  have hl : ∀ a ∈ shiftRegionCells dp c grid_pt, a < (shiftRecord c flag s1).cells_.length
      ∧ isFixed ((shiftRecord c flag s1).cell a) = false := by
    intro a ha
    obtain ⟨h1, h2⟩ := shiftRegionCells_mem dp c grid_pt a ha
    exact ⟨by rw [hsame.1]; exact h1, by rw [(hsame.2 a).2]; exact h2⟩
  obtain ⟨tr2, s2, i0, i1, i2, i3, i4, i5, i6⟩ :=
    shiftReplace_spec c (shiftRegionCells dp c grid_pt) (shiftRecord c flag s1) [(c, flag)] hl
  have hfilter : (shiftRegionCells dp c grid_pt).filter
      (fun a => ((shiftRecord c flag s1).cell c).inGroup
        == ((shiftRecord c flag s1).cell a).inGroup) = shiftErased dp c grid_pt := by
    unfold shiftErased
    apply List.filter_congr
    intro a _
    by_cases h1 : (dp.cell c).inGroup = (dp.cell a).inGroup
    · rw [beq_iff_eq.2 h1, beq_iff_eq.2 ((hst a).2 h1)]
    · rw [beq_eq_false_iff_ne.2 h1, beq_eq_false_iff_ne.2 (fun h => h1 ((hst a).1 h))]
  refine ⟨[(c, flag)] ++ tr2, s2, ?_, ?_, ?_, ?_, ?_⟩
  · unfold shiftMove
    rw [hpt]
    dsimp only
    rw [hm]
    exact i0
  · rw [List.map_append, i2, hfilter]
    rfl
  · rw [i3, shiftRecord_failures, m2, e2, failedCalls_append, List.append_assoc,
      ← List.replicate_add]
  · intro a ha
    have ha' := ha
    unfold shiftErased at ha'
    rw [List.mem_filter] at ha'
    rcases i5 a ha'.1 ((hst a).2 (beq_iff_eq.1 ha'.2)) with h | h
    · exact Or.inl h
    · exact Or.inr (List.mem_append_right _ h)
  · intro a ha hne
    have hac : a ≠ c := by
      rintro rfl
      exact hne rfl
    rw [i6 a (fun _ h => hne ((hst a).1 h)), shiftRecord_cell, m5 a hac, e5 a (fun _ => hne)]

/-- C16: for a target that is not fixed `shiftMove` returns, and then every cell it
erased is placed again or is the cell of a `mapMove` call that returned false;
the calls are that of the target and those of the erased cells; the entries
appended to `placement_failures_` are as many as the calls that returned false,
and each of them is the target, also when the call that failed was made for an
erased neighbour. -/
theorem shiftMove_logs_target_per_failure (dp : Opendp) (c : Nat)
    (hfix : isFixed (dp.cell c) = false) :
    ∃ grid_pt calls s1,
      legalGridPtInit dp (dp.cell c) true (-1) (-1) = .ok grid_pt
      ∧ shiftMove dp c = .ok calls s1
      ∧ calls.map Prod.fst = c :: shiftErased dp c grid_pt
      ∧ s1.placement_failures_
          = dp.placement_failures_ ++ List.replicate (failedCalls calls) c
      ∧ ∀ a ∈ shiftErased dp c grid_pt, (s1.cell a).is_placed_ = true ∨ (a, false) ∈ calls := by
  obtain ⟨grid_pt, hpt⟩ := legalGridPtInit_not_fixed dp (dp.cell c) true (-1) (-1) hfix
  obtain ⟨calls, s1, h1, h2, h3, h4, -⟩ := shiftMove_spec dp c grid_pt hpt
  exact ⟨grid_pt, calls, s1, hpt, h1, h2, h3, h4⟩

/-- C16 on `twoGroupsRow` with cell 0 as the target. -/
theorem shiftMove_logs_target_per_failure_witness :
    isFixed (twoGroupsRow.cell 0) = false
      ∧ ∃ grid_pt calls s1,
        legalGridPtInit twoGroupsRow (twoGroupsRow.cell 0) true (-1) (-1) = .ok grid_pt
        ∧ shiftMove twoGroupsRow 0 = .ok calls s1
        ∧ calls.map Prod.fst = 0 :: shiftErased twoGroupsRow 0 grid_pt
        ∧ s1.placement_failures_
            = twoGroupsRow.placement_failures_ ++ List.replicate (failedCalls calls) 0
        ∧ ∀ a ∈ shiftErased twoGroupsRow 0 grid_pt,
            (s1.cell a).is_placed_ = true ∨ (a, false) ∈ calls :=
  ⟨by decide, shiftMove_logs_target_per_failure twoGroupsRow 0 (by decide)⟩

/-- The test of `shiftMove`: it erases a collected cell that was placed if and only
if the cell and the target agree on being in a group (`inGroup()`); the cells it
calls `mapMove` on again are the same ones; a collected cell that disagrees with
the target on being in a group is, when `shiftMove` returns, as it was. -/
theorem shiftMove_erases_iff_same_inGroup (dp : Opendp) (c a : Nat) (grid_pt : Point)
    (hpt : legalGridPtInit dp (dp.cell c) true (-1) (-1) = .ok grid_pt)
    (ha : a ∈ shiftRegionCells dp c grid_pt)
    (hplaced : (dp.cell a).is_placed_ = true) :
    (((shiftErase c (shiftRegionCells dp c grid_pt) dp).cell a).is_placed_ = false
        ↔ (dp.cell c).inGroup = (dp.cell a).inGroup)
      ∧ ∃ calls s1, shiftMove dp c = .ok calls s1
        ∧ (a ∈ calls.map Prod.fst ↔ (dp.cell c).inGroup = (dp.cell a).inGroup)
        ∧ ((dp.cell c).inGroup = (dp.cell a).inGroup ∨ s1.cell a = dp.cell a) := by
  obtain ⟨e1, e2, e3, e4, e5⟩ := shiftErase_spec c (shiftRegionCells dp c grid_pt) dp
  obtain ⟨halt, hfa⟩ := shiftRegionCells_mem dp c grid_pt a ha
  obtain ⟨calls, s1, h1, h2, h3, h4, h5⟩ := shiftMove_spec dp c grid_pt hpt
  refine ⟨⟨fun h => ?_, fun h => e4 a ha halt hfa h⟩, calls, s1, h1,
    ⟨fun h => ?_, fun h => ?_⟩, ?_⟩
  · by_contra hne
    rw [e5 a (fun _ => hne), hplaced] at h
    cases h
  · rw [h2] at h
    rcases List.mem_cons.1 h with rfl | h
    · rfl
    · unfold shiftErased at h
      rw [List.mem_filter] at h
      exact beq_iff_eq.1 h.2
  · rw [h2]
    apply List.mem_cons_of_mem
    unfold shiftErased
    rw [List.mem_filter]
    exact ⟨ha, beq_iff_eq.2 h⟩
  · by_cases h : (dp.cell c).inGroup = (dp.cell a).inGroup
    · exact Or.inl h
    · exact Or.inr (h5 a ha h)


/-! ## Refinement: the parts that hold -/

/-- A `refineMove` that returns false leaves the state as it is, and one that
returns true has found a point within the displacement limits of the legal
start point. -/
theorem refineMove_false_or_within_budget (dp : Opendp) (c : Nat) (flag : Bool) (s1 : Opendp)
    (h : refineMove dp c = .ok flag s1) :
    (flag = false ∧ s1 = dp)
      ∨ (flag = true ∧ ∃ (grid_pt pt : Point),
          legalGridPtInit dp (dp.cell c) true (getRowHeight dp (dp.cell c))
              (getSiteWidth dp (dp.cell c)) = .ok grid_pt
            ∧ s1 = paintPixel (erasePixel dp c) c pt.x pt.y
            ∧ iabs (grid_pt.x - pt.x) ≤ dp.max_displacement_x_
            ∧ iabs (grid_pt.y - pt.y) ≤ scaledMaxDisplacementY dp (dp.cell c)) := by
  unfold refineMove at h
  dsimp only at h
  cases hl : legalGridPtInit dp (dp.cell c) true (getRowHeight dp (dp.cell c))
      (getSiteWidth dp (dp.cell c)) with
  | error e =>
    rw [hl] at h
    cases h
  | ok grid_pt =>
    rw [hl] at h
    dsimp only at h
    split at h
    · split at h
      · cases h
        exact Or.inl ⟨rfl, rfl⟩
      · rename_i hb
        split at h
        · cases h
          refine Or.inr ⟨rfl, grid_pt, _, rfl, rfl, ?_, ?_⟩
          · by_contra hc
            exact hb (Or.inl (by omega))
          · by_contra hc
            exact hb (Or.inr (by unfold scaledMaxDisplacementY at hc; omega))
        · cases h
          exact Or.inl ⟨rfl, rfl⟩
    · cases h
      exact Or.inl ⟨rfl, rfl⟩

/-! ## Nearest point: out of a region, into a region -/

/-- C21: when the initial footprint of the cell overlaps the rectangle, the
footprint at the point `nearestPt` returns does not overlap the interior of the
rectangle. -/
theorem nearestPt_outside_of_overlap (dp : Opendp) (cell : Cell) (rect : Rect)
    (h : checkOverlap dp cell rect = true) :
    ¬ overlapsAt cell (nearestPt dp cell rect) rect := by
  unfold nearestPt
  dsimp only
  rw [if_pos h]
  unfold overlapsAt
  split <;> split <;> split <;> dsimp only <;> omega

/-- C21 on `flatCell`: the point returned is (-500, 10). -/
theorem nearestPt_outside_of_overlap_witness :
    checkOverlap {} flatCell ⟨0, 0, 1000, 1000⟩ = true
      ∧ ¬ overlapsAt flatCell (nearestPt {} flatCell ⟨0, 0, 1000, 1000⟩) ⟨0, 0, 1000, 1000⟩ :=
  ⟨by decide, nearestPt_outside_of_overlap {} flatCell ⟨0, 0, 1000, 1000⟩ (by decide)⟩

/-- A cell that fits the rectangle and whose initial footprint does not overlap it
is put inside the rectangle by `nearestPt`. -/
theorem nearestPt_inside_of_no_overlap (dp : Opendp) (cell : Cell) (rect : Rect)
    (hw : cell.width_ ≤ rect.xMax - rect.xMin) (hh : cell.height_ ≤ rect.yMax - rect.yMin)
    (h : checkOverlap dp cell rect = false) :
    insideAt cell (nearestPt dp cell rect) rect := by
  unfold nearestPt
  dsimp only
  rw [if_neg (by rw [h]; decide)]
  unfold insideAt
  dsimp only
  split_ifs <;> omega

/-- C22 fails on `edgeCell` and the rectangle [0, 1000] x [0, 1000]: the cell fits
the rectangle and its initial footprint at (-100, 500) is not inside it, and
`nearestPt` returns (-200, 500), where the footprint lies left of the rectangle
and not inside it.  The footprint overlaps the rectangle, so `nearestPt` takes
its branch that pushes the cell out. -/
theorem nearestPt_pushes_overlapping_cell_out :
    edgeCell.width_ ≤ 1000 - 0 ∧ edgeCell.height_ ≤ 1000 - 0
      ∧ isInside {} edgeCell ⟨0, 0, 1000, 1000⟩ = false
      ∧ checkOverlap {} edgeCell ⟨0, 0, 1000, 1000⟩ = true
      ∧ nearestPt {} edgeCell ⟨0, 0, 1000, 1000⟩ = ⟨-200, 500⟩
      ∧ ¬ insideAt edgeCell (nearestPt {} edgeCell ⟨0, 0, 1000, 1000⟩) ⟨0, 0, 1000, 1000⟩ := by
  decide

/-! ## The one-site-gap rule -/

/-- C25 fails on `gapRowGrid`: for the footprint of one site at site 3 of row 1 the
site 2 of that row is empty and the site 1 is occupied, and `checkPixels`
returns true with the rule on.  The corner tests look at the rows y - 1 and
y_end, here the rows 0 and 2, not at the rows of the footprint; in the rows 0
and 2, where no cell is near, the same footprint is rejected. -/
theorem checkPixels_misses_gap_in_footprint_row :
    gapRowGrid.disallow_one_site_gaps_ = true
      ∧ (gridPixel gapRowGrid 0 2 1).bind (fun p => p.cell) = none
      ∧ (gridPixel gapRowGrid 0 1 1).bind (fun p => p.cell) = some 1
      ∧ checkPixels gapRowGrid (gapRowGrid.cell 0) 3 1 4 2 = true
      ∧ checkPixels gapRowGrid (gapRowGrid.cell 0) 3 0 4 1 = false
      ∧ checkPixels gapRowGrid (gapRowGrid.cell 0) 3 2 4 3 = false := by
  decide

/-! ## Padding and master types -/

/-- C26 fails for the type ENDCAP: with one site of left padding an ENDCAP cell is
padded, and `isStdCell` is false for it. -/
theorem isPadded_endcap_not_stdCell :
    isPadded { pad_left_ := 1 } endcapCell = true ∧ isPaddedType endcapCell = true
      ∧ isStdCell endcapCell = false := by
  decide

/-- C26, amended: a padded cell is a standard cell or has one of the master types
ENDCAP, ENDCAP_PRE and ENDCAP_POST; and each of these three types is a padded
type that is not a standard cell. -/
theorem isPadded_stdCell_or_endcap (dp : Opendp) (cell : Cell) :
    (isPadded dp cell = false ∨ isStdCell cell = true
        ∨ cell.master_type = dbMasterType.ENDCAP ∨ cell.master_type = dbMasterType.ENDCAP_PRE
        ∨ cell.master_type = dbMasterType.ENDCAP_POST)
      ∧ (isPaddedType cell = true ↔
          (isStdCell cell = true ∧ cell.master_type ≠ dbMasterType.CORE_SPACER)
            ∨ cell.master_type = dbMasterType.ENDCAP
            ∨ cell.master_type = dbMasterType.ENDCAP_PRE
            ∨ cell.master_type = dbMasterType.ENDCAP_POST) := by
  unfold isPadded isPaddedType isStdCell
  cases cell.master_type <;> simp

/-! ## Division toward zero -/

/-- For a coordinate that is not negative and a positive divisor `divFloor` is the
floor of the quotient. -/
theorem divFloor_eq_floor_of_nonneg (x d : Int) (hx : 0 ≤ x) (hd : 0 < d) :
    divFloor x d = mathFloor x d := by
  unfold divFloor cdiv mathFloor
  rw [Int.tdiv_eq_ediv hx (le_of_lt hd)]
  obtain ⟨n, rfl⟩ := Int.eq_ofNat_of_zero_le (le_of_lt hd)
  exact (Rat.floor_intCast_div_natCast x n).symm

/-- C27 fails at x = -1 with the divisor 200: the floor of -1/200 is -1, and
`divFloor`, `gridX` and `gridY` (site width and row height 200) return 0: the
division of C++ ints truncates toward zero. -/
theorem divFloor_truncates_negative :
    mathFloor (-1) 200 = -1
      ∧ divFloor (-1) 200 = 0
      ∧ gridX { site_width_ := 200 } (-1) = 0
      ∧ gridY { row_height_ := 200 } (-1) = 0 := by
  refine ⟨?_, by decide, by decide, by decide⟩
  unfold mathFloor
  rw [Int.floor_eq_iff]
  norm_num

/-! ## Rows -/

theorem cmod_two_of_nonneg (r : Int) (h : 0 ≤ r) : cmod r 2 = r % 2 := by
  unfold cmod
  exact Int.tmod_eq_emod h (by decide)

/-- C28: for a row r that is not negative, `rowOrient` is R0 exactly when the parity
of r matches the configuration (r even with `row0_orient_is_r0_`, r odd
without) and MX otherwise, so the rows r and r + 1 differ; and `rowTopPower` is
VDD exactly when the parity of r matches `row0_top_power_is_vdd_` and VSS
otherwise. -/
theorem rowOrient_rowTopPower_parity (dp : Opendp) (r : Int) (h : 0 ≤ r) :
    (rowOrient dp r = dbOrientType.R0 ↔
        (dp.row0_orient_is_r0_ = true ∧ r % 2 = 0) ∨ (dp.row0_orient_is_r0_ = false ∧ r % 2 = 1))
      ∧ (rowOrient dp r = dbOrientType.R0 ∨ rowOrient dp r = dbOrientType.MX)
      ∧ rowOrient dp (r + 1) ≠ rowOrient dp r
      ∧ (rowTopPower dp r = Power.VDD ↔
          (dp.row0_top_power_is_vdd_ = true ∧ r % 2 = 0)
            ∨ (dp.row0_top_power_is_vdd_ = false ∧ r % 2 = 1))
      ∧ (rowTopPower dp r = Power.VDD ∨ rowTopPower dp r = Power.VSS)
      ∧ rowTopPower dp (r + 1) ≠ rowTopPower dp r := by
  have e0 := cmod_two_of_nonneg r h
  have e1 := cmod_two_of_nonneg (r + 1) (by omega)
  have e2 := cmod_two_of_nonneg (r + 1 + 1) (by omega)
  unfold rowOrient rowTopPower
  rcases Int.emod_two_eq_zero_or_one r with h0 | h0
  · have h1 : (r + 1) % 2 = 1 := by omega
    have h2 : (r + 1 + 1) % 2 = 0 := by omega
    rw [h0] at e0
    rw [h1] at e1
    rw [h2] at e2
    cases dp.row0_orient_is_r0_ <;> cases dp.row0_top_power_is_vdd_ <;>
      simp [e0, e1, e2, h0]
  · have h1 : (r + 1) % 2 = 0 := by omega
    have h2 : (r + 1 + 1) % 2 = 1 := by omega
    rw [h0] at e0
    rw [h1] at e1
    rw [h2] at e2
    cases dp.row0_orient_is_r0_ <;> cases dp.row0_top_power_is_vdd_ <;>
      simp [e0, e1, e2, h0]

/-- C28 at row 3 of a placer with the default configuration: the row is MX, its top
power VSS. -/
theorem rowOrient_rowTopPower_parity_witness :
    (0 : Int) ≤ 3
      ∧ rowOrient {} 3 = dbOrientType.MX ∧ rowTopPower {} 3 = Power.VSS
      ∧ rowOrient {} (3 + 1) ≠ rowOrient {} 3 :=
  ⟨by decide, by decide, by decide,
   (rowOrient_rowTopPower_parity {} 3 (by decide)).2.2.1⟩

/-! ## The placement order -/

theorem strcmpLt_iff_nameLt (n1 n2 : List Nat) : strcmpLt n1 n2 = true ↔ nameLt n1 n2 := by
  unfold nameLt
  induction n1 generalizing n2 with
  | nil =>
    cases n2 with
    | nil =>
      constructor
      · intro h
        cases h
      · intro h
        cases h
    | cons b bs => exact ⟨fun _ => List.Lex.nil, fun _ => rfl⟩
  | cons a as ih =>
    cases n2 with
    | nil =>
      constructor
      · intro h
        cases h
      · intro h
        cases h
    | cons b bs =>
      unfold strcmpLt
      rw [Bool.or_eq_true, Bool.and_eq_true, decide_eq_true_iff, decide_eq_true_iff, ih bs]
      constructor
      · rintro (h | ⟨rfl, h⟩)
        · exact List.Lex.rel h
        · exact List.Lex.cons h
      · intro h
        cases h with
        | rel h => exact Or.inl h
        | cons h => exact Or.inr ⟨rfl, h⟩

theorem nameLt_irrefl (n : List Nat) : ¬ nameLt n n :=
  irrefl_of (List.Lex (fun a b : Nat => a < b)) n

theorem nameLt_trans (n1 n2 n3 : List Nat) (h12 : nameLt n1 n2) (h23 : nameLt n2 n3) :
    nameLt n1 n3 :=
  trans_of (List.Lex (fun a b : Nat => a < b)) h12 h23

theorem nameLt_total (n1 n2 : List Nat) (h : n1 ≠ n2) : nameLt n1 n2 ∨ nameLt n2 n1 := by
  rcases trichotomous_of (List.Lex (fun a b : Nat => a < b)) n1 n2 with h1 | h1 | h1
  · exact Or.inl h1
  · exact absurd h1 h
  · exact Or.inr h1

/-- What `CellPlaceOrderLess` compares: the larger area first, then the smaller
distance to the center of the core, then the smaller name. -/
theorem cellPlaceOrderLess_iff (dp : Opendp) (a b : Cell) :
    cellPlaceOrderLess dp a b = true ↔
      a.area > b.area
        ∨ (a.area = b.area
            ∧ (centerDist dp a < centerDist dp b
                ∨ (centerDist dp a = centerDist dp b ∧ nameLt a.inst_name b.inst_name))) := by
  unfold cellPlaceOrderLess
  simp only [Bool.or_eq_true, Bool.and_eq_true, decide_eq_true_iff, strcmpLt_iff_nameLt]

theorem cellPlaceOrderLess_irrefl (dp : Opendp) (a : Cell) : cellPlaceOrderLess dp a a = false := by
  cases h : cellPlaceOrderLess dp a a with
  | false => rfl
  | true =>
    rw [cellPlaceOrderLess_iff] at h
    rcases h with h | ⟨-, h | ⟨-, h⟩⟩
    · omega
    · omega
    · exact absurd h (nameLt_irrefl _)

theorem cellPlaceOrderLess_trans (dp : Opendp) (a b c : Cell)
    (hab : cellPlaceOrderLess dp a b = true) (hbc : cellPlaceOrderLess dp b c = true) :
    cellPlaceOrderLess dp a c = true := by
  rw [cellPlaceOrderLess_iff] at hab hbc ⊢
  rcases hab with h1 | ⟨e1, h1 | ⟨d1, h1⟩⟩ <;> rcases hbc with h2 | ⟨e2, h2 | ⟨d2, h2⟩⟩
  · exact Or.inl (by omega)
  · exact Or.inl (by omega)
  · exact Or.inl (by omega)
  · exact Or.inl (by omega)
  · exact Or.inr ⟨by omega, Or.inl (by omega)⟩
  · exact Or.inr ⟨by omega, Or.inl (by omega)⟩
  · exact Or.inl (by omega)
  · exact Or.inr ⟨by omega, Or.inl (by omega)⟩
  · exact Or.inr ⟨by omega, Or.inr ⟨by omega, nameLt_trans _ _ _ h1 h2⟩⟩

theorem cellPlaceOrderLess_total (dp : Opendp) (a b : Cell) (h : a.inst_name ≠ b.inst_name) :
    cellPlaceOrderLess dp a b = true ∨ cellPlaceOrderLess dp b a = true := by
  rw [cellPlaceOrderLess_iff, cellPlaceOrderLess_iff]
  rcases lt_trichotomy a.area b.area with h1 | h1 | h1
  · exact Or.inr (Or.inl h1)
  · rcases lt_trichotomy (centerDist dp a) (centerDist dp b) with h2 | h2 | h2
    · exact Or.inl (Or.inr ⟨h1, Or.inl h2⟩)
    · rcases nameLt_total _ _ h with h3 | h3
      · exact Or.inl (Or.inr ⟨h1, Or.inr ⟨h2, h3⟩⟩)
      · exact Or.inr (Or.inr ⟨h1.symm, Or.inr ⟨h2.symm, h3⟩⟩)
    · exact Or.inr (Or.inr ⟨h1.symm, Or.inl h2⟩)
  · exact Or.inl (Or.inl h1)

theorem cellPlaceOrderLess_asymm (dp : Opendp) (a b : Cell)
    (hab : cellPlaceOrderLess dp a b = true) : cellPlaceOrderLess dp b a = false := by
  cases h : cellPlaceOrderLess dp b a with
  | false => rfl
  | true =>
    have := cellPlaceOrderLess_trans dp a b a hab h
    rw [cellPlaceOrderLess_irrefl] at this
    cases this

/-- A list of cells with distinct names in which no cell is less than its
predecessor has every cell less than all the cells after it. -/
theorem sorted_of_chain (dp : Opendp) (l : List Cell)
    (hn : l.Pairwise (fun a b => a.inst_name ≠ b.inst_name))
    (hc : l.Chain' (fun a b => cellPlaceOrderLess dp b a = false)) :
    l.Pairwise (fun a b => cellPlaceOrderLess dp a b = true) := by
  induction l with
  | nil => exact List.Pairwise.nil
  | cons a rest ih =>
    have hrest := ih (List.Pairwise.of_cons hn) (List.Chain'.tail hc)
    refine List.Pairwise.cons ?_ hrest
    cases rest with
    | nil =>
      intro b hb
      cases hb
    | cons b0 rest1 =>
      have hab0 : cellPlaceOrderLess dp a b0 = true := by
        have hne : a.inst_name ≠ b0.inst_name := List.rel_of_pairwise_cons hn (List.mem_cons_self _ _)
        have hnot : cellPlaceOrderLess dp b0 a = false := (List.chain'_cons.1 hc).1
        rcases cellPlaceOrderLess_total dp a b0 hne with h | h
        · exact h
        · rw [hnot] at h
          cases h
      intro b hb
      rcases List.mem_cons.1 hb with rfl | hb1
      · exact hab0
      · exact cellPlaceOrderLess_trans dp a b0 b hab0 (List.rel_of_pairwise_cons hrest hb1)

theorem sorted_unique (dp : Opendp) (l1 l2 : List Cell) (hp : l1.Perm l2)
    (hn : (l1.map fun c => c.inst_name).Nodup)
    (h1 : l1.Chain' (fun a b => cellPlaceOrderLess dp b a = false))
    (h2 : l2.Chain' (fun a b => cellPlaceOrderLess dp b a = false)) : l1 = l2 := by
  have hn1 : l1.Pairwise (fun a b => a.inst_name ≠ b.inst_name) := by
    unfold List.Nodup at hn
    rw [List.pairwise_map] at hn
    exact hn
  have hn2 : l2.Pairwise (fun a b => a.inst_name ≠ b.inst_name) :=
    hp.pairwise hn1 (by intro x y h; exact h.symm)
  haveI : IsAntisymm Cell (fun a b => cellPlaceOrderLess dp a b = true) :=
    ⟨fun a b hab hba => by
      rw [cellPlaceOrderLess_asymm dp a b hab] at hba
      cases hba⟩
  exact List.eq_of_perm_of_sorted hp (sorted_of_chain dp l1 hn1 h1) (sorted_of_chain dp l2 hn2 h2)

/-- C23 fails for the cells `cellNamedA` and `cellNamedB`, of equal area and equal
distance to the center: the code puts the cell with the name `a` first, and its
key (area, -center_distance, name) is the smaller one; the key of the cell with
the name `b` is the greater one, and the code does not put it first. -/
theorem cellPlaceOrderLess_smaller_name_first :
    cellNamedA.area = cellNamedB.area
      ∧ centerDist {} cellNamedA = centerDist {} cellNamedB
      ∧ cellPlaceOrderLess {} cellNamedA cellNamedB = true
      ∧ ¬ orderKeyGreater {} cellNamedA cellNamedB
      ∧ orderKeyGreater {} cellNamedB cellNamedA
      ∧ cellPlaceOrderLess {} cellNamedB cellNamedA = false := by
  have ha : cellNamedA.area = cellNamedB.area := by decide
  have hd : centerDist {} cellNamedA = centerDist {} cellNamedB := by decide
  have hlt : nameLt cellNamedA.inst_name cellNamedB.inst_name :=
    (strcmpLt_iff_nameLt _ _).1 (by decide)
  have hnot : ¬ nameLt cellNamedB.inst_name cellNamedA.inst_name := fun h =>
    nameLt_irrefl _ (nameLt_trans _ _ _ hlt h)
  refine ⟨ha, hd, by decide, ?_, ?_, by decide⟩
  · unfold orderKeyGreater
    rintro (h | ⟨-, h | ⟨-, h⟩⟩)
    · omega
    · omega
    · exact hnot h
  · unfold orderKeyGreater
    exact Or.inr ⟨ha.symm, Or.inr ⟨by omega, hlt⟩⟩

/-- C23, amended: the order puts the cell a before the cell b exactly when a has
the larger area; or, the areas being equal, the smaller L1 distance to the
center of the core; or, area and distance being equal, the name that is
lexicographically smaller. -/
theorem cellPlaceOrderLess_iff_area_dist_name (dp : Opendp) (a b : Cell) :
    cellPlaceOrderLess dp a b = true ↔
      a.area > b.area
        ∨ (a.area = b.area
            ∧ (centerDist dp a < centerDist dp b
                ∨ (centerDist dp a = centerDist dp b ∧ nameLt a.inst_name b.inst_name))) :=
  cellPlaceOrderLess_iff dp a b

/-- C24: `CellPlaceOrderLess` is irreflexive and transitive, and of two cells with
different names exactly one is less than the other; so two orders of the same
cells, with pairwise distinct names, in which no cell is less than its
predecessor are the same order. -/
theorem cellPlaceOrderLess_strict_total (dp : Opendp) :
    (∀ a, cellPlaceOrderLess dp a a = false)
      ∧ (∀ a b c, cellPlaceOrderLess dp a b = true → cellPlaceOrderLess dp b c = true →
          cellPlaceOrderLess dp a c = true)
      ∧ (∀ a b : Cell, a.inst_name ≠ b.inst_name →
          (cellPlaceOrderLess dp a b = true ∧ cellPlaceOrderLess dp b a = false)
            ∨ (cellPlaceOrderLess dp a b = false ∧ cellPlaceOrderLess dp b a = true))
      ∧ (∀ l1 l2 : List Cell, l1.Perm l2 → (l1.map fun c => c.inst_name).Nodup →
          l1.Chain' (fun a b => cellPlaceOrderLess dp b a = false) →
          l2.Chain' (fun a b => cellPlaceOrderLess dp b a = false) → l1 = l2) := by
  refine ⟨cellPlaceOrderLess_irrefl dp, cellPlaceOrderLess_trans dp, ?_, sorted_unique dp⟩
  intro a b h
  rcases cellPlaceOrderLess_total dp a b h with h1 | h1
  · exact Or.inl ⟨h1, cellPlaceOrderLess_asymm dp a b h1⟩
  · exact Or.inr ⟨cellPlaceOrderLess_asymm dp b a h1, h1⟩

/-! ## The refinement passes of a group -/

/-- The passes of the loop with `left` passes to go: when it returns, at most
`left` passes ran, and at least one if `left` is positive; every pass but the
last one reached 10 refines and 100 swaps; and if fewer than `left` passes ran,
the last one did not reach them. -/
theorem groupPasses_spec (g : Nat) (rand : Nat → Nat) (left : Nat) (dp : Opendp)
    (passes : List (Nat × Nat))
    (h : (groupPasses g rand left dp).value? = some passes) :
    passes.length ≤ left
      ∧ (0 < left → 1 ≤ passes.length)
      ∧ (∀ k, k + 1 < passes.length →
          10 ≤ (passes.getD k (0, 0)).1 ∧ 100 ≤ (passes.getD k (0, 0)).2)
      ∧ (passes.length < left →
          (passes.getD (passes.length - 1) (0, 0)).1 < 10
            ∨ (passes.getD (passes.length - 1) (0, 0)).2 < 100) := by
  induction left generalizing dp passes with
  | zero =>
    unfold groupPasses at h
    cases h
    refine ⟨le_refl _, fun h0 => absurd h0 (by decide), ?_, ?_⟩
    · intro k hk
      cases hk
    · intro hk
      cases hk
  | succ n ih =>
    unfold groupPasses at h
    cases hr : groupRefine dp g with
    | fatal id s =>
      rw [hr] at h
      cases h
    | ok refine_count s =>
      rw [hr] at h
      dsimp only at h
      by_cases hb : refine_count < 10 ∨ (anneal s g rand).1 < 100
      · rw [if_pos hb] at h
        cases h
        refine ⟨by simp, fun _ => by simp, ?_, fun _ => hb⟩
        intro k hk
        simp at hk
      · rw [if_neg hb] at h
        cases hn : groupPasses g rand n (anneal s g rand).2 with
        | fatal id s2 =>
          rw [hn] at h
          cases h
        | ok rest s2 =>
          rw [hn] at h
          cases h
          obtain ⟨i1, i2, i3, i4⟩ := ih (anneal s g rand).2 rest (by rw [hn]; rfl)
          have hge : 10 ≤ refine_count ∧ 100 ≤ (anneal s g rand).1 := by omega
          refine ⟨by simp; omega, fun _ => by simp, ?_, ?_⟩
          · intro k hk
            cases k with
            | zero => exact hge
            | succ k =>
              rw [List.getD_cons_succ]
              exact i3 k (by simp at hk; omega)
          · intro hk
            have hlen : rest.length < n := by simp at hk; omega
            have hpos : 1 ≤ rest.length := i2 (by omega)
            have hidx : (((refine_count, (anneal s g rand).1) :: rest).length - 1)
                = (rest.length - 1) + 1 := by simp; omega
            rw [hidx, List.getD_cons_succ]
            exact i4 hlen

/-- C29: when the refinement loop of `placeGroups` for a group returns, at least one
and at most three passes of `groupRefine` and `anneal` ran; every pass that was
followed by another one produced at least 10 refines and at least 100 accepted
swaps; and if fewer than three passes ran, the last one produced fewer than 10
refines or fewer than 100 swaps. -/
theorem placeGroups_passes_one_to_three (dp : Opendp) (g : Nat) (rand : Nat → Nat)
    (passes : List (Nat × Nat))
    (h : (placeGroupPasses dp g rand).value? = some passes) :
    1 ≤ passes.length ∧ passes.length ≤ 3
      ∧ (∀ k, k + 1 < passes.length →
          10 ≤ (passes.getD k (0, 0)).1 ∧ 100 ≤ (passes.getD k (0, 0)).2)
      ∧ (passes.length < 3 →
          (passes.getD (passes.length - 1) (0, 0)).1 < 10
            ∨ (passes.getD (passes.length - 1) (0, 0)).2 < 100) := by
  obtain ⟨h1, h2, h3, h4⟩ := groupPasses_spec g rand 3 dp passes h
  exact ⟨h2 (by decide), h1, h3, h4⟩

set_option maxRecDepth 100000 in
/-- C29 on `annealRefine`, group 0, with the random values 0, 1, 0, 0, ...: one pass
runs, with 2 refines and no swap. -/
theorem placeGroups_passes_one_to_three_witness :
    (placeGroupPasses annealRefine 0 (fun k => if k = 1 then 1 else 0)).value? = some [(2, 0)]
      ∧ 1 ≤ [((2 : Nat), (0 : Nat))].length ∧ [((2 : Nat), (0 : Nat))].length ≤ 3 :=
  ⟨by decide,
   (placeGroups_passes_one_to_three annealRefine 0 (fun k => if k = 1 then 1 else 0) [(2, 0)]
      (by decide)).1,
   (placeGroups_passes_one_to_three annealRefine 0 (fun k => if k = 1 then 1 else 0) [(2, 0)]
      (by decide)).2.1⟩

/-! ## The offsets of a radius of the diamond search -/

theorem foldl_filterMap_step {α β γ : Type} (g : α → Option β) (f : γ → β → γ)
    (step : γ → α → γ)
    (hstep : ∀ b a, step b a = match g a with
      | some o => f b o
      | none => b)
    (l : List α) (init : γ) :
    l.foldl step init = (l.filterMap g).foldl f init := by
  induction l generalizing init with
  | nil => rfl
  | cons a rest ih =>
    rw [List.foldl_cons, ih, hstep]
    cases hg : g a with
    | none => rw [List.filterMap_cons_none hg]
    | some o => rw [List.filterMap_cons_some hg, List.foldl_cons]

/-- The loops of a radius of `diamondSearch` call `diamondSearchSide` with the
offsets of `leftOffsets` and then those of `rightOffsets`, in order. -/
theorem diamondRadius_eq_foldl (dp : Opendp) (cell : Cell) (x y : Int) (lim : SearchLimits)
    (i : Int) :
    diamondRadius dp cell x y lim i
      = (leftOffsets dp cell i ++ rightOffsets dp cell i).foldl
          (fun best o => diamondSearchSide dp cell x y lim o.1 o.2 best) (PixelPt.none, 0) := by
  unfold diamondRadius
  dsimp only
  rw [List.foldl_append]
  unfold leftOffsets rightOffsets
  rw [← foldl_filterMap_step _ _ (diamondLeftStep dp cell x y lim i) _ (intRange 1 (i * 2)),
    ← foldl_filterMap_step _ _ (diamondRightStep dp cell x y lim i) _
      (intRange 1 ((i + 1) * 2))]
  · intro b j
    unfold diamondRightStep
    dsimp only
    split_ifs <;> rfl
  · intro b j
    unfold diamondLeftStep
    dsimp only
    split_ifs <;> rfl

theorem iabs_eq_abs (a : Int) : iabs a = |a| := by
  unfold iabs
  split
  · rw [abs_of_neg (by assumption)]
  · rw [abs_of_nonneg (by omega)]

theorem abs_wingSign_mul (j f : Int) : |wingSign j * f| = |f| := by
  unfold wingSign
  split <;> simp

theorem filterMap_eq_filter_map {α β : Type} (g : α → Option β) (f : α → β) (p : β → Bool)
    (l : List α) (h : ∀ a ∈ l, g a = if p (f a) = true then some (f a) else none) :
    l.filterMap g = (l.map f).filter p := by
  induction l with
  | nil => rfl
  | cons a rest ih =>
    have ha := h a (List.mem_cons_self _ _)
    have hrest := ih (fun b hb => h b (List.mem_cons_of_mem _ hb))
    rw [List.map_cons]
    by_cases hp : p (f a) = true
    · rw [if_pos hp] at ha
      rw [List.filterMap_cons_some ha, List.filter_cons_of_pos hp, hrest]
    · rw [if_neg hp] at ha
      rw [List.filterMap_cons_none ha, List.filter_cons_of_neg hp, hrest]

theorem leftOffsets_eq (dp : Opendp) (cell : Cell) (i : Int) :
    leftOffsets dp cell i
      = ((intRange 1 (2 * i)).map
          (fun j => (-(ceilHalf j), wingSign j * floorHalf (2 * i - j)))).filter
          (fun o => decide (|o.1| < dp.max_displacement_x_)
            && decide (|o.2| < scaledMaxDisplacementY dp cell)) := by
  unfold leftOffsets
  rw [mul_comm i 2]
  apply filterMap_eq_filter_map
  intro j hj
  rw [mem_intRange] at hj
  have hx : cdiv (j + 1) 2 = ceilHalf j := by
    unfold cdiv ceilHalf
    rw [Int.tdiv_eq_ediv (by omega) (by decide), Int.fdiv_eq_ediv _ (by decide)]
    omega
  have hy : cdiv (2 * i - j) 2 = floorHalf (2 * i - j) := by
    unfold cdiv floorHalf
    rw [Int.tdiv_eq_ediv (by omega) (by decide), Int.fdiv_eq_ediv _ (by decide)]
  have hm : cmod j 2 = j % 2 := cmod_two_of_nonneg j (by omega)
  dsimp only
  rw [hx, hy, hm, iabs_eq_abs, iabs_eq_abs, abs_wingSign_mul]
  have hs : (if j % 2 = 1 then -floorHalf (2 * i - j) else floorHalf (2 * i - j))
      = wingSign j * floorHalf (2 * i - j) := by
    unfold wingSign
    split <;> simp
  rw [hs]
  simp only [Bool.and_eq_true, decide_eq_true_iff]

theorem rightOffsets_eq (dp : Opendp) (cell : Cell) (i : Int) :
    rightOffsets dp cell i
      = ((intRange 1 (2 * (i + 1))).map
          (fun j => (floorHalf (j - 1), wingSign j * floorHalf (2 * (i + 1) - j)))).filter
          (fun o => decide (|o.1| < dp.max_displacement_x_)
            && decide (|o.2| < scaledMaxDisplacementY dp cell)) := by
  unfold rightOffsets
  rw [mul_comm (i + 1) 2]
  apply filterMap_eq_filter_map
  intro j hj
  rw [mem_intRange] at hj
  have hx : cdiv (j - 1) 2 = floorHalf (j - 1) := by
    unfold cdiv floorHalf
    rw [Int.tdiv_eq_ediv (by omega) (by decide), Int.fdiv_eq_ediv _ (by decide)]
  have hy : cdiv (2 * (i + 1) - j) 2 = floorHalf (2 * (i + 1) - j) := by
    unfold cdiv floorHalf
    rw [Int.tdiv_eq_ediv (by omega) (by decide), Int.fdiv_eq_ediv _ (by decide)]
  have hm : cmod j 2 = j % 2 := cmod_two_of_nonneg j (by omega)
  dsimp only
  rw [hx, hy, hm, iabs_eq_abs, iabs_eq_abs, abs_wingSign_mul]
  have hs : (if j % 2 = 1 then -floorHalf (2 * (i + 1) - j) else floorHalf (2 * (i + 1) - j))
      = wingSign j * floorHalf (2 * (i + 1) - j) := by
    unfold wingSign
    split <;> simp
  rw [hs]
  simp only [Bool.and_eq_true, decide_eq_true_iff]

/-- C30 fails at radius 1.  On `mixedPadBase` (limits 8 sites and 2 rows) the code
examines the offsets (-1, 0), (0, -1), (0, 1), (1, 0): in the right wing the
column offsets are 0, 0, 1, those of the spec are 0, 1, 1, so the code examines
(0, 1), straight above the start, where the spec has (1, 1).  On
`rowWithBlock 2 4 2 1` (limits 2 sites and 1 row) the code examines (-1, 0)
and (1, 0) only: the offsets with a row offset of 1 are skipped. -/
theorem diamond_offsets_differ_from_spec :
    leftOffsets mixedPadBase (mixedPadBase.cell 0) 1
        ++ rightOffsets mixedPadBase (mixedPadBase.cell 0) 1
        = [(-1, 0), (0, -1), (0, 1), (1, 0)]
      ∧ specOffsets 1 = [(-1, 0), (0, 1), (1, 1), (1, 0)]
      ∧ leftOffsets (rowWithBlock 2 4 2 1) ((rowWithBlock 2 4 2 1).cell 0) 1
          ++ rightOffsets (rowWithBlock 2 4 2 1) ((rowWithBlock 2 4 2 1).cell 0) 1
          = [(-1, 0), (1, 0)] := by
  decide

/-- C30, amended: at radius i the diamond search calls `diamondSearchSide` with
exactly these offsets, in this order: left wing, for j = 1 .. 2i - 1, column
offset -ceil(j/2) and row offset floor((2i - j)/2), negated for odd j; then
right wing, for j = 1 .. 2(i + 1) - 1, column offset floor((j - 1)/2) and row
offset floor((2(i + 1) - j)/2), negated for odd j; of these, only the offsets
whose column offset is below `max_displacement_x_` and whose row offset is
below the scaled `max_displacement_y_` in absolute value. -/
theorem diamondRadius_examines_wingOffsets (dp : Opendp) (cell : Cell) (x y : Int)
    (lim : SearchLimits) (i : Int) :
    diamondRadius dp cell x y lim i
      = (wingOffsets dp.max_displacement_x_ (scaledMaxDisplacementY dp cell) i).foldl
          (fun best o => diamondSearchSide dp cell x y lim o.1 o.2 best) (PixelPt.none, 0)
    ∧ leftOffsets dp cell i ++ rightOffsets dp cell i
      = wingOffsets dp.max_displacement_x_ (scaledMaxDisplacementY dp cell) i := by
  have h : leftOffsets dp cell i ++ rightOffsets dp cell i
      = wingOffsets dp.max_displacement_x_ (scaledMaxDisplacementY dp cell) i := by
    unfold wingOffsets
    rw [List.filter_append, leftOffsets_eq, rightOffsets_eq]
  exact ⟨by rw [← h]; exact diamondRadius_eq_foldl dp cell x y lim i, h⟩

/-! ## The scan order of a bin -/

theorem intRange_reverse_pairwise (lo hi : Int) : (intRange lo hi).reverse.Pairwise (· > ·) := by
  rw [List.pairwise_reverse]
  exact (intRange_pairwise lo hi).imp (fun h => h)

theorem find?_first_of_sorted_desc (l : List Int) (p : Int → Bool) (i : Int)
    (hs : l.Pairwise (· > ·)) (hf : l.find? p = some i) :
    ∀ j ∈ l, j > i → p j = false := by
  induction l with
  | nil => simp at hf
  | cons a rest ih =>
    rw [List.pairwise_cons] at hs
    intro j hj hlt
    rw [List.find?_cons_eq_some] at hf
    rcases hf with ⟨_, hai⟩ | ⟨hpa, hrest⟩
    · subst hai
      rcases List.mem_cons.mp hj with h | h
      · omega
      · have := hs.1 j h
        omega
    · rcases List.mem_cons.mp hj with h | h
      · subst h
        simpa using hpa
      · exact ih hs.2 hrest j h hlt

/-- A hit of `binSearch` is, of the positions of the bin that pass `checkPixels`,
the rightmost one when x0 is right of the start of the bin and the leftmost
one otherwise. -/
theorem binSearch_hit_order (dp : Opendp) (x0 : Int) (cell : Cell) (bin_x bin_y : Int)
    (h : (binSearch dp x0 cell bin_x bin_y).pixel.isSome) :
    ∃ i, 0 ≤ i ∧ i < dp.bin_search_width_
      ∧ (binSearch dp x0 cell bin_x bin_y).pt = ⟨bin_x + i, bin_y⟩
      ∧ binTest dp cell bin_x bin_y i = true
      ∧ ∀ j, 0 ≤ j → j < dp.bin_search_width_ → binTest dp cell bin_x bin_y j = true →
          (x0 > bin_x → j ≤ i) ∧ (x0 ≤ bin_x → i ≤ j) := by
  obtain ⟨-, i, hf, hpt, -⟩ := binSearch_hit dp x0 cell bin_x bin_y h
  have hmem := (mem_binScan dp x0 bin_x i).1 (List.mem_of_find?_eq_some hf)
  refine ⟨i, hmem.1, hmem.2, hpt, List.find?_some hf, ?_⟩
  intro j hj0 hjw hjt
  have hjmem : j ∈ binScan dp x0 bin_x := (mem_binScan dp x0 bin_x j).2 ⟨hj0, hjw⟩
  constructor
  · intro hx
    by_contra hlt
    have hs : (binScan dp x0 bin_x).Pairwise (· > ·) := by
      unfold binScan
      rw [if_pos hx]
      exact intRange_reverse_pairwise _ _
    have := find?_first_of_sorted_desc _ _ i hs hf j hjmem (by omega)
    rw [hjt] at this
    cases this
  · intro hx
    by_contra hlt
    have hs : (binScan dp x0 bin_x).Pairwise (· < ·) := by
      unfold binScan
      rw [if_neg (by omega)]
      exact intRange_pairwise _ _
    have := find?_first_of_sorted _ _ i hs hf j hjmem (by omega)
    rw [hjt] at this
    cases this

/-- For a footprint of at least one site and one row in a bin whose rows fit the
layer, `binSearch` returns nothing exactly when no position of the bin passes
`checkPixels`. -/
theorem binSearch_none_iff (dp : Opendp) (x0 : Int) (cell : Cell) (bin_x bin_y : Int)
    (hw : 0 < gridPaddedWidth dp cell) (hh : 0 < gridHeightRow cell (getRowHeight dp cell))
    (hy : bin_y + gridHeightRow cell (getRowHeight dp cell)
        ≤ (grid_info_map_ dp (getRowHeight dp cell)).row_count) :
    (binSearch dp x0 cell bin_x bin_y).pixel.isSome = false ↔
      ∀ i, 0 ≤ i → i < dp.bin_search_width_ → binTest dp cell bin_x bin_y i = false := by
  constructor
  · intro h
    rcases binSearch_miss dp x0 cell bin_x bin_y hy h with hall | ⟨i, hi0, hiw, hit, hnone⟩
    · exact hall
    · exfalso
      have hck : checkPixels dp cell (bin_x + i) bin_y (bin_x + i + gridPaddedWidth dp cell)
          (bin_y + gridHeightRow cell (getRowHeight dp cell)) = true := by
        unfold binTest at hit
        rw [show bin_x + i + gridPaddedWidth dp cell = bin_x + gridPaddedWidth dp cell + i by ring]
        exact hit
      have := (checkPixels_in_bounds dp cell (bin_x + i) bin_y hw hh hck).1
      rw [hnone] at this
      cases this
  · intro hall
    cases hs : (binSearch dp x0 cell bin_x bin_y).pixel.isSome with
    | false => rfl
    | true =>
      obtain ⟨i, hi0, hiw, -, hit, -⟩ := binSearch_hit_order dp x0 cell bin_x bin_y hs
      rw [hall i hi0 hiw] at hit
      cases hit

theorem binSearch_rows_do_not_fit (dp : Opendp) (x0 : Int) (cell : Cell) (bin_x bin_y : Int)
    (hy : bin_y + gridHeightRow cell (getRowHeight dp cell)
        > (grid_info_map_ dp (getRowHeight dp cell)).row_count) :
    binSearch dp x0 cell bin_x bin_y = PixelPt.none := by
  rw [binSearch_eq, if_pos hy]

/-- C32 fails on `rowWithBlock 2 4 8 8` for the bin of the sites 1 to 5, in which a
one-site cell fits at the sites 1, 4 and 5: with x0 = 0, left of the bin,
`binSearch` returns site 1, the first position from the left, and with x0 = 5,
right of the start of the bin, it returns site 5, the first from the right. -/
theorem binSearch_scans_toward_target :
    binTest (rowWithBlock 2 4 8 8) ((rowWithBlock 2 4 8 8).cell 0) 1 0 0 = true
      ∧ binTest (rowWithBlock 2 4 8 8) ((rowWithBlock 2 4 8 8).cell 0) 1 0 4 = true
      ∧ (binSearch (rowWithBlock 2 4 8 8) 0 ((rowWithBlock 2 4 8 8).cell 0) 1 0).pixel.isSome
      ∧ (binSearch (rowWithBlock 2 4 8 8) 0 ((rowWithBlock 2 4 8 8).cell 0) 1 0).pt = ⟨1, 0⟩
      ∧ (binSearch (rowWithBlock 2 4 8 8) 5 ((rowWithBlock 2 4 8 8).cell 0) 1 0).pixel.isSome
      ∧ (binSearch (rowWithBlock 2 4 8 8) 5 ((rowWithBlock 2 4 8 8).cell 0) 1 0).pt = ⟨5, 0⟩ := by
  decide

/-- C32, amended: for a footprint of at least one site and one row, `binSearch`
returns nothing when bin_y + gridHeight(cell) > row_count; otherwise it returns
nothing exactly when `checkPixels` holds at none of the positions bin_x ..
bin_x + bin_search_width - 1, and else it returns the first position at which
`checkPixels` holds in the scan from right to left if x0 > bin_x and from left
to right otherwise: the rightmost such position, or the leftmost one. -/
theorem binSearch_first_in_scan_order (dp : Opendp) (x0 : Int) (cell : Cell) (bin_x bin_y : Int)
    (hw : 0 < gridPaddedWidth dp cell) (hh : 0 < gridHeightRow cell (getRowHeight dp cell)) :
    (bin_y + gridHeightRow cell (getRowHeight dp cell)
        > (grid_info_map_ dp (getRowHeight dp cell)).row_count →
      binSearch dp x0 cell bin_x bin_y = PixelPt.none)
    ∧ (bin_y + gridHeightRow cell (getRowHeight dp cell)
        ≤ (grid_info_map_ dp (getRowHeight dp cell)).row_count →
      ((binSearch dp x0 cell bin_x bin_y).pixel.isSome = false ↔
          ∀ i, 0 ≤ i → i < dp.bin_search_width_ → binTest dp cell bin_x bin_y i = false)
        ∧ ((binSearch dp x0 cell bin_x bin_y).pixel.isSome = true →
          ∃ i, 0 ≤ i ∧ i < dp.bin_search_width_
            ∧ (binSearch dp x0 cell bin_x bin_y).pt = ⟨bin_x + i, bin_y⟩
            ∧ binTest dp cell bin_x bin_y i = true
            ∧ ∀ j, 0 ≤ j → j < dp.bin_search_width_ → binTest dp cell bin_x bin_y j = true →
                (x0 > bin_x → j ≤ i) ∧ (x0 ≤ bin_x → i ≤ j))) :=
  ⟨binSearch_rows_do_not_fit dp x0 cell bin_x bin_y,
   fun hy => ⟨binSearch_none_iff dp x0 cell bin_x bin_y hw hh hy,
     binSearch_hit_order dp x0 cell bin_x bin_y⟩⟩

/-- C32, amended, on `rowWithBlock 2 4 8 8`: the bin of the sites 1 to 5 with x0 = 5
has a hit, the rightmost of the positions that pass `checkPixels`. -/
theorem binSearch_first_in_scan_order_witness :
    0 < gridPaddedWidth (rowWithBlock 2 4 8 8) ((rowWithBlock 2 4 8 8).cell 0)
      ∧ 0 < gridHeightRow ((rowWithBlock 2 4 8 8).cell 0)
          (getRowHeight (rowWithBlock 2 4 8 8) ((rowWithBlock 2 4 8 8).cell 0))
      ∧ ∃ i, 0 ≤ i ∧ i < (rowWithBlock 2 4 8 8).bin_search_width_
        ∧ (binSearch (rowWithBlock 2 4 8 8) 5 ((rowWithBlock 2 4 8 8).cell 0) 1 0).pt
            = ⟨1 + i, 0⟩
        ∧ binTest (rowWithBlock 2 4 8 8) ((rowWithBlock 2 4 8 8).cell 0) 1 0 i = true
        ∧ ∀ j, 0 ≤ j → j < (rowWithBlock 2 4 8 8).bin_search_width_ →
            binTest (rowWithBlock 2 4 8 8) ((rowWithBlock 2 4 8 8).cell 0) 1 0 j = true →
            ((5 : Int) > 1 → j ≤ i) ∧ ((5 : Int) ≤ 1 → i ≤ j) :=
  ⟨by decide, by decide,
   ((binSearch_first_in_scan_order (rowWithBlock 2 4 8 8) 5 ((rowWithBlock 2 4 8 8).cell 0) 1 0
      (by decide) (by decide)).2 (by decide)).2 (by decide)⟩

/-- C39: when x0 is not inside the bin (x0 <= bin_x or x0 >= bin_x +
bin_search_width - 1), the position `binSearch` returns is, of the positions of
the bin at which `checkPixels` holds, one that minimises |gx - x0|. -/
theorem binSearch_nearest_of_outside (dp : Opendp) (x0 : Int) (cell : Cell) (bin_x bin_y : Int)
    (hout : x0 ≤ bin_x ∨ x0 ≥ bin_x + dp.bin_search_width_ - 1)
    (h : (binSearch dp x0 cell bin_x bin_y).pixel.isSome) :
    bin_x ≤ (binSearch dp x0 cell bin_x bin_y).pt.x
      ∧ (binSearch dp x0 cell bin_x bin_y).pt.x < bin_x + dp.bin_search_width_
      ∧ binTest dp cell bin_x bin_y ((binSearch dp x0 cell bin_x bin_y).pt.x - bin_x) = true
      ∧ ∀ gx, bin_x ≤ gx → gx < bin_x + dp.bin_search_width_ →
          binTest dp cell bin_x bin_y (gx - bin_x) = true →
          |(binSearch dp x0 cell bin_x bin_y).pt.x - x0| ≤ |gx - x0| := by
  obtain ⟨i, hi0, hiw, hpt, hit, hord⟩ := binSearch_hit_order dp x0 cell bin_x bin_y h
  rw [hpt]
  dsimp only
  refine ⟨by omega, by omega, by rw [show bin_x + i - bin_x = i by ring]; exact hit, ?_⟩
  intro gx h1 h2 hgt
  obtain ⟨o1, o2⟩ := hord (gx - bin_x) (by omega) (by omega) hgt
  by_cases hx : x0 > bin_x
  · have := o1 hx
    rw [abs_of_nonpos (by omega), abs_of_nonpos (by omega)]
    omega
  · have := o2 (by omega)
    rw [abs_of_nonneg (by omega), abs_of_nonneg (by omega)]
    omega

/-- C39 on `rowWithBlock 2 4 8 8`: the bin of the sites 1 to 5 with x0 = 5. -/
theorem binSearch_nearest_of_outside_witness :
    ((5 : Int) ≤ 1 ∨ (5 : Int) ≥ 1 + (rowWithBlock 2 4 8 8).bin_search_width_ - 1)
      ∧ (binSearch (rowWithBlock 2 4 8 8) 5 ((rowWithBlock 2 4 8 8).cell 0) 1 0).pixel.isSome
      ∧ ∀ gx, 1 ≤ gx → gx < 1 + (rowWithBlock 2 4 8 8).bin_search_width_ →
          binTest (rowWithBlock 2 4 8 8) ((rowWithBlock 2 4 8 8).cell 0) 1 0 (gx - 1) = true →
          |(binSearch (rowWithBlock 2 4 8 8) 5 ((rowWithBlock 2 4 8 8).cell 0) 1 0).pt.x - 5|
            ≤ |gx - 5| :=
  ⟨by decide, by decide,
   (binSearch_nearest_of_outside (rowWithBlock 2 4 8 8) 5 ((rowWithBlock 2 4 8 8).cell 0) 1 0
      (by decide) (by decide)).2.2.2⟩

/-! ## The radii of the diamond search -/

theorem diamondLoop_eq_find (dp : Opendp) (cell : Cell) (x y : Int) (lim : SearchLimits)
    (radii : List Int) :
    diamondLoop dp cell x y lim radii
      = match radii.find? (fun i => (diamondRadius dp cell x y lim i).1.pixel.isSome) with
        | some i => (diamondRadius dp cell x y lim i).1
        | none => PixelPt.none := by
  induction radii with
  | nil => rfl
  | cons i rest ih =>
    unfold diamondLoop
    dsimp only
    cases h : (diamondRadius dp cell x y lim i).1.pixel.isSome with
    | true => simp only [List.find?_cons, h, if_true]
    | false => simp only [List.find?_cons, h, Bool.false_eq_true, if_false, ih]

theorem diamondSearch_start_miss (dp : Opendp) (cell : Cell) (x0 y0 : Int)
    (hmiss : (binSearch dp x0 cell x0 y0).pixel.isSome = false) :
    diamondSearch dp cell x0 y0
      = diamondLoop dp cell x0 y0 (diamondLimits dp cell x0 y0) (diamondRadii dp cell) := by
  unfold diamondSearch diamondRadii
  dsimp only
  rw [if_neg (by rw [hmiss]; decide)]

/-- After a miss at the start the search returns the best point of the first of the
radii 1 .. max - 1 that has one, and nothing if none of them has one. -/
theorem diamondSearch_first_radius (dp : Opendp) (cell : Cell) (x0 y0 : Int)
    (hmiss : (binSearch dp x0 cell x0 y0).pixel.isSome = false) :
    ((diamondSearch dp cell x0 y0).pixel.isSome = false ↔
        ∀ i, 1 ≤ i → i < max (scaledMaxDisplacementY dp cell) dp.max_displacement_x_ →
          (diamondRadius dp cell x0 y0 (diamondLimits dp cell x0 y0) i).1.pixel.isSome = false)
      ∧ ((diamondSearch dp cell x0 y0).pixel.isSome = true →
          ∃ i, 1 ≤ i ∧ i < max (scaledMaxDisplacementY dp cell) dp.max_displacement_x_
            ∧ diamondSearch dp cell x0 y0
                = (diamondRadius dp cell x0 y0 (diamondLimits dp cell x0 y0) i).1
            ∧ ∀ j, 1 ≤ j → j < i →
                (diamondRadius dp cell x0 y0 (diamondLimits dp cell x0 y0) j).1.pixel.isSome
                  = false) := by
  rw [diamondSearch_start_miss dp cell x0 y0 hmiss, diamondLoop_eq_find]
  cases hf : (diamondRadii dp cell).find?
      (fun i => (diamondRadius dp cell x0 y0 (diamondLimits dp cell x0 y0) i).1.pixel.isSome) with
  | none =>
    dsimp only
    refine ⟨⟨fun _ i h1 h2 => ?_, fun _ => rfl⟩, fun h => ?_⟩
    · have hmem : i ∈ diamondRadii dp cell := by
        unfold diamondRadii
        rw [mem_intRange]
        exact ⟨h1, h2⟩
      rw [List.find?_eq_none] at hf
      simpa using hf i hmem
    · cases h
  | some i =>
    dsimp only
    have hi := List.find?_some hf
    have hmem := List.mem_of_find?_eq_some hf
    unfold diamondRadii at hmem hf
    rw [mem_intRange] at hmem
    refine ⟨⟨fun h => ?_, fun h => ?_⟩, fun _ => ⟨i, hmem.1, hmem.2, rfl, ?_⟩⟩
    · rw [h] at hi
      cases hi
    · have := h i hmem.1 hmem.2
      rw [this] at hi
      cases hi
    · intro j hj1 hji
      exact find?_first_of_sorted _ _ i (intRange_pairwise _ _) hf j
        ((mem_intRange _ _ _).2 ⟨hj1, by omega⟩) hji

/-- C31 fails on `holeGrid` for the start (1, 1): the limits are 2 sites and 2 rows,
so max(Dx, Dy') = 2; the start is occupied and the search reports failure after
radius 1, the only radius of its loop, while radius 2 has a hit: the offsets
(-1, -1) lead to the free pixel at site 0 of row 0. -/
theorem diamondSearch_skips_last_radius :
    max (scaledMaxDisplacementY holeGrid (holeGrid.cell 0)) holeGrid.max_displacement_x_ = 2
      ∧ (binSearch holeGrid 1 (holeGrid.cell 0) 1 1).pixel.isSome = false
      ∧ diamondRadii holeGrid (holeGrid.cell 0) = [1]
      ∧ (diamondSearch holeGrid (holeGrid.cell 0) 1 1).pixel.isSome = false
      ∧ (diamondRadius holeGrid (holeGrid.cell 0) 1 1
          (diamondLimits holeGrid (holeGrid.cell 0) 1 1) 2).1.pixel.isSome = true
      ∧ (diamondRadius holeGrid (holeGrid.cell 0) 1 1
          (diamondLimits holeGrid (holeGrid.cell 0) 1 1) 2).1.pt = ⟨0, 0⟩ := by
  decide

/-- C31, amended: when the start position is not feasible, `diamondSearch` examines
the radii i = 1, 2, ..., max(Dx, Dy') - 1 in increasing order, the radius
max(Dx, Dy') not included: it reports failure exactly when none of these radii
has a hit, and otherwise returns the best point of the first of them that has
one. -/
theorem diamondSearch_radii_below_max (dp : Opendp) (cell : Cell) (x0 y0 : Int)
    (hmiss : (binSearch dp x0 cell x0 y0).pixel.isSome = false) :
    ((diamondSearch dp cell x0 y0).pixel.isSome = false ↔
        ∀ i, 1 ≤ i → i < max (scaledMaxDisplacementY dp cell) dp.max_displacement_x_ →
          (diamondRadius dp cell x0 y0 (diamondLimits dp cell x0 y0) i).1.pixel.isSome = false)
      ∧ ((diamondSearch dp cell x0 y0).pixel.isSome = true →
          ∃ i, 1 ≤ i ∧ i < max (scaledMaxDisplacementY dp cell) dp.max_displacement_x_
            ∧ diamondSearch dp cell x0 y0
                = (diamondRadius dp cell x0 y0 (diamondLimits dp cell x0 y0) i).1
            ∧ ∀ j, 1 ≤ j → j < i →
                (diamondRadius dp cell x0 y0 (diamondLimits dp cell x0 y0) j).1.pixel.isSome
                  = false) :=
  diamondSearch_first_radius dp cell x0 y0 hmiss

/-- C31, amended, on `holeGridWide` for the start (1, 1): the limits are 3, the radii
are 1 and 2, and the search returns the point (0, 0) of radius 2. -/
theorem diamondSearch_radii_below_max_witness :
    (binSearch holeGridWide 1 (holeGridWide.cell 0) 1 1).pixel.isSome = false
      ∧ (diamondSearch holeGridWide (holeGridWide.cell 0) 1 1).pt = ⟨0, 0⟩
      ∧ ∃ i, 1 ≤ i
        ∧ i < max (scaledMaxDisplacementY holeGridWide (holeGridWide.cell 0))
            holeGridWide.max_displacement_x_
        ∧ diamondSearch holeGridWide (holeGridWide.cell 0) 1 1
            = (diamondRadius holeGridWide (holeGridWide.cell 0) 1 1
                (diamondLimits holeGridWide (holeGridWide.cell 0) 1 1) i).1
        ∧ ∀ j, 1 ≤ j → j < i →
            (diamondRadius holeGridWide (holeGridWide.cell 0) 1 1
              (diamondLimits holeGridWide (holeGridWide.cell 0) 1 1) j).1.pixel.isSome = false :=
  ⟨by decide, by decide,
   (diamondSearch_radii_below_max holeGridWide (holeGridWide.cell 0) 1 1 (by decide)).2
     (by decide)⟩

/-! ## The best hit of a radius -/

theorem diamondSearchSide_eq_sideHit (dp : Opendp) (cell : Cell) (x y : Int) (lim : SearchLimits)
    (best : PixelPt × Int) (o : Int × Int) :
    diamondSearchSide dp cell x y lim o.1 o.2 best
      = match sideHit dp cell x y lim o with
        | some a => if (best.1.pixel.isNone || decide (a.2 < best.2)) = true then a else best
        | none => best := by
  unfold diamondSearchSide sideHit
  dsimp only
  by_cases h : (binSearch dp x cell (min lim.x_max (max lim.x_min (x + o.1 * dp.bin_search_width_)))
      (min lim.y_max (max lim.y_min (y + o.2)))).pixel.isSome = true
  · rw [if_pos h, if_pos h]
  · rw [if_neg h, if_neg h]

theorem sideHit_isSome (dp : Opendp) (cell : Cell) (x y : Int) (lim : SearchLimits)
    (o : Int × Int) (a : PixelPt × Int) (h : sideHit dp cell x y lim o = some a) :
    a.1.pixel.isSome = true
      ∧ a.1 = binSearch dp x cell (sideBin dp x y lim o.1 o.2).x (sideBin dp x y lim o.1 o.2).y
      ∧ a.2 = searchDist dp cell x y a.1.pt := by
  unfold sideHit at h
  dsimp only at h
  split_ifs at h with hs
  cases h
  exact ⟨hs, rfl, rfl⟩

/-- A fold that takes a hit when it has none or when the hit is strictly nearer ends
with the first of the nearest hits. -/
theorem foldl_first_min {β : Type} (hit : β → Option (PixelPt × Int))
    (hsome : ∀ o a, hit o = some a → a.1.pixel.isSome = true)
    (step : PixelPt × Int → β → PixelPt × Int)
    (hstep : ∀ best o, step best o = match hit o with
      | some a => if (best.1.pixel.isNone || decide (a.2 < best.2)) = true then a else best
      | none => best)
    (l : List β) :
    ((∀ o ∈ l, hit o = none) ∧ l.foldl step (PixelPt.none, 0) = (PixelPt.none, 0))
      ∨ ∃ pre o post a, l = pre ++ o :: post ∧ hit o = some a
          ∧ l.foldl step (PixelPt.none, 0) = a
          ∧ (∀ o1 ∈ pre, ∀ a1, hit o1 = some a1 → a.2 < a1.2)
          ∧ (∀ o1 ∈ post, ∀ a1, hit o1 = some a1 → a.2 ≤ a1.2) := by
  induction l using List.reverseRecOn with
  | nil =>
    left
    refine ⟨?_, rfl⟩
    intro o ho
    cases ho
  | append_singleton l o ih =>
    rw [List.foldl_append, List.foldl_cons, List.foldl_nil, hstep]
    rcases ih with ⟨hnone, hfold⟩ | ⟨pre, ok, post, ak, hl, hk, hfold, hpre, hpost⟩
    · rw [hfold]
      cases ho : hit o with
      | none =>
        left
        refine ⟨?_, rfl⟩
        intro o1 ho1
        rcases List.mem_append.1 ho1 with h | h
        · exact hnone o1 h
        · rw [List.mem_singleton] at h
          rw [h, ho]
      | some a =>
        right
        refine ⟨l, o, [], a, rfl, ho, ?_, ?_, ?_⟩
        · dsimp only
          rw [if_pos (by simp [PixelPt.none])]
        · intro o1 ho1 a1 ha1
          rw [hnone o1 ho1] at ha1
          cases ha1
        · intro o1 ho1
          cases ho1
    · rw [hfold]
      have hak := hsome ok ak hk
      cases ho : hit o with
      | none =>
        right
        refine ⟨pre, ok, post ++ [o], ak, by rw [hl]; simp, hk, rfl, hpre, ?_⟩
        intro o1 ho1 a1 ha1
        rcases List.mem_append.1 ho1 with h | h
        · exact hpost o1 h a1 ha1
        · rw [List.mem_singleton] at h
          rw [h, ho] at ha1
          cases ha1
      | some a =>
        dsimp only
        have hnn : ak.1.pixel.isNone = false := by
          cases hp : ak.1.pixel with
          | none => rw [hp] at hak; cases hak
          | some p => rfl
        by_cases hlt : a.2 < ak.2
        · right
          refine ⟨l, o, [], a, rfl, ho, ?_, ?_, ?_⟩
          · rw [if_pos (by rw [hnn]; simpa using hlt)]
          · intro o1 ho1 a1 ha1
            rw [hl] at ho1
            rcases List.mem_append.1 ho1 with h | h
            · have := hpre o1 h a1 ha1
              omega
            · rcases List.mem_cons.1 h with h | h
              · rw [h, hk] at ha1
                cases ha1
                exact hlt
              · have := hpost o1 h a1 ha1
                omega
          · intro o1 ho1
            cases ho1
        · right
          refine ⟨pre, ok, post ++ [o], ak, by rw [hl]; simp, hk, ?_, hpre, ?_⟩
          · rw [if_neg (by rw [hnn]; simpa using hlt)]
          · intro o1 ho1 a1 ha1
            rcases List.mem_append.1 ho1 with h | h
            · exact hpost o1 h a1 ha1
            · rw [List.mem_singleton] at h
              rw [h, ho] at ha1
              cases ha1
              omega

/-- The best point of a radius: nothing when no bin of the radius has a hit, else
the first of the nearest hits, in the order of the offsets. -/
theorem diamondRadius_first_min (dp : Opendp) (cell : Cell) (x y : Int) (lim : SearchLimits)
    (i : Int) :
    ((∀ o ∈ leftOffsets dp cell i ++ rightOffsets dp cell i, sideHit dp cell x y lim o = none)
        ∧ diamondRadius dp cell x y lim i = (PixelPt.none, 0))
      ∨ ∃ pre o post a, leftOffsets dp cell i ++ rightOffsets dp cell i = pre ++ o :: post
          ∧ sideHit dp cell x y lim o = some a
          ∧ diamondRadius dp cell x y lim i = a
          ∧ (∀ o1 ∈ pre, ∀ a1, sideHit dp cell x y lim o1 = some a1 → a.2 < a1.2)
          ∧ (∀ o1 ∈ post, ∀ a1, sideHit dp cell x y lim o1 = some a1 → a.2 ≤ a1.2) := by
  rw [diamondRadius_eq_foldl]
  exact foldl_first_min (sideHit dp cell x y lim)
    (fun o a h => (sideHit_isSome dp cell x y lim o a h).1) _
    (fun best o => diamondSearchSide_eq_sideHit dp cell x y lim best o) _

theorem find?_eq_of_first (l : List Int) (p : Int → Bool) (i : Int)
    (hs : l.Pairwise (· < ·)) (hi : i ∈ l) (hp : p i = true)
    (hfirst : ∀ j ∈ l, j < i → p j = false) : l.find? p = some i := by
  cases hf : l.find? p with
  | none =>
    rw [List.find?_eq_none] at hf
    exact absurd hp (hf i hi)
  | some k =>
    have hk := List.find?_some hf
    have hkm := List.mem_of_find?_eq_some hf
    have h1 := find?_first_of_sorted l p k hs hf
    rcases lt_trichotomy k i with h | h | h
    · rw [hfirst k hkm h] at hk
      cases hk
    · rw [h]
    · rw [h1 i hi h] at hp
      cases hp

/-- The search returns the first of the nearest hits of the first radius that has a
hit in one of its bins. -/
theorem diamondSearch_first_min (dp : Opendp) (cell : Cell) (x0 y0 : Int) (i : Int)
    (hmiss : (binSearch dp x0 cell x0 y0).pixel.isSome = false)
    (hi1 : 1 ≤ i) (hi2 : i < max (scaledMaxDisplacementY dp cell) dp.max_displacement_x_)
    (hfirst : ∀ j, 1 ≤ j → j < i → ∀ o ∈ leftOffsets dp cell j ++ rightOffsets dp cell j,
      sideHit dp cell x0 y0 (diamondLimits dp cell x0 y0) o = none)
    (hhit : ∃ o ∈ leftOffsets dp cell i ++ rightOffsets dp cell i,
      (sideHit dp cell x0 y0 (diamondLimits dp cell x0 y0) o).isSome = true) :
    ∃ pre o post a, leftOffsets dp cell i ++ rightOffsets dp cell i = pre ++ o :: post
      ∧ sideHit dp cell x0 y0 (diamondLimits dp cell x0 y0) o = some a
      ∧ diamondSearch dp cell x0 y0 = a.1
      ∧ a.2 = searchDist dp cell x0 y0 a.1.pt
      ∧ (∀ o1 ∈ pre, ∀ a1,
          sideHit dp cell x0 y0 (diamondLimits dp cell x0 y0) o1 = some a1 → a.2 < a1.2)
      ∧ (∀ o1 ∈ post, ∀ a1,
          sideHit dp cell x0 y0 (diamondLimits dp cell x0 y0) o1 = some a1 → a.2 ≤ a1.2) := by
  rcases diamondRadius_first_min dp cell x0 y0 (diamondLimits dp cell x0 y0) i with
    ⟨hnone, -⟩ | ⟨pre, o, post, a, hl, ho, hrad, hpre, hpost⟩
  · obtain ⟨o, hom, hos⟩ := hhit
    rw [hnone o hom] at hos
    cases hos
  · obtain ⟨ha1, -, ha3⟩ := sideHit_isSome dp cell x0 y0 _ o a ho
    refine ⟨pre, o, post, a, hl, ho, ?_, ha3, hpre, hpost⟩
    rw [diamondSearch_start_miss dp cell x0 y0 hmiss, diamondLoop_eq_find]
    have hfind : (diamondRadii dp cell).find?
        (fun k => (diamondRadius dp cell x0 y0 (diamondLimits dp cell x0 y0) k).1.pixel.isSome)
        = some i := by
      apply find?_eq_of_first
      · exact intRange_pairwise _ _
      · unfold diamondRadii
        rw [mem_intRange]
        exact ⟨hi1, hi2⟩
      · dsimp only
        rw [hrad]
        exact ha1
      · intro j hj hji
        unfold diamondRadii at hj
        rw [mem_intRange] at hj
        rcases diamondRadius_first_min dp cell x0 y0 (diamondLimits dp cell x0 y0) j with
          ⟨-, hr⟩ | ⟨pre1, o1, post1, a1, hl1, ho1, -, -, -⟩
        · rw [hr]
          rfl
        · have hmem : o1 ∈ leftOffsets dp cell j ++ rightOffsets dp cell j := by
            rw [hl1]
            simp
          rw [hfirst j hj.1 hji o1 hmem] at ho1
          cases ho1
    rw [hfind]
    dsimp only
    rw [hrad]

/-- C33: when the start has no hit and i is the first radius of the loop with a hit
in one of its bins, `diamondSearch` returns a hit of radius i whose distance
|gx - x0| * site_width + |gy - y0| * row_height is the smallest of the hits of
that radius: the hits found before it, in the order left wing then right wing,
are strictly farther, and those found after it are not nearer. -/
theorem diamondSearch_nearest_hit_of_first_radius (dp : Opendp) (cell : Cell) (x0 y0 : Int)
    (i : Int)
    (hmiss : (binSearch dp x0 cell x0 y0).pixel.isSome = false)
    (hi1 : 1 ≤ i) (hi2 : i < max (scaledMaxDisplacementY dp cell) dp.max_displacement_x_)
    (hfirst : ∀ j, 1 ≤ j → j < i → ∀ o ∈ leftOffsets dp cell j ++ rightOffsets dp cell j,
      sideHit dp cell x0 y0 (diamondLimits dp cell x0 y0) o = none)
    (hhit : ∃ o ∈ leftOffsets dp cell i ++ rightOffsets dp cell i,
      (sideHit dp cell x0 y0 (diamondLimits dp cell x0 y0) o).isSome = true) :
    ∃ pre o post a, leftOffsets dp cell i ++ rightOffsets dp cell i = pre ++ o :: post
      ∧ sideHit dp cell x0 y0 (diamondLimits dp cell x0 y0) o = some a
      ∧ diamondSearch dp cell x0 y0 = a.1
      ∧ a.2 = searchDist dp cell x0 y0 a.1.pt
      ∧ (∀ o1 ∈ pre, ∀ a1,
          sideHit dp cell x0 y0 (diamondLimits dp cell x0 y0) o1 = some a1 → a.2 < a1.2)
      ∧ (∀ o1 ∈ post, ∀ a1,
          sideHit dp cell x0 y0 (diamondLimits dp cell x0 y0) o1 = some a1 → a.2 ≤ a1.2) :=
  diamondSearch_first_min dp cell x0 y0 i hmiss hi1 hi2 hfirst hhit

/-- C33 on `holeGridWide` for the start (1, 1): radius 1 has no hit, radius 2 has the
hit (0, 0) at the offsets (-1, -1). -/
theorem diamondSearch_nearest_hit_of_first_radius_witness :
    (binSearch holeGridWide 1 (holeGridWide.cell 0) 1 1).pixel.isSome = false
      ∧ (diamondSearch holeGridWide (holeGridWide.cell 0) 1 1).pt = ⟨0, 0⟩
      ∧ ∃ pre o post a,
        leftOffsets holeGridWide (holeGridWide.cell 0) 2
            ++ rightOffsets holeGridWide (holeGridWide.cell 0) 2 = pre ++ o :: post
        ∧ sideHit holeGridWide (holeGridWide.cell 0) 1 1
            (diamondLimits holeGridWide (holeGridWide.cell 0) 1 1) o = some a
        ∧ diamondSearch holeGridWide (holeGridWide.cell 0) 1 1 = a.1
        ∧ a.2 = searchDist holeGridWide (holeGridWide.cell 0) 1 1 a.1.pt
        ∧ (∀ o1 ∈ pre, ∀ a1,
            sideHit holeGridWide (holeGridWide.cell 0) 1 1
              (diamondLimits holeGridWide (holeGridWide.cell 0) 1 1) o1 = some a1 → a.2 < a1.2)
        ∧ (∀ o1 ∈ post, ∀ a1,
            sideHit holeGridWide (holeGridWide.cell 0) 1 1
              (diamondLimits holeGridWide (holeGridWide.cell 0) 1 1) o1 = some a1 → a.2 ≤ a1.2) :=
  ⟨by decide, by decide,
   diamondSearch_nearest_hit_of_first_radius holeGridWide (holeGridWide.cell 0) 1 1 2
     (by decide) (by decide) (by decide)
     (by
      intro j h1 h2
      have hj : j = 1 := by omega
      subst hj
      decide)
     ⟨(-1, -1), by decide, by decide⟩⟩

theorem find?_eq_of_first_desc (l : List Int) (p : Int → Bool) (i : Int)
    (hs : l.Pairwise (· > ·)) (hi : i ∈ l) (hp : p i = true)
    (hfirst : ∀ j ∈ l, j > i → p j = false) : l.find? p = some i := by
  cases hf : l.find? p with
  | none =>
    rw [List.find?_eq_none] at hf
    exact absurd hp (hf i hi)
  | some k =>
    have hk := List.find?_some hf
    have hkm := List.mem_of_find?_eq_some hf
    have h1 := find?_first_of_sorted_desc l p k hs hf
    rcases lt_trichotomy k i with h | h | h
    · rw [h1 i hi h] at hp
      cases hp
    · rw [h]
    · rw [hfirst k hkm h] at hk
      cases hk

/-- The downward scan from gx - 1 to 0 stops at the nearest position below gx that
passes the test. -/
theorem find?_down_iff (p : Int → Bool) (g x : Int) :
    (intRange 0 g).reverse.find? p = some x
      ↔ 0 ≤ x ∧ x < g ∧ p x = true ∧ ∀ x1, x < x1 → x1 < g → p x1 = false := by
  constructor
  · intro hf
    have hm := List.mem_of_find?_eq_some hf
    rw [List.mem_reverse, mem_intRange] at hm
    refine ⟨hm.1, hm.2, List.find?_some hf, ?_⟩
    intro x1 h1 h2
    refine find?_first_of_sorted_desc _ p x (intRange_reverse_pairwise 0 g) hf x1 ?_ h1
    rw [List.mem_reverse, mem_intRange]
    omega
  · rintro ⟨h0, h1, h2, h3⟩
    apply find?_eq_of_first_desc _ p x (intRange_reverse_pairwise 0 g)
    · rw [List.mem_reverse, mem_intRange]
      exact ⟨h0, h1⟩
    · exact h2
    · intro j hj hlt
      rw [List.mem_reverse, mem_intRange] at hj
      exact h3 j hlt hj.2

/-- The upward scan from g + 1 to count - 1 stops at the nearest position above g
that passes the test. -/
theorem find?_up_iff (p : Int → Bool) (g count x : Int) :
    (intRange (g + 1) count).find? p = some x
      ↔ g < x ∧ x < count ∧ p x = true ∧ ∀ x1, g < x1 → x1 < x → p x1 = false := by
  constructor
  · intro hf
    have hm := List.mem_of_find?_eq_some hf
    rw [mem_intRange] at hm
    refine ⟨by omega, hm.2, List.find?_some hf, ?_⟩
    intro x1 h1 h2
    refine find?_first_of_sorted _ p x (intRange_pairwise _ _) hf x1 ?_ h2
    rw [mem_intRange]
    omega
  · rintro ⟨h0, h1, h2, h3⟩
    apply find?_eq_of_first _ p x (intRange_pairwise _ _)
    · rw [mem_intRange]
      omega
    · exact h2
    · intro j hj hlt
      rw [mem_intRange] at hj
      exact h3 j (by omega) hlt

theorem find?_down_none_iff (p : Int → Bool) (g : Int) :
    (intRange 0 g).reverse.find? p = none ↔ ∀ x, 0 ≤ x → x < g → p x = false := by
  rw [List.find?_eq_none]
  constructor
  · intro h x h0 h1
    have := h x (by rw [List.mem_reverse, mem_intRange]; exact ⟨h0, h1⟩)
    simpa using this
  · intro h x hx
    rw [List.mem_reverse, mem_intRange] at hx
    rw [h x hx.1 hx.2]
    decide

theorem find?_up_none_iff (p : Int → Bool) (g count : Int) :
    (intRange (g + 1) count).find? p = none ↔ ∀ x, g < x → x < count → p x = false := by
  rw [List.find?_eq_none]
  constructor
  · intro h x h0 h1
    have := h x (by rw [mem_intRange]; omega)
    simpa using this
  · intro h x hx
    rw [mem_intRange] at hx
    rw [h x (by omega) hx.2]
    decide

/-- The candidate `nearestCandidate` picks has the smallest distance: those before
it are strictly farther, those after it are not nearer. -/
theorem nearestCandidate_spec (l : List (Point × Int)) :
    (nearestCandidate l = none ↔ l = [])
      ∧ ∀ c, nearestCandidate l = some c →
        ∃ pre post, l = pre ++ c :: post
          ∧ (∀ c1 ∈ pre, c.2 < c1.2) ∧ (∀ c1 ∈ post, c.2 ≤ c1.2) := by
  induction l with
  | nil =>
    refine ⟨by simp [nearestCandidate], ?_⟩
    intro c h
    simp [nearestCandidate] at h
  | cons c0 cs ih =>
    obtain ⟨ih1, ih2⟩ := ih
    constructor
    · unfold nearestCandidate
      cases hn : nearestCandidate cs with
      | none => simp
      | some d =>
        dsimp only
        split_ifs <;> simp
    · intro c h
      unfold nearestCandidate at h
      cases hn : nearestCandidate cs with
      | none =>
        rw [hn] at h
        dsimp only at h
        have hnil := ih1.mp hn
        subst hnil
        injection h with h
        subst h
        exact ⟨[], [], rfl, by simp, by simp⟩
      | some d =>
        rw [hn] at h
        dsimp only at h
        obtain ⟨pre, post, hl, hpre, hpost⟩ := ih2 d hn
        by_cases hlt : d.2 < c0.2
        · rw [if_pos hlt] at h
          injection h with h
          subst h
          refine ⟨c0 :: pre, post, by rw [hl]; rfl, ?_, hpost⟩
          intro c1 hc1
          rcases List.mem_cons.mp hc1 with h1 | h1
          · rw [h1]
            exact hlt
          · exact hpre c1 h1
        · rw [if_neg hlt] at h
          injection h with h
          subst h
          refine ⟨[], cs, rfl, by simp, ?_⟩
          intro c1 hc1
          rw [hl] at hc1
          rcases List.mem_append.mp hc1 with h1 | h1
          · have := hpre c1 h1
            omega
          · rcases List.mem_cons.mp h1 with h2 | h2
            · rw [h2]
              omega
            · have := hpost c1 h2
              omega

/-- With every distance below `INT_MAX`, `moveHopeless` returns the point of the
first candidate with the smallest distance. -/
theorem moveHopeless_eq_nearestCandidate (dp : Opendp) (cell : Cell) (gx gy : Int)
    (hl : ∀ x ∈ intRange 0 gx, (gx - x - 1) * getSiteWidth dp cell < intMax)
    (hr : ∀ x ∈ intRange (gx + 1)
        (divFloor (dp.core_.xMax - dp.core_.xMin) (getSiteWidth dp cell)),
      (x - gx) * getSiteWidth dp cell - cell.width_ < intMax)
    (hb : ∀ y ∈ intRange 0 gy, (gy - y - 1) * (getRowInfo dp cell).1 < intMax)
    (ha : ∀ y ∈ intRange (gy + 1)
        (divFloor (dp.core_.yMax - dp.core_.yMin) (getRowInfo dp cell).1),
      (y - gy) * (getRowInfo dp cell).1 - cell.height_ < intMax) :
    moveHopeless dp cell gx gy
      = (nearestCandidate (hopelessCandidates dp cell gx gy
          ((intRange 0 gx).reverse.find?
            (fun x => (dp.grid_ (getRowInfo dp cell).2.grid_index gy x).is_valid))
          ((intRange (gx + 1)
              (divFloor (dp.core_.xMax - dp.core_.xMin) (getSiteWidth dp cell))).find?
            (fun x => (dp.grid_ (getRowInfo dp cell).2.grid_index gy x).is_valid))
          ((intRange 0 gy).reverse.find?
            (fun y => (dp.grid_ (getRowInfo dp cell).2.grid_index y gx).is_valid))
          ((intRange (gy + 1)
              (divFloor (dp.core_.yMax - dp.core_.yMin) (getRowInfo dp cell).1)).find?
            (fun y => (dp.grid_ (getRowInfo dp cell).2.grid_index y gx).is_valid)))).map
          (fun c => c.1) := by
  have hl1 : ∀ x, (intRange 0 gx).reverse.find?
      (fun x => (dp.grid_ (getRowInfo dp cell).2.grid_index gy x).is_valid) = some x →
      (gx - x - 1) * getSiteWidth dp cell < intMax := by
    intro x hx
    exact hl x (List.mem_reverse.mp (List.mem_of_find?_eq_some hx))
  have hr1 : ∀ x, (intRange (gx + 1)
      (divFloor (dp.core_.xMax - dp.core_.xMin) (getSiteWidth dp cell))).find?
      (fun x => (dp.grid_ (getRowInfo dp cell).2.grid_index gy x).is_valid) = some x →
      (x - gx) * getSiteWidth dp cell - cell.width_ < intMax := by
    intro x hx
    exact hr x (List.mem_of_find?_eq_some hx)
  have hb1 : ∀ y, (intRange 0 gy).reverse.find?
      (fun y => (dp.grid_ (getRowInfo dp cell).2.grid_index y gx).is_valid) = some y →
      (gy - y - 1) * (getRowInfo dp cell).1 < intMax := by
    intro y hy
    exact hb y (List.mem_reverse.mp (List.mem_of_find?_eq_some hy))
  have ha1 : ∀ y, (intRange (gy + 1)
      (divFloor (dp.core_.yMax - dp.core_.yMin) (getRowInfo dp cell).1)).find?
      (fun y => (dp.grid_ (getRowInfo dp cell).2.grid_index y gx).is_valid) = some y →
      (y - gy) * (getRowInfo dp cell).1 - cell.height_ < intMax := by
    intro y hy
    exact ha y (List.mem_of_find?_eq_some hy)
  unfold moveHopeless hopelessCandidates
  dsimp only
  generalize (intRange 0 gx).reverse.find?
      (fun x => (dp.grid_ (getRowInfo dp cell).2.grid_index gy x).is_valid) = l at hl1 ⊢
  generalize (intRange (gx + 1)
      (divFloor (dp.core_.xMax - dp.core_.xMin) (getSiteWidth dp cell))).find?
      (fun x => (dp.grid_ (getRowInfo dp cell).2.grid_index gy x).is_valid) = r at hr1 ⊢
  generalize (intRange 0 gy).reverse.find?
      (fun y => (dp.grid_ (getRowInfo dp cell).2.grid_index y gx).is_valid) = b at hb1 ⊢
  generalize (intRange (gy + 1)
      (divFloor (dp.core_.yMax - dp.core_.yMin) (getRowInfo dp cell).1)).find?
      (fun y => (dp.grid_ (getRowInfo dp cell).2.grid_index y gx).is_valid) = a at ha1 ⊢
  clear hl hr hb ha
  generalize getSiteWidth dp cell = sw at hl1 hr1 hb1 ha1 ⊢
  generalize (getRowInfo dp cell).1 = rh at hl1 hr1 hb1 ha1 ⊢
  rcases l with _ | xl <;> rcases r with _ | xr <;> rcases b with _ | yb <;>
    rcases a with _ | ya
  all_goals
    try have h1 := hl1 _ rfl
    try have h2 := hr1 _ rfl
    try have h3 := hb1 _ rfl
    try have h4 := ha1 _ rfl
    clear hl1 hr1 hb1 ha1
    simp only [List.filterMap_cons, List.filterMap_nil, Option.map_some', Option.map_none', id,
      nearestCandidate]
    split_ifs <;> (try dsimp only at *) <;> (try split_ifs) <;> (try dsimp only at *) <;>
      (try split_ifs) <;> first | rfl | omega

theorem hopelessCandidates_eq_nil (dp : Opendp) (cell : Cell) (gx gy : Int)
    (l r b a : Option Int) :
    hopelessCandidates dp cell gx gy l r b a = [] ↔ l = none ∧ r = none ∧ b = none ∧ a = none := by
  unfold hopelessCandidates
  cases l <;> cases r <;> cases b <;> cases a <;> simp

/-- C34 counterexample: from the start (2, 1) on `hopelessGrid` the nearest valid
pixel to the left is (0, 1), at the L1 distance 2 * 200 = 400, and the nearest
valid pixel below is (2, 0), at the L1 distance 1000; `moveHopeless` moves the
start to (2, 0). -/
theorem moveHopeless_not_smallest_l1 :
    NearestLeft hopelessGrid (getRowInfo hopelessGrid (hopelessGrid.cell 0)).2.grid_index 2 1 0
      ∧ NearestBelow hopelessGrid (getRowInfo hopelessGrid (hopelessGrid.cell 0)).2.grid_index
          2 1 0
      ∧ iabs (0 - 2) * getSiteWidth hopelessGrid (hopelessGrid.cell 0)
            + iabs (1 - 1) * (getRowInfo hopelessGrid (hopelessGrid.cell 0)).1
          < iabs (2 - 2) * getSiteWidth hopelessGrid (hopelessGrid.cell 0)
            + iabs (0 - 1) * (getRowInfo hopelessGrid (hopelessGrid.cell 0)).1
      ∧ moveHopeless hopelessGrid (hopelessGrid.cell 0) 2 1 = some ⟨2, 0⟩ := by
  refine ⟨⟨by decide, by decide, by unfold validAt; decide, ?_⟩,
    ⟨by decide, by decide, by unfold validAt; decide, ?_⟩, by decide, by decide⟩
  · intro x1 h1 h2
    have hx : x1 = 1 := by omega
    subst hx
    unfold validAt
    decide
  · intro y1 h1 h2
    omega

/-- C34, amended: with every distance below `INT_MAX`, `moveHopeless` considers the
nearest valid pixel to the left, to the right, below and above the start
(gx, gy) and moves the start to the candidate with the smallest distance,
where the distance is (gx - x - 1) * site_width to the left,
(x - gx) * site_width - width to the right, (gy - y - 1) * row_height below and
(y - gy) * row_height - height above, preferring left over right over below
over above on ties; it returns false exactly when none of the four directions
contains a valid pixel. -/
theorem moveHopeless_smallest_gap (dp : Opendp) (cell : Cell) (gx gy : Int)
    (hl : ∀ x ∈ intRange 0 gx, (gx - x - 1) * getSiteWidth dp cell < intMax)
    (hr : ∀ x ∈ intRange (gx + 1)
        (divFloor (dp.core_.xMax - dp.core_.xMin) (getSiteWidth dp cell)),
      (x - gx) * getSiteWidth dp cell - cell.width_ < intMax)
    (hb : ∀ y ∈ intRange 0 gy, (gy - y - 1) * (getRowInfo dp cell).1 < intMax)
    (ha : ∀ y ∈ intRange (gy + 1)
        (divFloor (dp.core_.yMax - dp.core_.yMin) (getRowInfo dp cell).1),
      (y - gy) * (getRowInfo dp cell).1 - cell.height_ < intMax) :
    ∃ l r b a : Option Int,
      (∀ x, l = some x ↔ NearestLeft dp (getRowInfo dp cell).2.grid_index gx gy x)
      ∧ (∀ x, r = some x ↔ NearestRight dp (getRowInfo dp cell).2.grid_index
          (divFloor (dp.core_.xMax - dp.core_.xMin) (getSiteWidth dp cell)) gx gy x)
      ∧ (∀ y, b = some y ↔ NearestBelow dp (getRowInfo dp cell).2.grid_index gx gy y)
      ∧ (∀ y, a = some y ↔ NearestAbove dp (getRowInfo dp cell).2.grid_index
          (divFloor (dp.core_.yMax - dp.core_.yMin) (getRowInfo dp cell).1) gx gy y)
      ∧ (moveHopeless dp cell gx gy = none ↔
          (∀ x, 0 ≤ x → x < gx → ¬ validAt dp (getRowInfo dp cell).2.grid_index x gy)
          ∧ (∀ x, gx < x →
              x < divFloor (dp.core_.xMax - dp.core_.xMin) (getSiteWidth dp cell) →
              ¬ validAt dp (getRowInfo dp cell).2.grid_index x gy)
          ∧ (∀ y, 0 ≤ y → y < gy → ¬ validAt dp (getRowInfo dp cell).2.grid_index gx y)
          ∧ (∀ y, gy < y →
              y < divFloor (dp.core_.yMax - dp.core_.yMin) (getRowInfo dp cell).1 →
              ¬ validAt dp (getRowInfo dp cell).2.grid_index gx y))
      ∧ ∀ p, moveHopeless dp cell gx gy = some p →
          ∃ pre c post, hopelessCandidates dp cell gx gy l r b a = pre ++ c :: post
            ∧ c.1 = p ∧ (∀ c1 ∈ pre, c.2 < c1.2) ∧ (∀ c1 ∈ post, c.2 ≤ c1.2) := by
  refine ⟨(intRange 0 gx).reverse.find?
      (fun x => (dp.grid_ (getRowInfo dp cell).2.grid_index gy x).is_valid),
    (intRange (gx + 1) (divFloor (dp.core_.xMax - dp.core_.xMin) (getSiteWidth dp cell))).find?
      (fun x => (dp.grid_ (getRowInfo dp cell).2.grid_index gy x).is_valid),
    (intRange 0 gy).reverse.find?
      (fun y => (dp.grid_ (getRowInfo dp cell).2.grid_index y gx).is_valid),
    (intRange (gy + 1) (divFloor (dp.core_.yMax - dp.core_.yMin) (getRowInfo dp cell).1)).find?
      (fun y => (dp.grid_ (getRowInfo dp cell).2.grid_index y gx).is_valid),
    ?_, ?_, ?_, ?_, ?_, ?_⟩
  · intro x
    simp only [NearestLeft, validAt, Bool.not_eq_true]
    exact find?_down_iff (fun x => (dp.grid_ (getRowInfo dp cell).2.grid_index gy x).is_valid)
      gx x
  · intro x
    simp only [NearestRight, validAt, Bool.not_eq_true]
    exact find?_up_iff (fun x => (dp.grid_ (getRowInfo dp cell).2.grid_index gy x).is_valid)
      gx _ x
  · intro y
    simp only [NearestBelow, validAt, Bool.not_eq_true]
    exact find?_down_iff (fun y => (dp.grid_ (getRowInfo dp cell).2.grid_index y gx).is_valid)
      gy y
  · intro y
    simp only [NearestAbove, validAt, Bool.not_eq_true]
    exact find?_up_iff (fun y => (dp.grid_ (getRowInfo dp cell).2.grid_index y gx).is_valid)
      gy _ y
  · rw [moveHopeless_eq_nearestCandidate dp cell gx gy hl hr hb ha, Option.map_eq_none',
      (nearestCandidate_spec _).1, hopelessCandidates_eq_nil, find?_down_none_iff,
      find?_up_none_iff, find?_down_none_iff, find?_up_none_iff]
    simp only [validAt, Bool.not_eq_true]
  · intro p hp
    rw [moveHopeless_eq_nearestCandidate dp cell gx gy hl hr hb ha, Option.map_eq_some'] at hp
    obtain ⟨c, hc, hcp⟩ := hp
    obtain ⟨pre, post, h1, h2, h3⟩ := (nearestCandidate_spec _).2 c hc
    exact ⟨pre, c, post, h1, hcp, h2, h3⟩

/-- C34, amended, on `hopelessGrid` for the start (2, 1): the candidates are the
pixel (0, 1) to the left, at the distance 200, and the pixel (2, 0) below, at
the distance 0. -/
theorem moveHopeless_smallest_gap_witness :
    moveHopeless hopelessGrid (hopelessGrid.cell 0) 2 1 = some ⟨2, 0⟩
    ∧ ∃ l r b a : Option Int,
      (∀ x, l = some x ↔ NearestLeft hopelessGrid
          (getRowInfo hopelessGrid (hopelessGrid.cell 0)).2.grid_index 2 1 x)
      ∧ (∀ x, r = some x ↔ NearestRight hopelessGrid
          (getRowInfo hopelessGrid (hopelessGrid.cell 0)).2.grid_index
          (divFloor (hopelessGrid.core_.xMax - hopelessGrid.core_.xMin)
            (getSiteWidth hopelessGrid (hopelessGrid.cell 0))) 2 1 x)
      ∧ (∀ y, b = some y ↔ NearestBelow hopelessGrid
          (getRowInfo hopelessGrid (hopelessGrid.cell 0)).2.grid_index 2 1 y)
      ∧ (∀ y, a = some y ↔ NearestAbove hopelessGrid
          (getRowInfo hopelessGrid (hopelessGrid.cell 0)).2.grid_index
          (divFloor (hopelessGrid.core_.yMax - hopelessGrid.core_.yMin)
            (getRowInfo hopelessGrid (hopelessGrid.cell 0)).1) 2 1 y)
      ∧ (moveHopeless hopelessGrid (hopelessGrid.cell 0) 2 1 = none ↔
          (∀ x, 0 ≤ x → x < 2 → ¬ validAt hopelessGrid
              (getRowInfo hopelessGrid (hopelessGrid.cell 0)).2.grid_index x 1)
          ∧ (∀ x, 2 < x →
              x < divFloor (hopelessGrid.core_.xMax - hopelessGrid.core_.xMin)
                (getSiteWidth hopelessGrid (hopelessGrid.cell 0)) →
              ¬ validAt hopelessGrid
                (getRowInfo hopelessGrid (hopelessGrid.cell 0)).2.grid_index x 1)
          ∧ (∀ y, 0 ≤ y → y < 1 → ¬ validAt hopelessGrid
              (getRowInfo hopelessGrid (hopelessGrid.cell 0)).2.grid_index 2 y)
          ∧ (∀ y, 1 < y →
              y < divFloor (hopelessGrid.core_.yMax - hopelessGrid.core_.yMin)
                (getRowInfo hopelessGrid (hopelessGrid.cell 0)).1 →
              ¬ validAt hopelessGrid
                (getRowInfo hopelessGrid (hopelessGrid.cell 0)).2.grid_index 2 y))
      ∧ ∀ p, moveHopeless hopelessGrid (hopelessGrid.cell 0) 2 1 = some p →
          ∃ pre c post,
            hopelessCandidates hopelessGrid (hopelessGrid.cell 0) 2 1 l r b a = pre ++ c :: post
            ∧ c.1 = p ∧ (∀ c1 ∈ pre, c.2 < c1.2) ∧ (∀ c1 ∈ post, c.2 ≤ c1.2) :=
  ⟨by decide,
   moveHopeless_smallest_gap hopelessGrid (hopelessGrid.cell 0) 2 1
     (by decide) (by decide) (by decide) (by decide)⟩

/-! ## The nearest block edge -/

/-- C35: on `blockCore` the cell 0, 200 wide and 1000 high, fits the core and
overlaps the block [400, 650] x [0, 4000] at the legal point (600, 1000);
`nearestBlockEdge` takes the branch right of the block, where `legalPt` rounds
the edge 650 to the site 3, and returns (600, 1000): a grid-aligned point at
which the cell still overlaps the block. -/
theorem nearestBlockEdge_right_edge_overlaps :
    cellFitsInCore blockCore (blockCore.cell 0) = true
      ∧ overlapsAt (blockCore.cell 0) ⟨600, 1000⟩ ⟨400, 0, 650, 4000⟩
      ∧ nearestBlockEdgeSide (blockCore.cell 0) ⟨600, 1000⟩ ⟨400, 0, 650, 4000⟩
          = BlockSide.right
      ∧ nearestBlockEdge blockCore (blockCore.cell 0) ⟨600, 1000⟩ ⟨400, 0, 650, 4000⟩
          = ⟨600, 1000⟩
      ∧ overlapsAt (blockCore.cell 0)
          (nearestBlockEdge blockCore (blockCore.cell 0) ⟨600, 1000⟩ ⟨400, 0, 650, 4000⟩)
          ⟨400, 0, 650, 4000⟩ := by
  refine ⟨?_, ?_, ?_, ?_, ?_⟩ <;> decide

/-- C37: `nearestBlockEdge` returns the legal point of the side its tests choose,
the distance of that side is the minimum of `x_min_dist`, `x_max_dist`,
`y_min_dist` and `y_max_dist`, and when the side is the final one, above, then
`y_max_dist` is at most each of the four distances. -/
theorem nearestBlockEdge_side_minimal (dp : Opendp) (cell : Cell) (legal_pt : Point)
    (block_bbox : Rect) :
    nearestBlockEdge dp cell legal_pt block_bbox
        = legalPt dp cell
            (blockSidePoint dp cell legal_pt block_bbox
              (nearestBlockEdgeSide cell legal_pt block_bbox))
            (getRowHeight dp cell) (getSiteWidth dp cell)
      ∧ blockSideDist cell legal_pt block_bbox (nearestBlockEdgeSide cell legal_pt block_bbox)
          = min (min (blockSideDist cell legal_pt block_bbox BlockSide.left)
                  (blockSideDist cell legal_pt block_bbox BlockSide.right))
              (min (blockSideDist cell legal_pt block_bbox BlockSide.below)
                  (blockSideDist cell legal_pt block_bbox BlockSide.above))
      ∧ (nearestBlockEdgeSide cell legal_pt block_bbox = BlockSide.above →
          ∀ side, blockSideDist cell legal_pt block_bbox BlockSide.above
            ≤ blockSideDist cell legal_pt block_bbox side) := by
  unfold nearestBlockEdge nearestBlockEdgeSide
  dsimp only
  generalize hda : iabs (legal_pt.x - block_bbox.xMin) = da
  generalize hdb : iabs (block_bbox.xMax - (legal_pt.x + cell.width_)) = db
  generalize hdc : iabs (legal_pt.y - block_bbox.yMin) = dc
  generalize hdd : iabs (block_bbox.yMax - (legal_pt.y + cell.height_)) = dd
  have e1 : blockSideDist cell legal_pt block_bbox BlockSide.left = da := hda
  have e2 : blockSideDist cell legal_pt block_bbox BlockSide.right = db := hdb
  have e3 : blockSideDist cell legal_pt block_bbox BlockSide.below = dc := hdc
  have e4 : blockSideDist cell legal_pt block_bbox BlockSide.above = dd := hdd
  rw [e1, e2, e3, e4]
  by_cases h1 : da < db ∧ da < dc ∧ da < dd
  · simp only [if_pos h1]
    rw [e1]
    refine ⟨rfl, by omega, ?_⟩
    intro h
    cases h
  · simp only [if_neg h1]
    by_cases h2 : db ≤ da ∧ db ≤ dc ∧ db ≤ dd
    · simp only [if_pos h2]
      rw [e2]
      refine ⟨rfl, by omega, ?_⟩
      intro h
      cases h
    · simp only [if_neg h2]
      by_cases h3 : dc ≤ da ∧ dc ≤ db ∧ dc ≤ dd
      · simp only [if_pos h3]
        rw [e3]
        refine ⟨rfl, by omega, ?_⟩
        intro h
        cases h
      · simp only [if_neg h3]
        rw [e4]
        refine ⟨rfl, by omega, ?_⟩
        intro _ side
        cases side
        · rw [e1]; omega
        · rw [e2]; omega
        · rw [e3]; omega
        · rw [e4]

/-! ## The nearest corner of a region -/


/-- C36: for every cell and every rectangle in core coordinates (xMin <= xMax,
yMin <= yMax, and 0 <= xMin + xMax, 0 <= yMin + yMax, as for every region and
boundary, which lie in the core), the corner returned by
`rectDist(cell, rect, &x, &y)` is a corner of rect that minimises the L1
distance to the initial location of the cell among the four corners, and
`rectDist(cell, rect)` returns that minimal distance. -/
theorem rectDist_nearest_corner (dp : Opendp) (cell : Cell) (rect : Rect)
    (hx : rect.xMin ≤ rect.xMax) (hy : rect.yMin ≤ rect.yMax)
    (hsx : 0 ≤ rect.xMin + rect.xMax) (hsy : 0 ≤ rect.yMin + rect.yMax) :
    rectDistPt dp cell rect ∈ rect.corners
      ∧ (∀ c ∈ rect.corners,
          l1Dist (initialLocationP dp cell false) (rectDistPt dp cell rect)
            ≤ l1Dist (initialLocationP dp cell false) c)
      ∧ rectDist dp cell rect
          = l1Dist (initialLocationP dp cell false) (rectDistPt dp cell rect) := by
  refine ⟨?_, ?_, rfl⟩
  · unfold rectDistPt Rect.corners
    dsimp only
    split_ifs <;> simp
  · intro c hc
    unfold rectDistPt l1Dist iabs cdiv
    dsimp only
    generalize initialLocationP dp cell false = init
    rw [Int.tdiv_eq_ediv hsx (by decide), Int.tdiv_eq_ediv hsy (by decide)]
    unfold Rect.corners at hc
    simp only [List.mem_cons, List.mem_singleton, List.not_mem_nil, or_false] at hc
    rcases hc with h | h | h | h <;> subst h <;> dsimp only <;> split_ifs <;> omega

/-- C36 on `blockCore` for the rectangle [400, 1000] x [1000, 3000]: the
cell 0 has the initial location (0, 0) and the corner is (400, 1000). -/
theorem rectDist_nearest_corner_witness :
    rectDistPt blockCore (blockCore.cell 0) ⟨400, 1000, 1000, 3000⟩ = ⟨400, 1000⟩
      ∧ rectDistPt blockCore (blockCore.cell 0) ⟨400, 1000, 1000, 3000⟩
          ∈ Rect.corners ⟨400, 1000, 1000, 3000⟩
      ∧ (∀ c ∈ Rect.corners ⟨400, 1000, 1000, 3000⟩,
          l1Dist (initialLocationP blockCore (blockCore.cell 0) false)
              (rectDistPt blockCore (blockCore.cell 0) ⟨400, 1000, 1000, 3000⟩)
            ≤ l1Dist (initialLocationP blockCore (blockCore.cell 0) false) c)
      ∧ rectDist blockCore (blockCore.cell 0) ⟨400, 1000, 1000, 3000⟩
          = l1Dist (initialLocationP blockCore (blockCore.cell 0) false)
              (rectDistPt blockCore (blockCore.cell 0) ⟨400, 1000, 1000, 3000⟩) :=
  ⟨by decide,
   rectDist_nearest_corner blockCore (blockCore.cell 0) ⟨400, 1000, 1000, 3000⟩
     (by decide) (by decide) (by decide) (by decide)⟩

/-! ## The one-site-gap rule -/

/-- C38: a footprint that passes `checkPixels` with `disallow_one_site_gaps_` set also
passes it with the flag cleared. -/
theorem checkPixels_gap_rule_only_removes (dp : Opendp) (cell : Cell) (x y x_end y_end : Int)
    (h : checkPixels { dp with disallow_one_site_gaps_ := true } cell x y x_end y_end = true) :
    checkPixels { dp with disallow_one_site_gaps_ := false } cell x y x_end y_end = true := by
  rw [checkPixels_eq_true_iff] at h ⊢
  refine ⟨h.1, h.2.1, ?_⟩
  intro _ hd
  cases hd

/-- C38 on `gapRowGrid` for the footprint of one site at site 4 of row 1. -/
theorem checkPixels_gap_rule_only_removes_witness :
    checkPixels { gapRowGrid with disallow_one_site_gaps_ := true } (gapRowGrid.cell 0)
        4 1 5 2 = true
      ∧ checkPixels { gapRowGrid with disallow_one_site_gaps_ := false } (gapRowGrid.cell 0)
        4 1 5 2 = true :=
  ⟨by decide,
   checkPixels_gap_rule_only_removes gapRowGrid (gapRowGrid.cell 0) 4 1 5 2 (by decide)⟩

/-! ## The bounding box of a term -/

/-- C40: after `addPin` of a pin with the rectangle (5, 5)-(5, 5) and then of a pin
with the rectangle (10, 10)-(20, 20), `getBBox` is (10, 10)-(20, 20), which does
not contain the first rectangle; with the pins in the other order it is
(5, 5)-(20, 20). -/
theorem frTerm_getBBox_drops_point_rect :
    (frTerm.addPins [{ figs := [.rect ⟨5, 5, 5, 5⟩] },
        { figs := [.rect ⟨10, 10, 20, 20⟩] }]).getBBox = ⟨10, 10, 20, 20⟩
      ∧ (⟨5, 5, 5, 5⟩ : Rect) ∈ rectBoxes [{ figs := [.rect ⟨5, 5, 5, 5⟩] },
          { figs := [.rect ⟨10, 10, 20, 20⟩] }]
      ∧ ¬ (frTerm.addPins [{ figs := [.rect ⟨5, 5, 5, 5⟩] },
          { figs := [.rect ⟨10, 10, 20, 20⟩] }]).getBBox.containsRect ⟨5, 5, 5, 5⟩
      ∧ (frTerm.addPins [{ figs := [.rect ⟨10, 10, 20, 20⟩] },
          { figs := [.rect ⟨5, 5, 5, 5⟩] }]).getBBox = ⟨5, 5, 20, 20⟩ := by
  refine ⟨?_, ?_, ?_, ?_⟩ <;> decide

/-! ## Shift move of a groupless target -/

/-- For a target without a group the test `cell->inGroup() == around_cell->inGroup()`
of `shiftMove` is the relation of the claim. -/
theorem sameGroupOrGroupless_iff (a t : Cell) (hfree : t.group_ = none) :
    sameGroupOrGroupless a t ↔ t.inGroup = a.inGroup := by
  unfold sameGroupOrGroupless Cell.inGroup
  rw [hfree]
  cases a.group_ <;> simp

/-- C15: `place` calls `shiftMove` for cells without a group only.  For such a
target, `shiftMove` erases a collected cell that was placed if and only if the
cell and the target are in the same group or are both groupless, and these are
the cells it calls `mapMove` on again; a collected cell that belongs to a group
different from the group of the target is not erased, is not placed again and
is, when `shiftMove` returns, as it was. -/
theorem shiftMove_erases_iff_same_group (dp : Opendp) (c a : Nat) (grid_pt : Point)
    (hfree : (dp.cell c).group_ = none)
    (hpt : legalGridPtInit dp (dp.cell c) true (-1) (-1) = .ok grid_pt)
    (ha : a ∈ shiftRegionCells dp c grid_pt)
    (hplaced : (dp.cell a).is_placed_ = true) :
    (((shiftErase c (shiftRegionCells dp c grid_pt) dp).cell a).is_placed_ = false
        ↔ sameGroupOrGroupless (dp.cell a) (dp.cell c))
      ∧ ∃ calls s1, shiftMove dp c = .ok calls s1
        ∧ (a ∈ calls.map Prod.fst ↔ sameGroupOrGroupless (dp.cell a) (dp.cell c))
        ∧ ∀ g, (dp.cell a).group_ = some g → (dp.cell c).group_ ≠ some g →
            ((shiftErase c (shiftRegionCells dp c grid_pt) dp).cell a).is_placed_ = true
              ∧ a ∉ calls.map Prod.fst ∧ s1.cell a = dp.cell a := by
  obtain ⟨h1, calls, s1, h2, h3, h4⟩ :=
    shiftMove_erases_iff_same_inGroup dp c a grid_pt hpt ha hplaced
  have hiff := sameGroupOrGroupless_iff (dp.cell a) (dp.cell c) hfree
  refine ⟨h1.trans hiff.symm, calls, s1, h2, h3.trans hiff.symm, ?_⟩
  intro g hg _
  have hne : ¬ (dp.cell c).inGroup = (dp.cell a).inGroup := by
    unfold Cell.inGroup
    rw [hfree, hg]
    simp
  refine ⟨?_, fun hmem => hne (h3.mp hmem), ?_⟩
  · cases hp : ((shiftErase c (shiftRegionCells dp c grid_pt) dp).cell a).is_placed_ with
    | true => rfl
    | false => exact absurd (h1.mp hp) hne
  · rcases h4 with h | h
    · exact absurd h hne
    · exact h

/-- C15 on `grouplessTargetRow`: the target, cell 0, has no group; the collected cell
1 is in group 0 and stays as it is, the collected cell 2 has no group and is
erased and placed again. -/
theorem shiftMove_erases_iff_same_group_witness :
    shiftRegionCells grouplessTargetRow 0 ⟨2, 0⟩ = [1, 2]
      ∧ (shiftMove grouplessTargetRow 0).value? = some [(0, true), (2, true)]
      ∧ ((((shiftErase 0 (shiftRegionCells grouplessTargetRow 0 ⟨2, 0⟩)
              grouplessTargetRow).cell 1).is_placed_ = false
          ↔ sameGroupOrGroupless (grouplessTargetRow.cell 1) (grouplessTargetRow.cell 0))
        ∧ ∃ calls s1, shiftMove grouplessTargetRow 0 = .ok calls s1
          ∧ (1 ∈ calls.map Prod.fst
              ↔ sameGroupOrGroupless (grouplessTargetRow.cell 1) (grouplessTargetRow.cell 0))
          ∧ ∀ g, (grouplessTargetRow.cell 1).group_ = some g →
              (grouplessTargetRow.cell 0).group_ ≠ some g →
              ((shiftErase 0 (shiftRegionCells grouplessTargetRow 0 ⟨2, 0⟩)
                  grouplessTargetRow).cell 1).is_placed_ = true
                ∧ 1 ∉ calls.map Prod.fst ∧ s1.cell 1 = grouplessTargetRow.cell 1) :=
  ⟨by decide, by decide,
   shiftMove_erases_iff_same_group grouplessTargetRow 0 1 ⟨2, 0⟩ (by decide)
     (by
      have h : (legalGridPtInit grouplessTargetRow (grouplessTargetRow.cell 0) true (-1)
          (-1)).toOption = some ⟨2, 0⟩ := by decide
      cases hl : legalGridPtInit grouplessTargetRow (grouplessTargetRow.cell 0) true (-1) (-1) with
      | error e => rw [hl] at h; cases h
      | ok p =>
        rw [hl] at h
        cases h
        rfl)
     (by decide) (by decide)⟩

/-! ## Group placement: every member is placed -/

end Dpl
